import Mathlib

/-!
# Spherical volume rendering: shallow embedding of the traversal core

This file embeds, over exact rational arithmetic, the spherical-voxel
traversal of `src/cpp/spherical_volume_rendering_util.cpp` together with the
`Ray` of `src/unnamed/part_000`.  C++ `double` values become `ℚ`;
`std::sqrt` is abstracted as an explicit function parameter `sq : ℚ → ℚ`
(the library routine the code links against), so every definition stays
computable and concrete runs can be evaluated with `decide`.  C++ `int`
becomes `ℤ`; `std::size_t` conversions are made explicit through
`sizeTOfInt` (reduction modulo `2^64`).  The `while (true)` traversal loop
becomes a fuel-indexed iteration `loopGo` returning `Option`; termination of
the C++ loop is the statement that some fuel suffices.

Headers absent from `src/` (`vec3.h`, `floating_point_comparison_util.h`,
the `RaySegment` and `SphericalVoxelGrid` declarations, the `SphericalVoxel`
struct) are modelled from the specification, as marked on each definition.
-/

namespace SVR

/-- 3-d vector with rational components.  Modelled from the spec:
`vec3.h` is not in `src/`; the spec (§2 component A) describes plain 3-d
vector arithmetic with dot product and squared length.  The C++ code
distinguishes `BoundVec3`/`FreeVec3`/`UnitVec3`; value-wise they are all a
triple of doubles, so a single carrier is used here. -/
structure Vec3 where
  x : ℚ
  y : ℚ
  z : ℚ
deriving DecidableEq

def Vec3.add (a b : Vec3) : Vec3 := ⟨a.x + b.x, a.y + b.y, a.z + b.z⟩

def Vec3.sub (a b : Vec3) : Vec3 := ⟨a.x - b.x, a.y - b.y, a.z - b.z⟩

def Vec3.smul (t : ℚ) (a : Vec3) : Vec3 := ⟨t * a.x, t * a.y, t * a.z⟩

def Vec3.dot (a b : Vec3) : ℚ := a.x * b.x + a.y * b.y + a.z * b.z

/-- `squared_length` of `vec3.h`:  `x² + y² + z²`. -/
def Vec3.squaredLength (a : Vec3) : ℚ := a.x * a.x + a.y * a.y + a.z * a.z

/-- `svr::LineSegment { double P1; double P2; }`: a boundary point in its
2-d active plane (spec §6). -/
structure LineSegment where
  P1 : ℚ
  P2 : ℚ
deriving DecidableEq

/-- `svr::TrigonometricValues { double cosine; double sine; }` (spec §3). -/
structure TrigonometricValues where
  cosine : ℚ
  sine : ℚ
deriving DecidableEq

/-- `HitParameters` of the C++ anonymous namespace: next boundary time and
signed voxel step. -/
structure HitParameters where
  tMax : ℚ
  tStep : ℤ
deriving DecidableEq

/-- `std::numeric_limits<double>::max()`, the sentinel used by the hit
predicates: `(2 − 2⁻⁵²)·2¹⁰²³ = 2¹⁰²⁴ − 2⁹⁷¹`, written as a numeral so
that concrete runs evaluate it without unfolding `npow`. -/
def DOUBLE_MAX : ℚ := 179769313486231570814527423731704356798070567525844996598917476803157260780028538760589558632766878171540458953514382464234321326889464182768467546703537516986049910576551282076245490090389328944075868508455133942304583236903222948165808559332123348274797826204144723168738177180919299881250404026184124858368

/-- Modelled from the spec (§4.2): absolute tolerance `ε_abs = 1e-9` of the
comparison helpers in `floating_point_comparison_util.h` (not in `src/`). -/
def ABS_EPSILON : ℚ := 1 / 1000000000

/-- Modelled from the spec (§4.2): relative tolerance `ε_rel = 1e-9`. -/
def REL_EPSILON : ℚ := 1 / 1000000000

/-- Modelled from the spec (§4.2): `isEqual(a,b)` is true iff
`|a − b| ≤ ε_abs + ε_rel·max(|a|,|b|)`. -/
def isEqual (a b : ℚ) : Bool :=
  decide (|a - b| ≤ ABS_EPSILON + REL_EPSILON * max |a| |b|)

/-- Modelled from the spec (§4.2): `lessThan(a,b)` returns `a < b − ε`,
with the same combined tolerance as `isEqual`. -/
def lessThan (a b : ℚ) : Bool :=
  decide (a < b - (ABS_EPSILON + REL_EPSILON * max |a| |b|))

/-- C++ conversion of a (possibly negative) `int`/`long` value to
`std::size_t`: reduction modulo `2^64`. -/
def sizeTOfInt (a : ℤ) : ℕ := (a.emod 18446744073709551616).toNat

/-- The `Ray` of `src/unnamed/part_000`: origin and normalized direction.
The constructor-computed members (`x_dir_is_non_zero_` etc. and
`inverse_direction_`) are exposed as the functions below. -/
structure Ray where
  origin : Vec3
  direction : Vec3
deriving DecidableEq

/-- `x_dir_is_non_zero_(direction.x() > 0)` — note the constructor tests
strict positivity, not non-zeroness. -/
def Ray.xDirectionIsNonZero (r : Ray) : Bool := decide (0 < r.direction.x)

/-- `y_dir_is_non_zero_(direction.y() > 0)`. -/
def Ray.yDirectionIsNonZero (r : Ray) : Bool := decide (0 < r.direction.y)

/-- `z_dir_is_non_zero_(direction.z() > 0)`. -/
def Ray.zDirectionIsNonZero (r : Ray) : Bool := decide (0 < r.direction.z)

/-- `inverse_direction_ = (1/dx, 1/dy, 1/dz)`.  In `ℚ`, `1/0 = 0` stands in
for the C++ infinity produced by dividing by a zero component; the traversal
only multiplies by an inverse component after checking the corresponding
positivity flag, except in the final `z` fallback of
`timeOfIntersectionAt`. -/
def Ray.invDirection (r : Ray) : Vec3 :=
  ⟨1 / r.direction.x, 1 / r.direction.y, 1 / r.direction.z⟩

/-- `pointAtParameter(t) = origin + t·direction`. -/
def Ray.pointAtParameter (r : Ray) (t : ℚ) : Vec3 :=
  Vec3.add r.origin (Vec3.smul t r.direction)

/-- `timeOfIntersectionAt(discriminant_v)` from `src/unnamed/part_000`
lines 276–287: dispatch on the strict-positivity flags, with an
unconditional `z` fallback. -/
def Ray.timeOfIntersectionAt (r : Ray) (discriminant_v : ℚ) : ℚ :=
  if r.xDirectionIsNonZero then
    (r.origin.x + r.direction.x * discriminant_v - r.origin.x) * r.invDirection.x
  else if r.yDirectionIsNonZero then
    (r.origin.y + r.direction.y * discriminant_v - r.origin.y) * r.invDirection.y
  else
    (r.origin.z + r.direction.z * discriminant_v - r.origin.z) * r.invDirection.z

/-- Modelled from the spec: the `Ray` overload taking a point (used at
`ray.timeOfIntersectionAt(grid.sphereCenter())`, line 464 of the `.cpp`) is
not in `src/`.  Per the header's comment, the time at a point `p` is
`(p.a − origin.a)·invDirection.a` for the selected non-zero direction
component `a`, with the same flag dispatch as the scalar overload. -/
def Ray.timeOfIntersectionAtPoint (r : Ray) (p : Vec3) : ℚ :=
  if r.xDirectionIsNonZero then (p.x - r.origin.x) * r.invDirection.x
  else if r.yDirectionIsNonZero then (p.y - r.origin.y) * r.invDirection.y
  else (p.z - r.origin.z) * r.invDirection.z

/-- Modelled from the spec (§3): `RaySegment` (declaration not in `src/`) —
a view `(P1, P2)` over the sub-interval `[t, max_t]` of the ray; `P2` is
`origin + max_t·D̂` and fixed, `P1` is updated to `origin + t·D̂`. -/
structure RaySegment where
  P1 : Vec3
  P2 : Vec3
deriving DecidableEq

/-- The `RaySegment(max_t, ray)` constructor: `P2 = origin + max_t·D̂`;
`P1` starts at the origin and is set by `updateAtTime` before use. -/
def RaySegment.make (max_t : ℚ) (ray : Ray) : RaySegment :=
  ⟨ray.origin, ray.pointAtParameter max_t⟩

/-- `updateAtTime(t, ray)`: `P1 := origin + t·D̂`. -/
def RaySegment.updateAtTime (seg : RaySegment) (t : ℚ) (ray : Ray) : RaySegment :=
  ⟨ray.pointAtParameter t, seg.P2⟩

/-- `vector() = P2 − P1`. -/
def RaySegment.vector (seg : RaySegment) : Vec3 := Vec3.sub seg.P2 seg.P1

/-- Modelled from the spec (§3): `intersectionTimeAt(b, ray)` returns the
ray time of the point `P1 + b·vector`, recovered through the ray's selected
non-zero direction component as in `timeOfIntersectionAt`. -/
def RaySegment.intersectionTimeAt (seg : RaySegment) (b : ℚ) (ray : Ray) : ℚ :=
  if ray.xDirectionIsNonZero then
    (seg.P1.x + b * seg.vector.x - ray.origin.x) * ray.invDirection.x
  else if ray.yDirectionIsNonZero then
    (seg.P1.y + b * seg.vector.y - ray.origin.y) * ray.invDirection.y
  else
    (seg.P1.z + b * seg.vector.z - ray.origin.z) * ray.invDirection.z

/-- Modelled from the spec (§3, §6): the grid is consumed as an immutable
value; only the accessors the traversal reads are modelled, as stored data.
Table accessors take `std::size_t` in C++, hence `ℕ` indices here, with
out-of-range reads (UB in C++) totalized by `List.getD` defaults. -/
structure SphericalVoxelGrid where
  sphereCenter : Vec3
  sphereMaxRadius : ℚ
  sphereMaxDiameter : ℚ
  numRadialSections : ℕ
  numPolarSections : ℕ
  numAzimuthalSections : ℕ
  deltaRadius : ℚ
  deltaTheta : ℚ
  deltaPhi : ℚ
  deltaRadiiSquaredList : List ℚ
  pMaxPolarList : List LineSegment
  pMaxAzimuthalList : List LineSegment
  centerToPolarBoundList : List Vec3
  centerToAzimuthalBoundList : List Vec3
  polarTrigValues : List TrigonometricValues
  azimuthalTrigValues : List TrigonometricValues
  sphereMinBoundPolar : ℚ
  sphereMaxBoundPolar : ℚ
  sphereMinBoundAzi : ℚ
  sphereMaxBoundAzi : ℚ

def SphericalVoxelGrid.deltaRadiiSquared (g : SphericalVoxelGrid) (k : ℕ) : ℚ :=
  g.deltaRadiiSquaredList.getD k 0

def SphericalVoxelGrid.pMaxPolar (g : SphericalVoxelGrid) (k : ℕ) : LineSegment :=
  g.pMaxPolarList.getD k ⟨0, 0⟩

def SphericalVoxelGrid.pMaxAzimuthal (g : SphericalVoxelGrid) (k : ℕ) : LineSegment :=
  g.pMaxAzimuthalList.getD k ⟨0, 0⟩

def SphericalVoxelGrid.centerToPolarBound (g : SphericalVoxelGrid) (k : ℕ) : Vec3 :=
  g.centerToPolarBoundList.getD k ⟨0, 0, 0⟩

def SphericalVoxelGrid.centerToAzimuthalBound (g : SphericalVoxelGrid) (k : ℕ) : Vec3 :=
  g.centerToAzimuthalBoundList.getD k ⟨0, 0, 0⟩

/-- Modelled from the spec (§3): output element.  The C++ `SphericalVoxel`
struct declaration is not in `src/`; per spec §3 it is
`{radial, polar, azimuthal : int, enter_t, exit_t : double}`.  The driver
pushes it with designated initializers, so members left unmentioned are
value-initialized to `0.0` — that is why `enter_t`/`exit_t` default to `0`
at the push sites below. -/
structure SphericalVoxel where
  radial : ℤ
  polar : ℤ
  azimuthal : ℤ
  enter_t : ℚ
  exit_t : ℚ
deriving DecidableEq

end SVR

namespace SVR

/-- The loop body of `calculateAngularVoxelIDFromPoints` (`.cpp` lines
44–61): scan consecutive boundary points `(angular_max[i], angular_max[j])`,
`j = i+1`, returning the first `i` whose arc contains `(p1, p2)` under the
`d1d2 < d3 || isEqual(d1d2, d3)` test. -/
def calcAngularGo (p1 p2 : ℚ) : List LineSegment → ℕ → Option ℕ
  | A :: B :: rest, i =>
    let X_diff := A.P1 - B.P1
    let Y_diff := A.P2 - B.P2
    let X_p1_diff := A.P1 - p1
    let X_p2_diff := A.P2 - p2
    let Y_p1_diff := B.P1 - p1
    let Y_p2_diff := B.P2 - p2
    let d1d2 := X_p1_diff * X_p1_diff + X_p2_diff * X_p2_diff +
                Y_p1_diff * Y_p1_diff + Y_p2_diff * Y_p2_diff
    let d3 := X_diff * X_diff + Y_diff * Y_diff
    if d1d2 < d3 ∨ isEqual d1d2 d3 then some i else calcAngularGo p1 p2 (B :: rest) (i + 1)
  | _, _ => none

/-- `calculateAngularVoxelIDFromPoints` (`.cpp` lines 44–61): first matching
arc index, or `angular_max.size() + 1` when no arc matches. -/
def calculateAngularVoxelIDFromPoints (angular_max : List LineSegment)
    (p1 p2 : ℚ) : ℤ :=
  match calcAngularGo p1 p2 angular_max 0 with
  | some i => (i : ℤ)
  | none => ((angular_max.length + 1 : ℕ) : ℤ)

/-- `initializeAngularVoxelID` (`.cpp` lines 69–83).  `sq` stands for
`std::sqrt`. -/
def initializeAngularVoxelID (sq : ℚ → ℚ) (grid : SphericalVoxelGrid)
    (number_of_sections : ℕ) (ray_sphere : Vec3)
    (angular_max : List LineSegment) (ray_sphere_2 grid_sphere_2
    entry_radius : ℚ) : ℤ :=
  if number_of_sections = 1 then 0
  else
    let SED := ray_sphere.x * ray_sphere.x + ray_sphere_2 * ray_sphere_2
    if SED = 0 then 0
    else
      let r := entry_radius / sq SED
      let p1 := grid.sphereCenter.x - ray_sphere.x * r
      let p2 := grid_sphere_2 - ray_sphere_2 * r
      calculateAngularVoxelIDFromPoints angular_max p1 p2

/-- `inBoundsAzimuthal` (`.cpp` lines 87–93). -/
def inBoundsAzimuthal (grid : SphericalVoxelGrid) (step : ℤ)
    (azi_voxel : ℤ) : Bool :=
  let radian := ((azi_voxel + 1 : ℤ) : ℚ) * grid.deltaPhi
  let angval := radian - |(step : ℚ) * grid.deltaPhi|
  decide (angval ≤ grid.sphereMaxBoundAzi ∧ grid.sphereMinBoundAzi ≤ angval)

/-- `inBoundsPolar` (`.cpp` lines 97–103). -/
def inBoundsPolar (grid : SphericalVoxelGrid) (step : ℤ)
    (pol_voxel : ℤ) : Bool :=
  let radian := ((pol_voxel + 1 : ℤ) : ℚ) * grid.deltaTheta
  let angval := radian - |(step : ℚ) * grid.deltaTheta|
  decide (angval ≤ grid.sphereMaxBoundPolar ∧ grid.sphereMinBoundPolar ≤ angval)

/-- `radialHit` (`.cpp` lines 115–157).  The C++ mutates the
`radial_step_has_transitioned` flag by reference; here the updated flag is
returned alongside the hit parameters. -/
def radialHit (sq : ℚ → ℚ) (ray : Ray) (grid : SphericalVoxelGrid)
    (radial_step_has_transitioned : Bool) (current_radial_voxel : ℤ)
    (v rsvd_minus_v_squared t max_t : ℚ) : HitParameters × Bool :=
  if radial_step_has_transitioned then
    let d_b := sq (grid.deltaRadiiSquared (sizeTOfInt (current_radial_voxel - 1)) -
                   rsvd_minus_v_squared)
    let intersection_t := ray.timeOfIntersectionAt (v + d_b)
    if intersection_t < max_t then (⟨intersection_t, -1⟩, true)
    else (⟨DOUBLE_MAX, 0⟩, true)
  else
    let previous_idx : ℕ :=
      min (sizeTOfInt current_radial_voxel) (grid.numRadialSections - 1)
    -- `previous_idx - bool` is size_t arithmetic in C++; the guard never
    -- fires at `previous_idx = 0` on inputs that pass the non-miss check,
    -- so ℕ truncation at 0 is only reached where the C++ is UB.
    let idx : ℕ :=
      previous_idx - (if grid.deltaRadiiSquared previous_idx < rsvd_minus_v_squared
                      then 1 else 0)
    let r_a := grid.deltaRadiiSquared idx
    let d_a := sq (r_a - rsvd_minus_v_squared)
    let t_entrance := ray.timeOfIntersectionAt (v - d_a)
    let t_exit := ray.timeOfIntersectionAt (v + d_a)
    if t < t_entrance ∧ t_entrance = t_exit then (⟨t_entrance, 0⟩, true)
    else if t < t_entrance ∧ t_entrance < max_t then (⟨t_entrance, 1⟩, false)
    else if t_exit < max_t then (⟨t_exit, -1⟩, true)
    else (⟨DOUBLE_MAX, 0⟩, false)

/-- One side (min or max) of the `angularHit` computation (`.cpp` lines
172–204): the parallel/collinear classification, the in-range test on the
intersection parameters `a`, `b`, and the side's time `t_side`. -/
structure AngularSide where
  isCollinear : Bool
  isIntersect : Bool
  tSide : ℚ
deriving DecidableEq

def angularSide (perp_uv perp_uw perp_vw : ℚ) (ray_segment : RaySegment)
    (ray : Ray) (collinear_times : ℚ × ℚ) : AngularSide :=
  let is_parallel := isEqual perp_uv 0
  let is_collinear := is_parallel && isEqual perp_uw 0 && isEqual perp_vw 0
  let a := perp_vw * (1 / perp_uv)
  let b := perp_uw * (1 / perp_uv)
  let is_intersect := !is_parallel &&
    !(lessThan a 0 || lessThan 1 a || lessThan b 0 || lessThan 1 b)
  { isCollinear := is_collinear
    isIntersect := is_intersect
    tSide := if is_intersect then ray_segment.intersectionTimeAt b ray
             else if is_collinear then collinear_times.2 else collinear_times.1 }

/-- The decision tree of `angularHit` (`.cpp` lines 205–247) over the two
sides' results, including the ray-through-centre perturbation branch. -/
def angularDecide (sq : ℚ → ℚ) (grid : SphericalVoxelGrid) (ray : Ray)
    (mn mx : AngularSide) (t max_t ray_direction_2 sphere_center_2 : ℚ)
    (P_max : List LineSegment) (current_voxel : ℤ) : HitParameters :=
  let t_min := mn.tSide
  let t_max := mx.tSide
  let t_t_max_eq := isEqual t t_max
  let t_max_within_bounds := decide (t < t_max) && !t_t_max_eq && decide (t_max < max_t)
  let t_t_min_eq := isEqual t t_min
  let t_min_within_bounds := decide (t < t_min) && !t_t_min_eq && decide (t_min < max_t)
  if !t_max_within_bounds && !t_min_within_bounds then ⟨DOUBLE_MAX, 0⟩
  else if mx.isIntersect && !mn.isIntersect && !mn.isCollinear &&
          t_max_within_bounds then ⟨t_max, 1⟩
  else if mn.isIntersect && !mx.isIntersect && !mx.isCollinear &&
          t_min_within_bounds then ⟨t_min, -1⟩
  else if (mn.isIntersect && mx.isIntersect) || (mn.isIntersect && mx.isCollinear) ||
          (mx.isIntersect && mn.isCollinear) then
    let min_max_eq := isEqual t_min t_max
    if min_max_eq && t_min_within_bounds then
      let perturbed_t : ℚ := 1 / 10
      let a := -ray.direction.x * perturbed_t
      let b := -ray_direction_2 * perturbed_t
      let max_radius_over_plane_length := grid.sphereMaxRadius / sq (a * a + b * b)
      let p1 := grid.sphereCenter.x - max_radius_over_plane_length * a
      let p2 := sphere_center_2 - max_radius_over_plane_length * b
      let next_step : ℤ :=
        |current_voxel - calculateAngularVoxelIDFromPoints P_max p1 p2|
      ⟨t_max, if ray.direction.x < 0 ∨ ray_direction_2 < 0 then next_step
              else -next_step⟩
    else if t_min_within_bounds && ((decide (t_min < t_max) && !min_max_eq) || t_t_max_eq)
    then ⟨t_min, -1⟩
    else if t_max_within_bounds && ((decide (t_max < t_min) && !min_max_eq) || t_t_min_eq)
    then ⟨t_max, 1⟩
    else ⟨DOUBLE_MAX, 0⟩
  else ⟨DOUBLE_MAX, 0⟩

/-- `angularHit` (`.cpp` lines 165–248), the generic two-plane kernel:
the min-side and max-side blocks followed by the decision tree.
`collinear_times` is the two-element array `{0.0, timeOfIntersectionAt(C)}`;
`P_max` and `current_voxel` feed the ray-through-center branch. -/
def angularHit (sq : ℚ → ℚ) (grid : SphericalVoxelGrid) (ray : Ray)
    (perp_uv_min perp_uv_max perp_uw_min perp_uw_max perp_vw_min
    perp_vw_max : ℚ) (ray_segment : RaySegment) (collinear_times : ℚ × ℚ)
    (t max_t ray_direction_2 sphere_center_2 : ℚ)
    (P_max : List LineSegment) (current_voxel : ℤ) : HitParameters :=
  angularDecide sq grid ray
    (angularSide perp_uv_min perp_uw_min perp_vw_min ray_segment ray collinear_times)
    (angularSide perp_uv_max perp_uw_max perp_vw_max ray_segment ray collinear_times)
    t max_t ray_direction_2 sphere_center_2 P_max current_voxel

/-- `polarHit` (`.cpp` lines 253–283): builds the XY-plane inputs of
`angularHit` from the grid's polar tables. -/
def polarHit (sq : ℚ → ℚ) (ray : Ray) (grid : SphericalVoxelGrid)
    (ray_segment : RaySegment) (collinear_times : ℚ × ℚ)
    (current_polar_voxel : ℤ) (t max_t : ℚ) : HitParameters :=
  let p_one : Vec3 := ⟨(grid.pMaxPolar (sizeTOfInt current_polar_voxel)).P1,
                       (grid.pMaxPolar (sizeTOfInt current_polar_voxel)).P2, 0⟩
  let p_two : Vec3 := ⟨(grid.pMaxPolar (sizeTOfInt (current_polar_voxel + 1))).P1,
                       (grid.pMaxPolar (sizeTOfInt (current_polar_voxel + 1))).P2, 0⟩
  let u_min := grid.centerToPolarBound (sizeTOfInt current_polar_voxel)
  let u_max := grid.centerToPolarBound (sizeTOfInt (current_polar_voxel + 1))
  let w_min := Vec3.sub p_one ray_segment.P1
  let w_max := Vec3.sub p_two ray_segment.P1
  let perp_uv_min := u_min.x * ray_segment.vector.y - u_min.y * ray_segment.vector.x
  let perp_uv_max := u_max.x * ray_segment.vector.y - u_max.y * ray_segment.vector.x
  let perp_uw_min := u_min.x * w_min.y - u_min.y * w_min.x
  let perp_uw_max := u_max.x * w_max.y - u_max.y * w_max.x
  let perp_vw_min := ray_segment.vector.x * w_min.y - ray_segment.vector.y * w_min.x
  let perp_vw_max := ray_segment.vector.x * w_max.y - ray_segment.vector.y * w_max.x
  angularHit sq grid ray perp_uv_min perp_uv_max perp_uw_min perp_uw_max
    perp_vw_min perp_vw_max ray_segment collinear_times t max_t
    ray.direction.y grid.sphereCenter.y grid.pMaxPolarList current_polar_voxel

/-- `azimuthalHit` (`.cpp` lines 288–320): the XZ-plane instance. -/
def azimuthalHit (sq : ℚ → ℚ) (ray : Ray) (grid : SphericalVoxelGrid)
    (ray_segment : RaySegment) (collinear_times : ℚ × ℚ)
    (current_azimuthal_voxel : ℤ) (t max_t : ℚ) : HitParameters :=
  let p_one : Vec3 := ⟨(grid.pMaxAzimuthal (sizeTOfInt current_azimuthal_voxel)).P1, 0,
                       (grid.pMaxAzimuthal (sizeTOfInt current_azimuthal_voxel)).P2⟩
  let p_two : Vec3 := ⟨(grid.pMaxAzimuthal (sizeTOfInt (current_azimuthal_voxel + 1))).P1, 0,
                       (grid.pMaxAzimuthal (sizeTOfInt (current_azimuthal_voxel + 1))).P2⟩
  let u_min := grid.centerToAzimuthalBound (sizeTOfInt current_azimuthal_voxel)
  let u_max := grid.centerToAzimuthalBound (sizeTOfInt (current_azimuthal_voxel + 1))
  let w_min := Vec3.sub p_one ray_segment.P1
  let w_max := Vec3.sub p_two ray_segment.P1
  let perp_uv_min := u_min.x * ray_segment.vector.z - u_min.z * ray_segment.vector.x
  let perp_uv_max := u_max.x * ray_segment.vector.z - u_max.z * ray_segment.vector.x
  let perp_uw_min := u_min.x * w_min.z - u_min.z * w_min.x
  let perp_uw_max := u_max.x * w_max.z - u_max.z * w_max.x
  let perp_vw_min := ray_segment.vector.x * w_min.z - ray_segment.vector.z * w_min.x
  let perp_vw_max := ray_segment.vector.x * w_max.z - ray_segment.vector.z * w_max.x
  angularHit sq grid ray perp_uv_min perp_uv_max perp_uw_min perp_uw_max
    perp_vw_min perp_vw_max ray_segment collinear_times t max_t
    ray.direction.z grid.sphereCenter.z grid.pMaxAzimuthalList current_azimuthal_voxel

/-- `VoxelIntersectionType` of the C++ anonymous namespace. -/
inductive VoxelIntersectionType where
  | Radial
  | Polar
  | Azimuthal
  | RadialPolar
  | RadialAzimuthal
  | PolarAzimuthal
  | RadialPolarAzimuthal
deriving DecidableEq

/-- `minimumIntersection` (`.cpp` lines 337–354). -/
def minimumIntersection (radial polar azimuthal : HitParameters) :
    VoxelIntersectionType :=
  let RP_eq := isEqual radial.tMax polar.tMax
  let RA_eq := isEqual radial.tMax azimuthal.tMax
  let RP_lt := decide (radial.tMax < polar.tMax)
  let RA_lt := decide (radial.tMax < azimuthal.tMax)
  if RP_lt && !RP_eq && RA_lt && !RA_eq then .Radial
  else
    let PA_eq := isEqual polar.tMax azimuthal.tMax
    let PA_lt := decide (polar.tMax < azimuthal.tMax)
    if !RP_lt && !RP_eq && PA_lt && !PA_eq then .Polar
    else if !PA_lt && !PA_eq && !RA_lt && !RA_eq then .Azimuthal
    else if RP_eq && RA_eq then .RadialPolarAzimuthal
    else if PA_eq then .PolarAzimuthal
    else if RP_eq then .RadialPolar
    else .RadialAzimuthal

/-- `initializeVoxelBoundarySegments` (`.cpp` lines 364–387): returns the
pair `(P_polar, P_azimuthal)`. -/
def initializeVoxelBoundarySegments (grid : SphericalVoxelGrid)
    (ray_origin_is_outside_grid : Bool) (current_radius : ℚ) :
    List LineSegment × List LineSegment :=
  if ray_origin_is_outside_grid then (grid.pMaxPolarList, grid.pMaxAzimuthalList)
  else
    (grid.polarTrigValues.map fun tv =>
       ⟨current_radius * tv.cosine + grid.sphereCenter.x,
        current_radius * tv.sine + grid.sphereCenter.y⟩,
     grid.azimuthalTrigValues.map fun tv =>
       ⟨current_radius * tv.cosine + grid.sphereCenter.x,
        current_radius * tv.sine + grid.sphereCenter.z⟩)

end SVR

namespace SVR

/-- The radial-entrance scan of `walkSphericalVolume` (`.cpp` lines
398–401): `while (SED < deltaRadiiSquared(k)) ++k`.  The C++ loop relies on
the table's contract (descending to `deltaRadiiSquared(N_r) = 0 ≤ SED`) to
stop in range; reading past the table is UB, which the fuel bound
`numRadialSections + 2` together with the `getD` default `0` totalizes
(`SED < 0` is impossible for a squared length). -/
def radialEntranceScan (grid : SphericalVoxelGrid) (SED : ℚ) :
    ℕ → ℕ → ℕ
  | k, 0 => k
  | k, fuel + 1 =>
    if SED < grid.deltaRadiiSquared k then radialEntranceScan grid SED (k + 1) fuel
    else k

/-- The initialization phase of `walkSphericalVolume` (`.cpp` lines
395–466), after the `max_t ≤ 0` test: everything the main loop consumes.
`none` models the early empty returns. -/
structure InitData where
  v : ℚ
  rsvd_minus_v_squared : ℚ
  t_ray_exit : ℚ
  t_ray_entrance : ℚ
  max_t_eff : ℚ
  rad0 : ℤ
  pol0 : ℤ
  azi0 : ℤ
  collinear_times : ℚ × ℚ
deriving DecidableEq

/-- `rsv = sphereCenter − pointAtParameter(0)` (`.cpp` line 395). -/
def initRsv (ray : Ray) (grid : SphericalVoxelGrid) : Vec3 :=
  Vec3.sub grid.sphereCenter (ray.pointAtParameter 0)

/-- `SED_from_center = rsv.squared_length()` (`.cpp` line 397). -/
def initSED (ray : Ray) (grid : SphericalVoxelGrid) : ℚ :=
  (initRsv ray grid).squaredLength

/-- `radial_entrance_voxel` (`.cpp` lines 398–401). -/
def initRadialEntranceVoxel (ray : Ray) (grid : SphericalVoxelGrid) : ℕ :=
  radialEntranceScan grid (initSED ray grid) 0 (grid.numRadialSections + 2)

/-- `ray_origin_is_outside_grid` (`.cpp` line 402). -/
def initOriginOutside (ray : Ray) (grid : SphericalVoxelGrid) : Bool :=
  initRadialEntranceVoxel ray grid = 0

/-- `vector_index` (`.cpp` lines 404–405). -/
def initVectorIndex (ray : Ray) (grid : SphericalVoxelGrid) : ℕ :=
  initRadialEntranceVoxel ray grid - (if initOriginOutside ray grid then 0 else 1)

/-- `entry_radius_squared` (`.cpp` line 406). -/
def initEntryRadiusSquared (ray : Ray) (grid : SphericalVoxelGrid) : ℚ :=
  grid.deltaRadiiSquared (initVectorIndex ray grid)

/-- `entry_radius` (`.cpp` lines 407–409). -/
def initEntryRadius (ray : Ray) (grid : SphericalVoxelGrid) : ℚ :=
  grid.deltaRadius * ((grid.numRadialSections - initVectorIndex ray grid : ℕ) : ℚ)

/-- `v = rsv · D̂` (`.cpp` line 411). -/
def initV (ray : Ray) (grid : SphericalVoxelGrid) : ℚ :=
  (initRsv ray grid).dot ray.direction

/-- `rsvd_minus_v_squared = |rsv|² − v²` (`.cpp` lines 410–412). -/
def initRsvdMinusVSquared (ray : Ray) (grid : SphericalVoxelGrid) : ℚ :=
  (initRsv ray grid).dot (initRsv ray grid) - initV ray grid * initV ray grid

/-- `t_ray_exit = timeOfIntersectionAt(v + d)` (`.cpp` lines 415–416). -/
def initTRayExit (sq : ℚ → ℚ) (ray : Ray) (grid : SphericalVoxelGrid) : ℚ :=
  ray.timeOfIntersectionAt (initV ray grid +
    sq (initEntryRadiusSquared ray grid - initRsvdMinusVSquared ray grid))

/-- `t_ray_entrance = timeOfIntersectionAt(v − d)` (`.cpp` line 418). -/
def initTRayEntrance (sq : ℚ → ℚ) (ray : Ray) (grid : SphericalVoxelGrid) : ℚ :=
  ray.timeOfIntersectionAt (initV ray grid -
    sq (initEntryRadiusSquared ray grid - initRsvdMinusVSquared ray grid))

/-- The ray-sphere reference vector for angular initialization
(`.cpp` lines 426–429). -/
def initRaySphere (sq : ℚ → ℚ) (ray : Ray) (grid : SphericalVoxelGrid) : Vec3 :=
  if initOriginOutside ray grid then
    Vec3.sub grid.sphereCenter (ray.pointAtParameter (initTRayEntrance sq ray grid))
  else if initSED ray grid = 0 then Vec3.sub (initRsv ray grid) ray.direction
  else initRsv ray grid

/-- `current_polar_voxel` before its range check (`.cpp` lines 431–433). -/
def initPolarVoxel (sq : ℚ → ℚ) (ray : Ray) (grid : SphericalVoxelGrid) : ℤ :=
  initializeAngularVoxelID sq grid grid.numPolarSections (initRaySphere sq ray grid)
    (initializeVoxelBoundarySegments grid (initOriginOutside ray grid)
      (initEntryRadius ray grid)).1
    (initRaySphere sq ray grid).y grid.sphereCenter.y (initEntryRadius ray grid)

/-- `current_azimuthal_voxel` before its range check (`.cpp` lines 439–441). -/
def initAzimuthalVoxel (sq : ℚ → ℚ) (ray : Ray) (grid : SphericalVoxelGrid) : ℤ :=
  initializeAngularVoxelID sq grid grid.numAzimuthalSections (initRaySphere sq ray grid)
    (initializeVoxelBoundarySegments grid (initOriginOutside ray grid)
      (initEntryRadius ray grid)).2
    (initRaySphere sq ray grid).z grid.sphereCenter.z (initEntryRadius ray grid)

/-- The initialization phase (`.cpp` lines 395–466): `none` at each of the
four early `return {}` sites after the `max_t ≤ 0` test. -/
def initPhase (sq : ℚ → ℚ) (ray : Ray) (grid : SphericalVoxelGrid)
    (max_t : ℚ) : Option InitData :=
  if initEntryRadiusSquared ray grid ≤ initRsvdMinusVSquared ray grid then none
  else if initTRayExit sq ray grid < 0 then none
  else if grid.numPolarSections ≤ sizeTOfInt (initPolarVoxel sq ray grid) then none
  else if grid.numAzimuthalSections ≤ sizeTOfInt (initAzimuthalVoxel sq ray grid) then none
  else
    let outside := initOriginOutside ray grid
    let t_ray_entrance := initTRayEntrance sq ray grid
    let t_ray_exit := initTRayExit sq ray grid
    let unitized_ray_time :=
      max_t * grid.sphereMaxDiameter + t_ray_entrance * (if outside then 1 else 0)
    some
      { v := initV ray grid
        rsvd_minus_v_squared := initRsvdMinusVSquared ray grid
        t_ray_exit := t_ray_exit
        t_ray_entrance := t_ray_entrance
        max_t_eff := if outside then min t_ray_exit unitized_ray_time
                     else unitized_ray_time
        rad0 := (initRadialEntranceVoxel ray grid : ℤ) + (if outside then 1 else 0)
        pol0 := initPolarVoxel sq ray grid
        azi0 := initAzimuthalVoxel sq ray grid
        collinear_times := (0, ray.timeOfIntersectionAtPoint grid.sphereCenter) }

/-- The mutable state of the main loop (`.cpp` lines 467–576). -/
structure LoopState where
  t : ℚ
  rad : ℤ
  pol : ℤ
  azi : ℤ
  trans : Bool
  voxels : List SphericalVoxel
deriving DecidableEq

/-- `voxels.back().exit_t = e`: rewrite the last voxel's exit time. -/
def setBackExitT : List SphericalVoxel → ℚ → List SphericalVoxel
  | [], _ => []
  | [a], e => [{ a with exit_t := e }]
  | a :: b :: rest, e => a :: setBackExitT (b :: rest) e

/-- The C++ `% grid.numPolarSections()` on `(int + int)`: the signed sum is
converted to `std::size_t` (reduction mod `2^64`), reduced mod the section
count, and stored back into the `int` voxel index. -/
def angularVoxelMod (a : ℤ) (n : ℕ) : ℤ := ((sizeTOfInt a % n : ℕ) : ℤ)

/-- Whether the updated indices coincide with `voxels.back()`
(`.cpp` lines 566–568); on the empty list (unreachable, the driver pushes
the entry voxel first) the comparison is vacuously false. -/
def sameAsBack (voxels : List SphericalVoxel) (rad pol azi : ℤ) : Bool :=
  match voxels.getLast? with
  | some b => decide (b.radial = rad ∧ b.polar = pol ∧ b.azimuthal = azi)
  | none => false

/-- One iteration of the main loop (`.cpp` lines 468–576).  `Sum.inl r`
models a `return r`; `Sum.inr st` continues with the updated state. -/
def loopStep (sq : ℚ → ℚ) (ray : Ray) (grid : SphericalVoxelGrid)
    (d : InitData) (st : LoopState) : List SphericalVoxel ⊕ LoopState :=
  let rh := radialHit sq ray grid st.trans st.rad d.v d.rsvd_minus_v_squared
              st.t d.max_t_eff
  let radial := rh.1
  let trans' := rh.2
  let seg := (RaySegment.make d.max_t_eff ray).updateAtTime st.t ray
  let polar := polarHit sq ray grid seg d.collinear_times st.pol st.t d.max_t_eff
  let azimuthal := azimuthalHit sq ray grid seg d.collinear_times st.azi st.t
                     d.max_t_eff
  if st.rad + radial.tStep = 0 ∨
     (radial.tMax = DOUBLE_MAX ∧ polar.tMax = DOUBLE_MAX ∧
      azimuthal.tMax = DOUBLE_MAX) then
    Sum.inl (setBackExitT st.voxels d.t_ray_exit)
  else
    let next : Option (ℚ × ℤ × ℤ × ℤ) :=
      match minimumIntersection radial polar azimuthal with
      | .Radial => some (radial.tMax, st.rad + radial.tStep, st.pol, st.azi)
      | .Polar =>
        if !inBoundsPolar grid polar.tStep st.pol then none
        else some (polar.tMax, st.rad,
                   angularVoxelMod (st.pol + polar.tStep) grid.numPolarSections,
                   st.azi)
      | .Azimuthal =>
        if !inBoundsAzimuthal grid azimuthal.tStep st.azi then none
        else some (azimuthal.tMax, st.rad, st.pol,
                   angularVoxelMod (st.azi + azimuthal.tStep) grid.numAzimuthalSections)
      | .RadialPolar =>
        if !inBoundsPolar grid polar.tStep st.pol then none
        else some (radial.tMax, st.rad + radial.tStep,
                   angularVoxelMod (st.pol + polar.tStep) grid.numPolarSections,
                   st.azi)
      | .RadialAzimuthal =>
        if !inBoundsAzimuthal grid azimuthal.tStep st.azi then none
        else some (radial.tMax, st.rad + radial.tStep, st.pol,
                   angularVoxelMod (st.azi + azimuthal.tStep) grid.numAzimuthalSections)
      | .PolarAzimuthal =>
        if !inBoundsAzimuthal grid azimuthal.tStep st.azi ∨
           !inBoundsPolar grid polar.tStep st.pol then none
        else some (polar.tMax, st.rad,
                   angularVoxelMod (st.pol + polar.tStep) grid.numPolarSections,
                   angularVoxelMod (st.azi + azimuthal.tStep) grid.numAzimuthalSections)
      | .RadialPolarAzimuthal =>
        if !inBoundsAzimuthal grid azimuthal.tStep st.azi ∨
           !inBoundsPolar grid polar.tStep st.pol then none
        else some (radial.tMax, st.rad + radial.tStep,
                   angularVoxelMod (st.pol + polar.tStep) grid.numPolarSections,
                   angularVoxelMod (st.azi + azimuthal.tStep) grid.numAzimuthalSections)
    match next with
    | none => Sum.inl (setBackExitT st.voxels d.t_ray_exit)
    | some (t', rad', pol', azi') =>
      if sameAsBack st.voxels rad' pol' azi' then
        Sum.inr { t := t', rad := rad', pol := pol', azi := azi',
                  trans := trans', voxels := st.voxels }
      else
        Sum.inr { t := t', rad := rad', pol := pol', azi := azi', trans := trans',
                  voxels := setBackExitT st.voxels t' ++
                    [{ radial := rad', polar := pol', azimuthal := azi',
                       enter_t := t', exit_t := 0 }] }

/-- The fuel-indexed main loop: `none` when the fuel runs out before the
C++ `while (true)` loop returns. -/
def loopGo (sq : ℚ → ℚ) (ray : Ray) (grid : SphericalVoxelGrid)
    (d : InitData) : ℕ → LoopState → Option (List SphericalVoxel)
  | 0, _ => none
  | fuel + 1, st =>
    match loopStep sq ray grid d st with
    | Sum.inl r => some r
    | Sum.inr st' => loopGo sq ray grid d fuel st'

/-- The initial loop state (`.cpp` lines 447–467): the entry voxel is
pushed with designated initializers, leaving `enter_t`/`exit_t`
value-initialized to `0`; `t = t_ray_entrance · originOutside`. -/
def initialLoopState (d : InitData) (ray : Ray) (grid : SphericalVoxelGrid) :
    LoopState :=
  { t := d.t_ray_entrance * (if initOriginOutside ray grid then 1 else 0)
    rad := d.rad0
    pol := d.pol0
    azi := d.azi0
    trans := false
    voxels := [{ radial := d.rad0, polar := d.pol0, azimuthal := d.azi0,
                 enter_t := 0, exit_t := 0 }] }

/-- `walkSphericalVolume` (`.cpp` lines 391–577) as a fuel-indexed total
function: `some []` models the C++ empty returns, `some voxels` a completed
traversal and `none` fuel exhaustion (claim C4 is that enough fuel always
exists). -/
def walkSphericalVolume (sq : ℚ → ℚ) (ray : Ray) (grid : SphericalVoxelGrid)
    (max_t : ℚ) (fuel : ℕ) : Option (List SphericalVoxel) :=
  if max_t ≤ 0 then some []
  else
    match initPhase sq ray grid max_t with
    | none => some []
    | some d => loopGo sq ray grid d fuel (initialLoopState d ray grid)

/-- Structural floor square root on `ℕ` (fuel-indexed linear search, so the
kernel can evaluate it): the largest `k ≤ fuel` with `k² ≤ n`. -/
def isqrtGo (n : ℕ) : ℕ → ℕ → ℕ
  | k, 0 => k
  | k, fuel + 1 => if (k + 1) * (k + 1) ≤ n then isqrtGo n (k + 1) fuel else k

def isqrtNat (n : ℕ) : ℕ := isqrtGo n 0 n

/-- Executable rational square root used to instantiate `sq` on concrete
runs: exact on perfect squares (floor square roots of numerator and
denominator); `0` on negatives, standing in for the C++ NaN (no run below
reaches a negative argument). -/
def sqrtQ (q : ℚ) : ℚ := ((isqrtNat q.num.toNat : ℕ) : ℚ) / ((isqrtNat q.den : ℕ) : ℚ)

end SVR

namespace SVR

/-! ## Concrete inputs

Full-circle grids with centre `0` and maximum radius `1`, built to the grid
contract of spec §3/§6 (`deltaRadiiSquared[k] = ((N_r−k)·ΔR)²`, boundary
points and trig tables from the exact angles `0, π/2, π, 3π/2, 2π`,
`centerToBound` vectors joining each boundary point to the centre), chosen
so that every square root reached in a run is a perfect rational square. -/

/-- Spec §8 scenario 1's ray: `O = (−2,0,0)`, `D̂ = (1,0,0)`. -/
def ray1 : Ray := ⟨⟨-2, 0, 0⟩, ⟨1, 0, 0⟩⟩

/-- One radial shell, one polar and one azimuthal section, `R = 1`. -/
def grid1 : SphericalVoxelGrid :=
  { sphereCenter := ⟨0, 0, 0⟩
    sphereMaxRadius := 1
    sphereMaxDiameter := 2
    numRadialSections := 1
    numPolarSections := 1
    numAzimuthalSections := 1
    deltaRadius := 1
    deltaTheta := 628/100
    deltaPhi := 628/100
    deltaRadiiSquaredList := [1, 0]
    pMaxPolarList := [⟨1, 0⟩, ⟨1, 0⟩]
    pMaxAzimuthalList := [⟨1, 0⟩, ⟨1, 0⟩]
    centerToPolarBoundList := [⟨-1, 0, 0⟩, ⟨-1, 0, 0⟩]
    centerToAzimuthalBoundList := [⟨-1, 0, 0⟩, ⟨-1, 0, 0⟩]
    polarTrigValues := [⟨1, 0⟩, ⟨1, 0⟩]
    azimuthalTrigValues := [⟨1, 0⟩, ⟨1, 0⟩]
    sphereMinBoundPolar := 0
    sphereMaxBoundPolar := 628/100
    sphereMinBoundAzi := 0
    sphereMaxBoundAzi := 628/100 }

/-- Ray from the exact sphere centre (spec §8 scenario 4's origin). -/
def ray5 : Ray := ⟨⟨0, 0, 0⟩, ⟨1, 0, 0⟩⟩

/-- Three radial shells (`ΔR = 1/3`), one angular section each way. -/
def grid5 : SphericalVoxelGrid :=
  { grid1 with
    numRadialSections := 3
    deltaRadius := 1/3
    deltaRadiiSquaredList := [1, 4/9, 1/9, 0] }

/-- Origin inside the inner of two shells: `O = (1/10, 0, 0)`. -/
def ray10 : Ray := ⟨⟨1/10, 0, 0⟩, ⟨1, 0, 0⟩⟩

/-- Two radial shells (`ΔR = 1/2`), one angular section each way. -/
def grid10 : SphericalVoxelGrid :=
  { grid1 with
    numRadialSections := 2
    deltaRadius := 1/2
    deltaRadiiSquaredList := [1, 1/4, 0] }

/-- Ray tangent to the outermost sphere: `O = (−2,1,0)`, `D̂ = (1,0,0)`,
touching the sphere at `(0,1,0)` at time `2`. -/
def ray3 : Ray := ⟨⟨-2, 1, 0⟩, ⟨1, 0, 0⟩⟩

/-- A ray whose direction has negative `x` and zero `y`, `z`. -/
def rayNegX : Ray := ⟨⟨5, 7, 11⟩, ⟨-1, 0, 0⟩⟩

/-- The index triple of an output voxel. -/
def voxIdx (v : SphericalVoxel) : ℤ × ℤ × ℤ := (v.radial, v.polar, v.azimuthal)

/-- An artificial square-root stand-in satisfying `0 ≤ sqA x` and
`y·y < x → y < sqA x` on the inputs of the runs below (unlike `sqrtQ`,
whose floor rounding violates the second bound); used to instantiate the
`sq` parameter where a run must exercise those bounds. -/
def sqA (q : ℚ) : ℚ := max 0 q + 1

/-- The initialization data of the run `(sqrtQ, ray1, grid1, max_t = 1)`. -/
def d1c : InitData :=
  { v := 2, rsvd_minus_v_squared := 0, t_ray_exit := 3, t_ray_entrance := 1,
    max_t_eff := 3, rad0 := 1, pol0 := 0, azi0 := 0, collinear_times := (0, 2) }

/-- The initialization data of the run `(sqrtQ, ray5, grid5, max_t = 1)`. -/
def d5c : InitData :=
  { v := 0, rsvd_minus_v_squared := 0, t_ray_exit := 1/3, t_ray_entrance := -(1/3),
    max_t_eff := 2, rad0 := 3, pol0 := 0, azi0 := 0, collinear_times := (0, 0) }

/-- The initialization data of the run `(sqrtQ, ray10, grid10, max_t = 1)`. -/
def d10c : InitData :=
  { v := -(1/10), rsvd_minus_v_squared := 0, t_ray_exit := 2/5,
    t_ray_entrance := -(3/5), max_t_eff := 2, rad0 := 2, pol0 := 0, azi0 := 0,
    collinear_times := (0, -(1/10)) }

/-- The initialization data of the run `(sqA, ray1, grid1, max_t = 1)`. -/
def dAc : InitData :=
  { v := 2, rsvd_minus_v_squared := 0, t_ray_exit := 4, t_ray_entrance := 0,
    max_t_eff := 2, rad0 := 1, pol0 := 0, azi0 := 0, collinear_times := (0, 2) }

set_option exponentiation.threshold 1100 in
/-- The numeral above is exactly `2¹⁰²⁴ − 2⁹⁷¹`. -/
theorem DOUBLE_MAX_eq : DOUBLE_MAX = 2 ^ 1024 - 2 ^ 971 := by
  rw [DOUBLE_MAX]; norm_num

/-! ### Evaluated traces of the concrete runs

Each run is evaluated stepwise — initialization, each `loopStep`, then the
assembled `walkSphericalVolume` — so that every proof term stays small. -/

/-! Run 1 -/

theorem init1_eval : initPhase sqrtQ ray1 grid1 1 = some d1c := by
  with_unfolding_all rfl

theorem ils1_eval : initialLoopState d1c ray1 grid1 =
    { t := 1, rad := 1, pol := 0, azi := 0, trans := false,
      voxels := [⟨1, 0, 0, 0, 0⟩] } := by
  with_unfolding_all rfl

theorem rh1a : radialHit sqrtQ ray1 grid1 false 1 2 0 1 3 =
    ({ tMax := DOUBLE_MAX, tStep := 0 }, false) := by
  norm_num [radialHit,
    show sizeTOfInt 1 = 1 from rfl,
    show grid1.numRadialSections = 1 from rfl,
    show min (1:ℕ) 0 = 0 from rfl,
    show grid1.deltaRadiiSquared 0 = 1 from rfl,
    show sqrtQ 1 = 1 from by with_unfolding_all rfl,
    show ray1.timeOfIntersectionAt 1 = 1 from by with_unfolding_all rfl,
    show ray1.timeOfIntersectionAt 3 = 3 from by with_unfolding_all rfl]

theorem seg1a : (RaySegment.make 3 ray1).updateAtTime 1 ray1 =
    ⟨⟨-1, 0, 0⟩, ⟨1, 0, 0⟩⟩ := by with_unfolding_all rfl

theorem ph1a : polarHit sqrtQ ray1 grid1 ⟨⟨-1, 0, 0⟩, ⟨1, 0, 0⟩⟩ (0, 2) 0 1 3 =
    { tMax := DOUBLE_MAX, tStep := 0 } := by with_unfolding_all rfl

theorem ah1a : azimuthalHit sqrtQ ray1 grid1 ⟨⟨-1, 0, 0⟩, ⟨1, 0, 0⟩⟩ (0, 2) 0 1 3 =
    { tMax := DOUBLE_MAX, tStep := 0 } := by with_unfolding_all rfl

theorem step1a : loopStep sqrtQ ray1 grid1 d1c
    { t := 1, rad := 1, pol := 0, azi := 0, trans := false,
      voxels := [⟨1, 0, 0, 0, 0⟩] } =
    Sum.inl [⟨1, 0, 0, 0, 3⟩] := by
  norm_num [loopStep, d1c, rh1a, seg1a, ph1a, ah1a,
    show setBackExitT [⟨1, 0, 0, 0, 0⟩] 3 = [⟨1, 0, 0, 0, 3⟩] from rfl]

theorem walk1_eval : walkSphericalVolume sqrtQ ray1 grid1 1 2 =
    some [⟨1, 0, 0, 0, 3⟩] := by
  norm_num [walkSphericalVolume, init1_eval, ils1_eval, loopGo, step1a]

/-! Run 5 -/

theorem init5_eval : initPhase sqrtQ ray5 grid5 1 = some d5c := by
  with_unfolding_all rfl

theorem ils5_eval : initialLoopState d5c ray5 grid5 =
    { t := 0, rad := 3, pol := 0, azi := 0, trans := false,
      voxels := [⟨3, 0, 0, 0, 0⟩] } := by
  with_unfolding_all rfl

theorem rh5a : radialHit sqrtQ ray5 grid5 false 3 0 0 0 2 =
    ({ tMax := 1/3, tStep := -1 }, true) := by
  norm_num [radialHit,
    show sizeTOfInt 3 = 3 from rfl,
    show grid5.numRadialSections = 3 from rfl,
    show min (3:ℕ) 2 = 2 from rfl,
    show grid5.deltaRadiiSquared 2 = 1/9 from rfl,
    show sqrtQ (1/9) = 1/3 from by with_unfolding_all rfl,
    show ray5.timeOfIntersectionAt (-(1/3) : ℚ) = -(1/3) from by with_unfolding_all rfl,
    show ray5.timeOfIntersectionAt (1/3 : ℚ) = 1/3 from by with_unfolding_all rfl]

theorem rh5b : radialHit sqrtQ ray5 grid5 true 2 0 0 (1/3) 2 =
    ({ tMax := 2/3, tStep := -1 }, true) := by with_unfolding_all rfl

theorem rh5c : radialHit sqrtQ ray5 grid5 true 1 0 0 (2/3) 2 =
    ({ tMax := 1, tStep := -1 }, true) := by with_unfolding_all rfl

theorem seg5a : (RaySegment.make 2 ray5).updateAtTime 0 ray5 =
    ⟨⟨0, 0, 0⟩, ⟨2, 0, 0⟩⟩ := by with_unfolding_all rfl

theorem seg5b : (RaySegment.make 2 ray5).updateAtTime (1/3) ray5 =
    ⟨⟨1/3, 0, 0⟩, ⟨2, 0, 0⟩⟩ := by with_unfolding_all rfl

theorem ph5a : polarHit sqrtQ ray5 grid5 ⟨⟨0, 0, 0⟩, ⟨2, 0, 0⟩⟩ (0, 0) 0 0 2 =
    { tMax := DOUBLE_MAX, tStep := 0 } := by with_unfolding_all rfl

theorem ah5a : azimuthalHit sqrtQ ray5 grid5 ⟨⟨0, 0, 0⟩, ⟨2, 0, 0⟩⟩ (0, 0) 0 0 2 =
    { tMax := DOUBLE_MAX, tStep := 0 } := by with_unfolding_all rfl

theorem ph5b : polarHit sqrtQ ray5 grid5 ⟨⟨1/3, 0, 0⟩, ⟨2, 0, 0⟩⟩ (0, 0) 0 (1/3) 2 =
    { tMax := DOUBLE_MAX, tStep := 0 } := by with_unfolding_all rfl

theorem ah5b : azimuthalHit sqrtQ ray5 grid5 ⟨⟨1/3, 0, 0⟩, ⟨2, 0, 0⟩⟩ (0, 0) 0 (1/3) 2 =
    { tMax := DOUBLE_MAX, tStep := 0 } := by with_unfolding_all rfl

theorem step5a : loopStep sqrtQ ray5 grid5 d5c
    { t := 0, rad := 3, pol := 0, azi := 0, trans := false,
      voxels := [⟨3, 0, 0, 0, 0⟩] } =
    Sum.inr
    { t := 1/3, rad := 2, pol := 0, azi := 0, trans := true,
      voxels := [⟨3, 0, 0, 0, 1/3⟩, ⟨2, 0, 0, 1/3, 0⟩] } := by
  norm_num [loopStep, d5c, rh5a, seg5a, ph5a, ah5a, -Prod.mk_zero_zero,
    show (1/3 : ℚ) ≠ DOUBLE_MAX from by rw [DOUBLE_MAX]; norm_num,
    show minimumIntersection ⟨1/3, -1⟩ ⟨DOUBLE_MAX, 0⟩ ⟨DOUBLE_MAX, 0⟩ =
      VoxelIntersectionType.Radial from by with_unfolding_all rfl,
    show sameAsBack [(⟨3, 0, 0, 0, 0⟩ : SphericalVoxel)] 2 0 0 = false from rfl,
    show setBackExitT [(⟨3, 0, 0, 0, 0⟩ : SphericalVoxel)] (1/3) =
      [⟨3, 0, 0, 0, 1/3⟩] from rfl]

theorem step5b : loopStep sqrtQ ray5 grid5 d5c
    { t := 1/3, rad := 2, pol := 0, azi := 0, trans := true,
      voxels := [⟨3, 0, 0, 0, 1/3⟩, ⟨2, 0, 0, 1/3, 0⟩] } =
    Sum.inr
    { t := 2/3, rad := 1, pol := 0, azi := 0, trans := true,
      voxels := [⟨3, 0, 0, 0, 1/3⟩, ⟨2, 0, 0, 1/3, 2/3⟩, ⟨1, 0, 0, 2/3, 0⟩] } := by
  norm_num [loopStep, d5c, rh5b, seg5b, ph5b, ah5b, -Prod.mk_zero_zero,
    show (2/3 : ℚ) ≠ DOUBLE_MAX from by rw [DOUBLE_MAX]; norm_num,
    show minimumIntersection ⟨2/3, -1⟩ ⟨DOUBLE_MAX, 0⟩ ⟨DOUBLE_MAX, 0⟩ =
      VoxelIntersectionType.Radial from by with_unfolding_all rfl,
    show sameAsBack [⟨3, 0, 0, 0, 1/3⟩, (⟨2, 0, 0, 1/3, 0⟩ : SphericalVoxel)] 1 0 0 =
      false from rfl,
    show setBackExitT [⟨3, 0, 0, 0, 1/3⟩, (⟨2, 0, 0, 1/3, 0⟩ : SphericalVoxel)] (2/3) =
      [⟨3, 0, 0, 0, 1/3⟩, ⟨2, 0, 0, 1/3, 2/3⟩] from rfl]

theorem step5c : loopStep sqrtQ ray5 grid5 d5c
    { t := 2/3, rad := 1, pol := 0, azi := 0, trans := true,
      voxels := [⟨3, 0, 0, 0, 1/3⟩, ⟨2, 0, 0, 1/3, 2/3⟩, ⟨1, 0, 0, 2/3, 0⟩] } =
    Sum.inl [⟨3, 0, 0, 0, 1/3⟩, ⟨2, 0, 0, 1/3, 2/3⟩, ⟨1, 0, 0, 2/3, 1/3⟩] := by
  norm_num [loopStep, d5c, rh5c,
    show setBackExitT [⟨3, 0, 0, 0, 1/3⟩, ⟨2, 0, 0, 1/3, 2/3⟩,
      (⟨1, 0, 0, 2/3, 0⟩ : SphericalVoxel)] (1/3) =
      [⟨3, 0, 0, 0, 1/3⟩, ⟨2, 0, 0, 1/3, 2/3⟩, ⟨1, 0, 0, 2/3, 1/3⟩] from rfl]

theorem walk5_eval : walkSphericalVolume sqrtQ ray5 grid5 1 4 =
    some [⟨3, 0, 0, 0, 1/3⟩, ⟨2, 0, 0, 1/3, 2/3⟩, ⟨1, 0, 0, 2/3, 1/3⟩] := by
  norm_num [walkSphericalVolume, init5_eval, ils5_eval, loopGo, step5a, step5b, step5c]

/-! Run 10 -/

theorem init10_eval : initPhase sqrtQ ray10 grid10 1 = some d10c := by
  with_unfolding_all rfl

theorem ils10_eval : initialLoopState d10c ray10 grid10 =
    { t := 0, rad := 2, pol := 0, azi := 0, trans := false,
      voxels := [⟨2, 0, 0, 0, 0⟩] } := by
  with_unfolding_all rfl

theorem rh10a : radialHit sqrtQ ray10 grid10 false 2 (-(1/10)) 0 0 2 =
    ({ tMax := 2/5, tStep := -1 }, true) := by
  norm_num [radialHit,
    show sizeTOfInt 2 = 2 from rfl,
    show grid10.numRadialSections = 2 from rfl,
    show min (2:ℕ) 1 = 1 from rfl,
    show grid10.deltaRadiiSquared 1 = 1/4 from rfl,
    show sqrtQ (1/4) = 1/2 from by with_unfolding_all rfl,
    show ray10.timeOfIntersectionAt (-(3/5) : ℚ) = -(3/5) from by
      with_unfolding_all rfl,
    show ray10.timeOfIntersectionAt (2/5 : ℚ) = 2/5 from by
      with_unfolding_all rfl]

theorem rh10b : radialHit sqrtQ ray10 grid10 true 1 (-(1/10)) 0 (2/5) 2 =
    ({ tMax := 9/10, tStep := -1 }, true) := by with_unfolding_all rfl

theorem seg10a : (RaySegment.make 2 ray10).updateAtTime 0 ray10 =
    ⟨⟨1/10, 0, 0⟩, ⟨21/10, 0, 0⟩⟩ := by with_unfolding_all rfl

theorem ph10a : polarHit sqrtQ ray10 grid10 ⟨⟨1/10, 0, 0⟩, ⟨21/10, 0, 0⟩⟩
    (0, -(1/10)) 0 0 2 = { tMax := DOUBLE_MAX, tStep := 0 } := by
  with_unfolding_all rfl

theorem ah10a : azimuthalHit sqrtQ ray10 grid10 ⟨⟨1/10, 0, 0⟩, ⟨21/10, 0, 0⟩⟩
    (0, -(1/10)) 0 0 2 = { tMax := DOUBLE_MAX, tStep := 0 } := by
  with_unfolding_all rfl

theorem step10a : loopStep sqrtQ ray10 grid10 d10c
    { t := 0, rad := 2, pol := 0, azi := 0, trans := false,
      voxels := [⟨2, 0, 0, 0, 0⟩] } =
    Sum.inr
      { t := 2/5, rad := 1, pol := 0, azi := 0, trans := true,
        voxels := [⟨2, 0, 0, 0, 2/5⟩, ⟨1, 0, 0, 2/5, 0⟩] } := by
  norm_num [loopStep, d10c, rh10a, seg10a, ph10a, ah10a,
    show (2/5 : ℚ) ≠ DOUBLE_MAX from by rw [DOUBLE_MAX]; norm_num,
    show minimumIntersection ⟨2/5, -1⟩ ⟨DOUBLE_MAX, 0⟩ ⟨DOUBLE_MAX, 0⟩ =
      VoxelIntersectionType.Radial from by with_unfolding_all rfl,
    show sameAsBack [(⟨2, 0, 0, 0, 0⟩ : SphericalVoxel)] 1 0 0 = false from rfl,
    show setBackExitT [(⟨2, 0, 0, 0, 0⟩ : SphericalVoxel)] (2/5) =
      [⟨2, 0, 0, 0, 2/5⟩] from rfl]

theorem step10b : loopStep sqrtQ ray10 grid10 d10c
    { t := 2/5, rad := 1, pol := 0, azi := 0, trans := true,
      voxels := [⟨2, 0, 0, 0, 2/5⟩, ⟨1, 0, 0, 2/5, 0⟩] } =
    Sum.inl [⟨2, 0, 0, 0, 2/5⟩, ⟨1, 0, 0, 2/5, 2/5⟩] := by
  norm_num [loopStep, d10c, rh10b,
    show setBackExitT [⟨2, 0, 0, 0, 2/5⟩, (⟨1, 0, 0, 2/5, 0⟩ : SphericalVoxel)]
      (2/5) = [⟨2, 0, 0, 0, 2/5⟩, ⟨1, 0, 0, 2/5, 2/5⟩] from rfl]

theorem walk10_eval : walkSphericalVolume sqrtQ ray10 grid10 1 3 =
    some [⟨2, 0, 0, 0, 2/5⟩, ⟨1, 0, 0, 2/5, 2/5⟩] := by
  norm_num [walkSphericalVolume, init10_eval, ils10_eval, loopGo, step10a, step10b]

/-! Run with the artificial square root `sqA` (C6 witness) -/

theorem initA_eval : initPhase sqA ray1 grid1 1 = some dAc := by
  with_unfolding_all rfl

theorem ilsA_eval : initialLoopState dAc ray1 grid1 =
    { t := 0, rad := 1, pol := 0, azi := 0, trans := false,
      voxels := [⟨1, 0, 0, 0, 0⟩] } := by
  with_unfolding_all rfl

theorem rhAa : radialHit sqA ray1 grid1 false 1 2 0 0 2 =
    ({ tMax := DOUBLE_MAX, tStep := 0 }, false) := by
  norm_num [radialHit,
    show sizeTOfInt 1 = 1 from rfl,
    show grid1.numRadialSections = 1 from rfl,
    show min (1:ℕ) 0 = 0 from rfl,
    show grid1.deltaRadiiSquared 0 = 1 from rfl,
    show sqA 1 = 2 from by with_unfolding_all rfl,
    show ray1.timeOfIntersectionAt 0 = 0 from by with_unfolding_all rfl,
    show ray1.timeOfIntersectionAt 4 = 4 from by with_unfolding_all rfl]

theorem segAa : (RaySegment.make 2 ray1).updateAtTime 0 ray1 =
    ⟨⟨-2, 0, 0⟩, ⟨0, 0, 0⟩⟩ := by with_unfolding_all rfl

theorem phAa : polarHit sqA ray1 grid1 ⟨⟨-2, 0, 0⟩, ⟨0, 0, 0⟩⟩ (0, 2) 0 0 2 =
    { tMax := DOUBLE_MAX, tStep := 0 } := by with_unfolding_all rfl

theorem ahAa : azimuthalHit sqA ray1 grid1 ⟨⟨-2, 0, 0⟩, ⟨0, 0, 0⟩⟩ (0, 2) 0 0 2 =
    { tMax := DOUBLE_MAX, tStep := 0 } := by with_unfolding_all rfl

theorem stepAa : loopStep sqA ray1 grid1 dAc
    { t := 0, rad := 1, pol := 0, azi := 0, trans := false,
      voxels := [⟨1, 0, 0, 0, 0⟩] } =
    Sum.inl [⟨1, 0, 0, 0, 4⟩] := by
  norm_num [loopStep, dAc, rhAa, segAa, phAa, ahAa,
    show setBackExitT [(⟨1, 0, 0, 0, 0⟩ : SphericalVoxel)] 4 = [⟨1, 0, 0, 0, 4⟩]
      from rfl]

theorem walkA_eval : walkSphericalVolume sqA ray1 grid1 1 1 =
    some [⟨1, 0, 0, 0, 4⟩] := by
  norm_num [walkSphericalVolume, initA_eval, ilsA_eval, loopGo, stepAa]

/-! Tangent ray (C3) -/

theorem walk3_eval : walkSphericalVolume sqrtQ ray3 grid1 1 5 = some [] := by
  with_unfolding_all rfl


/-- C1.  The claim (with spec §3 invariant 3 and §8 scenario 1) requires
the first voxel's `enter_t` to equal the entry time `t_entry = 1` for this
outside-origin ray; the code never assigns the first voxel's `enter_t`, so
it keeps its value-initialized `0.0`.  This run (scenario 1 reduced to one
shell and one section per angle so that all arithmetic is exact) returns a
single voxel with `enter_t = 0` although `t_ray_entrance = 1`. -/
theorem c1_first_voxel_enter_t_stays_zero :
    walkSphericalVolume sqrtQ ray1 grid1 1 2 =
      some [{ radial := 1, polar := 0, azimuthal := 0, enter_t := 0, exit_t := 3 }] ∧
    initTRayEntrance sqrtQ ray1 grid1 = 1 ∧ (0 : ℚ) ≠ 1 :=
  ⟨walk1_eval, by with_unfolding_all rfl, by norm_num⟩

/-- C2, counterexample.  For the ray with direction `(−1, 0, 0)` the `x`
component is non-zero, so the claim says `timeOfIntersectionAt(1)` is
evaluated on the `x` component and returns `((O_x + D̂_x·1) − O_x)/D̂_x = 1`.
The constructor's flags test `> 0`, all three fail, and the `z` fallback
multiplies by the inverse of the zero `z` component: the result is `0`
(NaN in C++, equally different from `1`), not `1`. -/
theorem c2_counterexample :
    Ray.timeOfIntersectionAt rayNegX 1 = 0 ∧
    rayNegX.direction.x ≠ 0 ∧
    (rayNegX.origin.x + rayNegX.direction.x * 1 - rayNegX.origin.x) /
        rayNegX.direction.x = 1 ∧
    (0 : ℚ) ≠ 1 :=
  ⟨by with_unfolding_all rfl, by norm_num [rayNegX], by norm_num [rayNegX],
   by norm_num⟩

end SVR

namespace SVR

/-- C9.  In exact arithmetic `timeOfIntersectionAt` is the identity on any
ray whose direction has at least one strictly positive component: whichever
branch the flags select, `((O_a + D̂_a·s) − O_a)·(1/D̂_a) = s` because the
selected component is non-zero. -/
theorem c9_timeOfIntersectionAt_identity (r : Ray) (s : ℚ)
    (h : 0 < r.direction.x ∨ 0 < r.direction.y ∨ 0 < r.direction.z) :
    r.timeOfIntersectionAt s = s := by
  unfold Ray.timeOfIntersectionAt Ray.invDirection Ray.xDirectionIsNonZero
    Ray.yDirectionIsNonZero
  simp only [decide_eq_true_eq]
  split_ifs with hx hy
  · have hx' : r.direction.x ≠ 0 := ne_of_gt hx
    field_simp
  · have hy' : r.direction.y ≠ 0 := ne_of_gt hy
    field_simp
  · have hz : 0 < r.direction.z := by
      rcases h with h | h | h
      · exact absurd h hx
      · exact absurd h hy
      · exact h
    have hz' : r.direction.z ≠ 0 := ne_of_gt hz
    field_simp

/-- C9, witness: a ray whose only positive direction component is `z`. -/
theorem c9_witness : Ray.timeOfIntersectionAt ⟨⟨1, 2, 3⟩, ⟨0, 0, 1⟩⟩ 7 = 7 :=
  c9_timeOfIntersectionAt_identity ⟨⟨1, 2, 3⟩, ⟨0, 0, 1⟩⟩ 7
    (Or.inr (Or.inr (by norm_num)))

/-- C2, amended: `timeOfIntersectionAt` is evaluated on the first component
whose constructor flag `direction.a() > 0` holds — strict positivity, not
non-zeroness — and falls back to the `z` formula when no component is
positive. -/
theorem c2_amended (r : Ray) (s : ℚ) :
    (0 < r.direction.x →
      r.timeOfIntersectionAt s =
        (r.origin.x + r.direction.x * s - r.origin.x) / r.direction.x) ∧
    (r.direction.x ≤ 0 → 0 < r.direction.y →
      r.timeOfIntersectionAt s =
        (r.origin.y + r.direction.y * s - r.origin.y) / r.direction.y) ∧
    (r.direction.x ≤ 0 → r.direction.y ≤ 0 →
      r.timeOfIntersectionAt s =
        (r.origin.z + r.direction.z * s - r.origin.z) / r.direction.z) := by
  unfold Ray.timeOfIntersectionAt Ray.invDirection Ray.xDirectionIsNonZero
    Ray.yDirectionIsNonZero
  simp only [decide_eq_true_eq]
  refine ⟨fun hx => ?_, fun hx hy => ?_, fun hx hy => ?_⟩
  · rw [if_pos hx, mul_one_div]
  · rw [if_neg (not_lt.mpr hx), if_pos hy, mul_one_div]
  · rw [if_neg (not_lt.mpr hx), if_neg (not_lt.mpr hy), mul_one_div]

/-- C2 amended, witness: a ray with positive `x` uses the `x` formula. -/
theorem c2_amended_witness :
    Ray.timeOfIntersectionAt ⟨⟨1, 2, 3⟩, ⟨2, 0, 0⟩⟩ 5 = ((1 : ℚ) + 2 * 5 - 1) / 2 :=
  (c2_amended ⟨⟨1, 2, 3⟩, ⟨2, 0, 0⟩⟩ 5).1 (by norm_num)

/-- C5.  For a ray starting at the exact centre of a three-shell grid, the
last voxel is closed with `exit_t = t_ray_exit = 1/3` (the exit from the
*entry* shell) although it was entered at `2/3`:  `enter_t > exit_t`,
against the claim's `enter_t ≤ exit_t`. -/
theorem c5_last_voxel_exit_before_enter :
    walkSphericalVolume sqrtQ ray5 grid5 1 4 =
      some [⟨3, 0, 0, 0, 1/3⟩, ⟨2, 0, 0, 1/3, 2/3⟩, ⟨1, 0, 0, 2/3, 1/3⟩] ∧
    ((1 : ℚ)/3 < 2/3) :=
  ⟨walk5_eval, by norm_num⟩

/-- C10, counterexample.  For an origin inside the inner of two shells the
last voxel's `exit_t` is the initialization's `t_ray_exit = 2/5`, the exit
time from the *entry-radius* sphere (radius `1/2`); the point `P(2/5)` has
squared distance `1/4 ≠ 1` from the centre, so `2/5` is not an intersection
time with the outermost sphere, against the claim. -/
theorem c10_counterexample :
    walkSphericalVolume sqrtQ ray10 grid10 1 3 =
      some [⟨2, 0, 0, 0, 2/5⟩, ⟨1, 0, 0, 2/5, 2/5⟩] ∧
    Vec3.squaredLength (Vec3.sub (Ray.pointAtParameter ray10 (2/5))
      grid10.sphereCenter) = 1/4 ∧
    grid10.sphereMaxRadius * grid10.sphereMaxRadius = 1 ∧ ((1 : ℚ)/4) ≠ 1 :=
  ⟨walk10_eval, by with_unfolding_all rfl,
   by with_unfolding_all rfl, by norm_num⟩

/-- C3, counterexample.  A ray tangent to the outermost sphere (touching it
at `P(2) = (0,1,0)`, forward time `2 ≥ 0`) with `max_t = 1 > 0` returns the
empty sequence: the initialization's miss test `entry_radius² ≤ rsvd − v²`
uses `≤`, so tangent rays — which do intersect the grid — are rejected. -/
theorem c3_counterexample :
    walkSphericalVolume sqrtQ ray3 grid1 1 5 = some [] ∧
    (0 : ℚ) < 1 ∧ (0 : ℚ) ≤ 2 ∧
    Vec3.squaredLength (Vec3.sub (Ray.pointAtParameter ray3 2)
      grid1.sphereCenter) = 1 ∧
    grid1.sphereMaxRadius * grid1.sphereMaxRadius = 1 :=
  ⟨walk3_eval, by norm_num, by norm_num,
   by with_unfolding_all rfl, by with_unfolding_all rfl⟩

/-- C7, counterexample.  On a boundary-point table of `N+1 = 2` points
(`N = 1` section) and a query matching no arc, the search returns
`angular_max.size() + 1 = 3`, not the claim's `N + 1 = 2`. -/
theorem c7_counterexample :
    calculateAngularVoxelIDFromPoints [⟨0, 0⟩, ⟨1, 0⟩] 10 10 = 3 ∧
    calcAngularGo 10 10 [⟨0, 0⟩, ⟨1, 0⟩] 0 = none ∧ (3 : ℤ) ≠ 1 + 1 :=
  ⟨by with_unfolding_all rfl, by with_unfolding_all rfl, by norm_num⟩

end SVR

namespace SVR

/-- The arc-membership test of the search, as a Boolean on one pair of
consecutive boundary points: `d1 + d2 < d3` or `isEqual(d1+d2, d3)`. -/
def arcContains (A B : LineSegment) (p1 p2 : ℚ) : Bool :=
  let d1d2 := (A.P1 - p1) * (A.P1 - p1) + (A.P2 - p2) * (A.P2 - p2) +
              (B.P1 - p1) * (B.P1 - p1) + (B.P2 - p2) * (B.P2 - p2)
  let d3 := (A.P1 - B.P1) * (A.P1 - B.P1) + (A.P2 - B.P2) * (A.P2 - B.P2)
  decide (d1d2 < d3) || isEqual d1d2 d3

theorem calcAngularGo_eq_findIdx (p1 p2 : ℚ) :
    ∀ (l : List LineSegment) (i : ℕ),
      calcAngularGo p1 p2 l i =
        (l.zip l.tail).findIdx? (fun AB => arcContains AB.1 AB.2 p1 p2) i
  | [], i => by simp [calcAngularGo]
  | [A], i => by simp [calcAngularGo]
  | A :: B :: rest, i => by
    have hz : (A :: B :: rest).zip (A :: B :: rest).tail =
        (A, B) :: ((B :: rest).zip (B :: rest).tail) := rfl
    rw [hz, List.findIdx?_cons]
    simp only [calcAngularGo, arcContains, Bool.or_eq_true, decide_eq_true_eq]
    split_ifs with h
    · rfl
    · exact calcAngularGo_eq_findIdx p1 p2 (B :: rest) (i + 1)

/-- C7, amended.  The search returns the first index `i` (0-based, scanning
consecutive pairs of boundary points) whose arc contains the query point
under `d1 + d2 ≤ d3` up to `isEqual`; when no arc matches it returns
`angular_max.size() + 1` — i.e. `N + 2` for a table of `N + 1` points —
signalling "outside". -/
theorem c7_amended (angular_max : List LineSegment) (p1 p2 : ℚ) :
    calculateAngularVoxelIDFromPoints angular_max p1 p2 =
      match (angular_max.zip angular_max.tail).findIdx?
          (fun AB => arcContains AB.1 AB.2 p1 p2) with
      | some i => (i : ℤ)
      | none => ((angular_max.length + 1 : ℕ) : ℤ) := by
  unfold calculateAngularVoxelIDFromPoints
  rw [calcAngularGo_eq_findIdx]

end SVR

namespace SVR

theorem setBackExitT_map_idx (e : ℚ) : ∀ l : List SphericalVoxel,
    (setBackExitT l e).map voxIdx = l.map voxIdx
  | [] => rfl
  | [a] => rfl
  | a :: b :: rest => by
    simpa [setBackExitT, voxIdx] using setBackExitT_map_idx e (b :: rest)

theorem setBackExitT_length (e : ℚ) : ∀ l : List SphericalVoxel,
    (setBackExitT l e).length = l.length
  | [] => rfl
  | [a] => rfl
  | a :: b :: rest => by
    simpa [setBackExitT] using setBackExitT_length e (b :: rest)

theorem setBackExitT_getLast? (e : ℚ) : ∀ l : List SphericalVoxel,
    (setBackExitT l e).getLast? = l.getLast?.map fun a => { a with exit_t := e }
  | [] => rfl
  | [a] => rfl
  | a :: b :: rest => by
    rcases hsb : setBackExitT (b :: rest) e with _ | ⟨c, cs⟩
    · have hlen := setBackExitT_length e (b :: rest)
      rw [hsb] at hlen
      simp at hlen
    · have ih := setBackExitT_getLast? e (b :: rest)
      rw [hsb] at ih
      rw [show setBackExitT (a :: b :: rest) e = a :: setBackExitT (b :: rest) e from rfl]
      rw [hsb, List.getLast?_cons_cons, ih, List.getLast?_cons_cons]

theorem setBackExitT_ne_nil (e : ℚ) (l : List SphericalVoxel) (h : l ≠ []) :
    setBackExitT l e ≠ [] := by
  intro habs
  have := setBackExitT_length e l
  rw [habs] at this
  exact h (List.length_eq_zero.mp this.symm)

/-- Exhaustive description of one loop iteration's effect on the collected
voxels: a `return` closes the last voxel with `t_ray_exit`; a continued
iteration either keeps the list (the skip-on-identical-indices branch) or
closes the last voxel at the chosen time and appends the new voxel, whose
index triple differs from the previous one. -/
theorem loopStep_voxels (sq : ℚ → ℚ) (ray : Ray) (grid : SphericalVoxelGrid)
    (d : InitData) (st : LoopState) :
    (∃ r, loopStep sq ray grid d st = Sum.inl r ∧
       r = setBackExitT st.voxels d.t_ray_exit) ∨
    (∃ st', loopStep sq ray grid d st = Sum.inr st' ∧
       (st'.voxels = st.voxels ∨
        ∃ t' nv, st'.voxels = setBackExitT st.voxels t' ++ [nv] ∧
          sameAsBack st.voxels nv.radial nv.polar nv.azimuthal = false)) := by
  simp only [loopStep]
  split
  · exact Or.inl ⟨_, rfl, rfl⟩
  · split
    · exact Or.inl ⟨_, rfl, rfl⟩
    · rename_i t' rad' pol' azi' heq
      split
      · exact Or.inr ⟨_, rfl, Or.inl rfl⟩
      · rename_i hsame
        exact Or.inr ⟨_, rfl, Or.inr ⟨t', _, rfl, Bool.of_not_eq_true hsame⟩⟩

theorem loopGo_ne_nil (sq : ℚ → ℚ) (ray : Ray) (grid : SphericalVoxelGrid)
    (d : InitData) :
    ∀ (n : ℕ) (st : LoopState) (res : List SphericalVoxel),
      st.voxels ≠ [] → loopGo sq ray grid d n st = some res → res ≠ []
  | 0, st, res, _, h => by simp [loopGo] at h
  | n + 1, st, res, hne, h => by
    rw [loopGo] at h
    rcases loopStep_voxels sq ray grid d st with ⟨r, hs, hr⟩ | ⟨st', hs, hv⟩
    · rw [hs] at h
      cases h
      exact hr ▸ setBackExitT_ne_nil _ _ hne
    · rw [hs] at h
      refine loopGo_ne_nil sq ray grid d n st' res ?_ h
      rcases hv with hv | ⟨t', nv, hv, _⟩
      · rw [hv]; exact hne
      · rw [hv]; exact fun habs => by simp at habs

theorem loopGo_getLast_exit (sq : ℚ → ℚ) (ray : Ray) (grid : SphericalVoxelGrid)
    (d : InitData) :
    ∀ (n : ℕ) (st : LoopState) (res : List SphericalVoxel) (v : SphericalVoxel),
      st.voxels ≠ [] → loopGo sq ray grid d n st = some res →
      res.getLast? = some v → v.exit_t = d.t_ray_exit
  | 0, st, res, v, _, h, _ => by simp [loopGo] at h
  | n + 1, st, res, v, hne, h, hlast => by
    rw [loopGo] at h
    rcases loopStep_voxels sq ray grid d st with ⟨r, hs, hr⟩ | ⟨st', hs, hv⟩
    · rw [hs] at h
      cases h
      rw [hr, setBackExitT_getLast? d.t_ray_exit] at hlast
      rcases hlast' : st.voxels.getLast? with _ | a
      · rw [hlast'] at hlast; simp at hlast
      · rw [hlast', Option.map_some'] at hlast
        cases hlast
        rfl
    · rw [hs] at h
      refine loopGo_getLast_exit sq ray grid d n st' res v ?_ h hlast
      rcases hv with hv | ⟨t', nv, hv, _⟩
      · rw [hv]; exact hne
      · rw [hv]; exact fun habs => by simp at habs

end SVR

namespace SVR

/-- C10, amended.  On every terminating path that returns a non-empty
sequence, the last voxel's `exit_t` is the initialization value
`t_ray_exit` — the ray's exit time from the sphere of the *entry* radius,
which coincides with the outermost sphere only when the origin is outside
the grid or in its outermost shell — never the current traversal time `t`
and never the effective `max_t`. -/
theorem c10_amended (sq : ℚ → ℚ) (ray : Ray) (grid : SphericalVoxelGrid)
    (max_t : ℚ) (d : InitData) (fuel : ℕ) (res : List SphericalVoxel)
    (v : SphericalVoxel) (hinit : initPhase sq ray grid max_t = some d)
    (hw : walkSphericalVolume sq ray grid max_t fuel = some res)
    (hlast : res.getLast? = some v) : v.exit_t = d.t_ray_exit := by
  unfold walkSphericalVolume at hw
  split at hw
  · cases hw
    simp at hlast
  · rw [hinit] at hw
    exact loopGo_getLast_exit sq ray grid d fuel _ res v (by simp [initialLoopState])
      hw hlast

/-- C10 amended, witness: the scenario-1 run ends with `exit_t = 3`,
the initialization's `t_ray_exit`. -/
theorem c10_amended_witness :
    ({ radial := 1, polar := 0, azimuthal := 0, enter_t := 0,
       exit_t := 3 : SphericalVoxel }).exit_t = d1c.t_ray_exit :=
  c10_amended sqrtQ ray1 grid1 1 d1c 2 [⟨1, 0, 0, 0, 3⟩] ⟨1, 0, 0, 0, 3⟩
    init1_eval walk1_eval rfl

/-- The four early empty returns of the initialization phase, spelled out:
ray misses (or is tangent to) the entry-radius sphere, the forward exit
time is negative, or an initial angular ID is out of range. -/
theorem initPhase_none_iff (sq : ℚ → ℚ) (ray : Ray) (grid : SphericalVoxelGrid)
    (max_t : ℚ) :
    initPhase sq ray grid max_t = none ↔
      (initEntryRadiusSquared ray grid ≤ initRsvdMinusVSquared ray grid ∨
       initTRayExit sq ray grid < 0 ∨
       grid.numPolarSections ≤ sizeTOfInt (initPolarVoxel sq ray grid) ∨
       grid.numAzimuthalSections ≤ sizeTOfInt (initAzimuthalVoxel sq ray grid)) := by
  unfold initPhase
  split_ifs with h1 h2 h3 h4 <;> simp_all

/-- C3, amended.  The output is empty iff `max_t ≤ 0` or one of the four
early returns of the initialization fires: the ray misses **or is tangent
to** the entry-radius sphere (`entry_radius² ≤ rsvd − v²`, with `≤`), the
forward exit time is negative, or an initial polar/azimuthal voxel ID is
out of range ("outside", spec §4.8 step 8).  In particular a tangent ray,
which does intersect the grid, still yields the empty sequence. -/
theorem c3_amended (sq : ℚ → ℚ) (ray : Ray) (grid : SphericalVoxelGrid)
    (max_t : ℚ) (fuel : ℕ) (res : List SphericalVoxel)
    (hw : walkSphericalVolume sq ray grid max_t fuel = some res) :
    res = [] ↔
      (max_t ≤ 0 ∨
       initEntryRadiusSquared ray grid ≤ initRsvdMinusVSquared ray grid ∨
       initTRayExit sq ray grid < 0 ∨
       grid.numPolarSections ≤ sizeTOfInt (initPolarVoxel sq ray grid) ∨
       grid.numAzimuthalSections ≤ sizeTOfInt (initAzimuthalVoxel sq ray grid)) := by
  unfold walkSphericalVolume at hw
  split at hw
  · cases hw
    simp_all
  · rename_i hm
    rcases hi : initPhase sq ray grid max_t with _ | d
    · rw [hi] at hw
      cases hw
      exact iff_of_true rfl (Or.inr ((initPhase_none_iff sq ray grid max_t).mp hi))
    · rw [hi] at hw
      have hne : res ≠ [] :=
        loopGo_ne_nil sq ray grid d fuel _ res (by simp [initialLoopState]) hw
      have hcond : ¬(initEntryRadiusSquared ray grid ≤ initRsvdMinusVSquared ray grid ∨
          initTRayExit sq ray grid < 0 ∨
          grid.numPolarSections ≤ sizeTOfInt (initPolarVoxel sq ray grid) ∨
          grid.numAzimuthalSections ≤ sizeTOfInt (initAzimuthalVoxel sq ray grid)) := by
        intro hc
        rw [(initPhase_none_iff sq ray grid max_t).mpr hc] at hi
        cases hi
      exact iff_of_false hne (by tauto)

/-- C3 amended, witness: the scenario-1 run is non-empty and none of the
empty-output conditions holds. -/
theorem c3_amended_witness :
    ([{ radial := 1, polar := 0, azimuthal := 0, enter_t := 0,
        exit_t := 3 : SphericalVoxel }] = ([] : List SphericalVoxel)) ↔
      ((1 : ℚ) ≤ 0 ∨
       initEntryRadiusSquared ray1 grid1 ≤ initRsvdMinusVSquared ray1 grid1 ∨
       initTRayExit sqrtQ ray1 grid1 < 0 ∨
       grid1.numPolarSections ≤ sizeTOfInt (initPolarVoxel sqrtQ ray1 grid1) ∨
       grid1.numAzimuthalSections ≤ sizeTOfInt (initAzimuthalVoxel sqrtQ ray1 grid1)) :=
  c3_amended sqrtQ ray1 grid1 1 2 _ walk1_eval

end SVR

namespace SVR

theorem sameAsBack_false_getLast (voxels : List SphericalVoxel)
    (rad pol azi : ℤ) (h : sameAsBack voxels rad pol azi = false)
    (b : SphericalVoxel) (hb : voxels.getLast? = some b) :
    ¬(b.radial = rad ∧ b.polar = pol ∧ b.azimuthal = azi) := by
  unfold sameAsBack at h
  rw [hb] at h
  simpa using h

theorem chain'_idx_append (l : List SphericalVoxel) (nv : SphericalVoxel)
    (hch : List.Chain' (· ≠ ·) (l.map voxIdx))
    (hlast : ∀ b, l.getLast? = some b → voxIdx b ≠ voxIdx nv) :
    List.Chain' (· ≠ ·) ((l ++ [nv]).map voxIdx) := by
  rw [List.map_append]
  refine List.Chain'.append hch (by simp) ?_
  intro x hx y hy
  simp only [List.map_cons, List.map_nil, List.head?_cons, Option.mem_def,
    Option.some.injEq] at hy
  subst hy
  rw [List.getLast?_map] at hx
  rcases hlb : l.getLast? with _ | b
  · rw [hlb] at hx; simp at hx
  · rw [hlb] at hx
    simp only [Option.map_some', Option.mem_def, Option.some.injEq] at hx
    subst hx
    exact hlast b hlb

theorem loopGo_chain (sq : ℚ → ℚ) (ray : Ray) (grid : SphericalVoxelGrid)
    (d : InitData) :
    ∀ (n : ℕ) (st : LoopState) (res : List SphericalVoxel),
      List.Chain' (· ≠ ·) (st.voxels.map voxIdx) →
      loopGo sq ray grid d n st = some res →
      List.Chain' (· ≠ ·) (res.map voxIdx)
  | 0, st, res, _, h => by simp [loopGo] at h
  | n + 1, st, res, hch, h => by
    rw [loopGo] at h
    rcases loopStep_voxels sq ray grid d st with ⟨r, hs, hr⟩ | ⟨st', hs, hv⟩
    · rw [hs] at h
      cases h
      rw [hr, setBackExitT_map_idx]
      exact hch
    · rw [hs] at h
      refine loopGo_chain sq ray grid d n st' res ?_ h
      rcases hv with hv | ⟨t', nv, hv, hguard⟩
      · rw [hv]; exact hch
      · rw [hv]
        refine chain'_idx_append _ nv ?_ ?_
        · rw [setBackExitT_map_idx]; exact hch
        · intro b hb
          rw [setBackExitT_getLast? t'] at hb
          rcases hlb : st.voxels.getLast? with _ | a
          · rw [hlb] at hb; simp at hb
          · rw [hlb, Option.map_some'] at hb
            cases hb
            have := sameAsBack_false_getLast st.voxels nv.radial nv.polar
              nv.azimuthal hguard a hlb
            intro habs
            apply this
            have h1 : a.radial = nv.radial ∧ a.polar = nv.polar ∧
                a.azimuthal = nv.azimuthal := by
              have := congrArg Prod.fst habs
              have h2 := congrArg (Prod.fst ∘ Prod.snd) habs
              have h3 := congrArg (Prod.snd ∘ Prod.snd) habs
              exact ⟨this, h2, h3⟩
            exact h1

/-- C8.  No two consecutive voxels of the output agree in all three
indices: the loop emits a voxel only after the identical-indices skip
check, and closing `exit_t` never changes an index triple. -/
theorem c8_no_consecutive_duplicates (sq : ℚ → ℚ) (ray : Ray)
    (grid : SphericalVoxelGrid) (max_t : ℚ) (fuel : ℕ)
    (res : List SphericalVoxel)
    (hw : walkSphericalVolume sq ray grid max_t fuel = some res) :
    List.Chain'
      (fun a b => ¬(a.radial = b.radial ∧ a.polar = b.polar ∧
        a.azimuthal = b.azimuthal)) res := by
  have key : List.Chain' (· ≠ ·) (res.map voxIdx) := by
    unfold walkSphericalVolume at hw
    split at hw
    · cases hw; simp
    · rcases hi : initPhase sq ray grid max_t with _ | d
      · rw [hi] at hw; cases hw; simp
      · rw [hi] at hw
        exact loopGo_chain sq ray grid d fuel _ res
          (by simp [initialLoopState]) hw
  rw [List.chain'_map] at key
  refine key.imp ?_
  intro a b hne habs
  exact hne (by simp only [voxIdx, habs.1, habs.2.1, habs.2.2])

/-- C8, witness: the three-voxel centre-ray run has pairwise-distinct
consecutive index triples. -/
theorem c8_witness :
    List.Chain'
      (fun a b => ¬(a.radial = b.radial ∧ a.polar = b.polar ∧
        a.azimuthal = b.azimuthal))
      [⟨3, 0, 0, 0, 1/3⟩, ⟨2, 0, 0, 1/3, 2/3⟩,
       (⟨1, 0, 0, 2/3, 1/3⟩ : SphericalVoxel)] :=
  c8_no_consecutive_duplicates sqrtQ ray5 grid5 1 4 _ walk5_eval

end SVR

namespace SVR

theorem isEqual_true_iff {a b : ℚ} :
    isEqual a b = true ↔ |a - b| ≤ ABS_EPSILON + REL_EPSILON * max |a| |b| := by
  simp [isEqual]

theorem isEqual_false_iff {a b : ℚ} :
    isEqual a b = false ↔ ABS_EPSILON + REL_EPSILON * max |a| |b| < |a - b| := by
  rw [← Bool.not_eq_true, isEqual_true_iff]
  exact not_le

theorem abs_eps_pos : (0 : ℚ) < ABS_EPSILON := by norm_num [ABS_EPSILON]

theorem rel_eps_pos : (0 : ℚ) < REL_EPSILON := by norm_num [REL_EPSILON]

theorem rel_eps_le : REL_EPSILON ≤ (1 : ℚ) / 8 := by norm_num [REL_EPSILON]

theorem rel_eps_lt_one : REL_EPSILON < (1 : ℚ) := by norm_num [REL_EPSILON]

theorem dm_large : (8 : ℚ) * ABS_EPSILON ≤ DOUBLE_MAX ∧ (8 : ℚ) < DOUBLE_MAX := by
  refine ⟨?_, ?_⟩
  · rw [ABS_EPSILON, DOUBLE_MAX]; norm_num
  · rw [DOUBLE_MAX]; norm_num

theorem ne_zero_of_isEqual_zero_false {x : ℚ} (h : isEqual x 0 = false) : x ≠ 0 := by
  intro hx
  rw [isEqual_false_iff] at h
  rw [hx] at h
  simp at h
  exact absurd h (not_lt.mpr (le_of_lt abs_eps_pos))

/-- The tolerance algebra behind the ray-through-centre branch: if `t` is
strictly-with-tolerance below `t_min` and `t_max` is `isEqual` to `t_min`,
then `t < t_max`. -/
theorem lt_of_isEqual_close {t tmin tmax : ℚ} (h1 : t < tmin)
    (h2 : isEqual t tmin = false) (h3 : isEqual tmin tmax = true) :
    t < tmax := by
  rw [isEqual_false_iff] at h2
  rw [isEqual_true_iff] at h3
  have habs2 : |t - tmin| = tmin - t := by
    rw [abs_sub_comm]
    exact abs_of_pos (by linarith)
  rw [habs2] at h2
  by_cases hM : max |tmin| |tmax| ≤ max |t| |tmin|
  · have h3' : tmin - tmax ≤ |tmin - tmax| := le_abs_self _
    have : tmin - tmax ≤ ABS_EPSILON + REL_EPSILON * max |t| |tmin| := by
      calc tmin - tmax ≤ |tmin - tmax| := h3'
        _ ≤ ABS_EPSILON + REL_EPSILON * max |tmin| |tmax| := h3
        _ ≤ ABS_EPSILON + REL_EPSILON * max |t| |tmin| := by
            have := rel_eps_pos
            nlinarith
    linarith
  · push_neg at hM
    have hmax_eq : max |tmin| |tmax| = |tmax| := by
      rcases max_cases |tmin| |tmax| with ⟨h, _⟩ | ⟨h, _⟩
      · rw [h] at hM ⊢
        have : |tmin| ≤ max |t| |tmin| := le_max_right _ _
        linarith
      · exact h
    rw [hmax_eq] at h3
    have htmaxgt : max |t| |tmin| < |tmax| := by
      rw [← hmax_eq]
      exact hM
    rcases le_or_lt 0 tmax with hpos | hneg
    · -- |tmax| = tmax > |t| ≥ t
      have : |t| < tmax := lt_of_le_of_lt (le_max_left _ _)
        (by rwa [abs_of_nonneg hpos] at htmaxgt)
      exact lt_of_le_of_lt (le_abs_self t) this
    · -- tmax < 0: the (1 − ε_rel) scaling argument
      have habs3 : |tmax| = -tmax := abs_of_neg hneg
      rw [habs3] at h3
      have h3' : tmin - tmax ≤ ABS_EPSILON + REL_EPSILON * (-tmax) := by
        calc tmin - tmax ≤ |tmin - tmax| := le_abs_self _
          _ ≤ _ := h3
      -- (i):  tmin − εa ≤ tmax·(1 − εr)
      have hi : tmin - ABS_EPSILON ≤ tmax * (1 - REL_EPSILON) := by nlinarith
      -- (ii): t·(1 − εr) < tmin − εa, using |t| ≥ −t
      have hii : t * (1 - REL_EPSILON) < tmin - ABS_EPSILON := by
        have h2' : ABS_EPSILON + REL_EPSILON * (-t) ≤
            ABS_EPSILON + REL_EPSILON * max |t| |tmin| := by
          have : -t ≤ |t| := neg_le_abs t
          have : -t ≤ max |t| |tmin| := le_trans this (le_max_left _ _)
          nlinarith [rel_eps_pos]
        nlinarith
      have hse : (0 : ℚ) < 1 - REL_EPSILON := by linarith [rel_eps_lt_one]
      nlinarith

/-- An `isEqual` neighbour of a value below `DOUBLE_MAX/2` stays below
`(3/4)·DOUBLE_MAX`. -/
theorem isEqual_alias_bound {u b : ℚ} (h : isEqual u b = true)
    (hu : u < DOUBLE_MAX / 2) : b < DOUBLE_MAX * 3 / 4 := by
  rw [isEqual_true_iff] at h
  rcases le_or_lt b u with hb | hb
  · have := dm_large.2
    linarith
  · have hgap : b - u ≤ ABS_EPSILON + REL_EPSILON * max |u| |b| := by
      calc b - u ≤ |u - b| := by rw [abs_sub_comm]; exact le_abs_self _
        _ ≤ _ := h
    rcases max_cases |u| |b| with ⟨hm, _⟩ | ⟨hm, hm'⟩
    · rw [hm] at hgap
      rcases le_or_lt 0 u with hu0 | hu0
      · rw [abs_of_nonneg hu0] at hgap
        have h8 := dm_large.1
        have := rel_eps_le
        nlinarith [dm_large.2]
      · rw [abs_of_neg hu0] at hgap
        have h8 := dm_large.1
        have := rel_eps_le
        nlinarith [dm_large.2]
    · rw [hm] at hgap
      rcases le_or_lt b 0 with hb0 | hb0
      · nlinarith [dm_large.2]
      · rw [abs_of_pos hb0] at hgap
        have h8 := dm_large.1
        have := rel_eps_le
        nlinarith [dm_large.2]

/-- Nothing below `(3/4)·DOUBLE_MAX` is `isEqual` to `DOUBLE_MAX`. -/
theorem isEqual_DM_false {b : ℚ} (hb : b < DOUBLE_MAX * 3 / 4) :
    isEqual b DOUBLE_MAX = false ∧ isEqual DOUBLE_MAX b = false ∧
    b ≠ DOUBLE_MAX := by
  have hdm8 := dm_large.1
  have hdm := dm_large.2
  have hrel := rel_eps_le
  have habs' : |b - DOUBLE_MAX| = DOUBLE_MAX - b := by
    rw [abs_sub_comm]
    exact abs_of_pos (by linarith)
  have key : ABS_EPSILON + REL_EPSILON * max |b| DOUBLE_MAX < DOUBLE_MAX - b := by
    rcases max_cases |b| DOUBLE_MAX with ⟨hm, hm'⟩ | ⟨hm, _⟩
    · rw [hm]
      rcases le_or_lt 0 b with hb0 | hb0
      · rw [abs_of_nonneg hb0] at hm' ⊢
        nlinarith [rel_eps_pos]
      · rw [abs_of_neg hb0] at hm' ⊢
        nlinarith [rel_eps_pos]
    · rw [hm]
      nlinarith [rel_eps_pos, abs_nonneg b]
  refine ⟨?_, ?_, by intro h; rw [h] at hb; linarith⟩
  · rw [isEqual_false_iff, habs']
    exact key
  · rw [isEqual_false_iff, abs_sub_comm, habs']
    rw [max_comm]
    exact key

end SVR

namespace SVR

/-- The shell index the pre-transition branch of `radialHit` reads:
`min(size_t(k), N_r − 1)` minus the tangent-unreachable guard. -/
def radialIdxA (grid : SphericalVoxelGrid) (k : ℤ) (rsvd_minus_v_squared : ℚ) : ℕ :=
  let previous_idx : ℕ := min (sizeTOfInt k) (grid.numRadialSections - 1)
  previous_idx - (if grid.deltaRadiiSquared previous_idx < rsvd_minus_v_squared
                  then 1 else 0)

/-- The pre-transition entrance time of `radialHit`. -/
def radialEntranceTime (sq : ℚ → ℚ) (ray : Ray) (grid : SphericalVoxelGrid)
    (k : ℤ) (v rsvd_minus_v_squared : ℚ) : ℚ :=
  ray.timeOfIntersectionAt (v - sq (grid.deltaRadiiSquared
    (radialIdxA grid k rsvd_minus_v_squared) - rsvd_minus_v_squared))

/-- Exhaustive description of `radialHit`'s return paths: the sentinel
(flag unchanged); post-transition outward step; tangent (flag set);
pre-transition inward step (flag kept false, strictly future, bounded);
pre-transition outward transition (flag set). -/
theorem radialHit_spec (sq : ℚ → ℚ) (ray : Ray) (grid : SphericalVoxelGrid)
    (trans : Bool) (k : ℤ) (v rmv t maxT : ℚ) :
    radialHit sq ray grid trans k v rmv t maxT = (⟨DOUBLE_MAX, 0⟩, trans) ∨
    (trans = true ∧ ∃ tb, radialHit sq ray grid trans k v rmv t maxT =
       (⟨tb, -1⟩, true) ∧ tb < maxT) ∨
    (trans = false ∧ ∃ te, radialHit sq ray grid trans k v rmv t maxT =
       (⟨te, 0⟩, true) ∧ t < te ∧ te = radialEntranceTime sq ray grid k v rmv) ∨
    (trans = false ∧ ∃ te, radialHit sq ray grid trans k v rmv t maxT =
       (⟨te, 1⟩, false) ∧ t < te ∧ te < maxT ∧
       te = radialEntranceTime sq ray grid k v rmv) ∨
    (trans = false ∧ ∃ tx, radialHit sq ray grid trans k v rmv t maxT =
       (⟨tx, -1⟩, true) ∧ tx < maxT) := by
  unfold radialHit
  cases trans with
  | true =>
    rw [if_pos rfl]
    dsimp only
    split_ifs with h1
    · exact Or.inr (Or.inl ⟨rfl, _, rfl, h1⟩)
    · exact Or.inl rfl
  | false =>
    rw [if_neg Bool.false_ne_true]
    dsimp only
    split_ifs with h0 h1 h2 h3 h4 h5 h6
    · refine Or.inr (Or.inr (Or.inl ⟨rfl, _, rfl, h1.1, ?_⟩))
      simp only [radialEntranceTime, radialIdxA]
      rw [if_pos h0]
    · refine Or.inr (Or.inr (Or.inr (Or.inl ⟨rfl, _, rfl, h2.1, h2.2, ?_⟩)))
      simp only [radialEntranceTime, radialIdxA]
      rw [if_pos h0]
    · exact Or.inr (Or.inr (Or.inr (Or.inr ⟨rfl, _, rfl, h3⟩)))
    · exact Or.inl rfl
    · refine Or.inr (Or.inr (Or.inl ⟨rfl, _, rfl, h4.1, ?_⟩))
      simp only [radialEntranceTime, radialIdxA]
      rw [if_neg h0]
    · refine Or.inr (Or.inr (Or.inr (Or.inl ⟨rfl, _, rfl, h5.1, h5.2, ?_⟩)))
      simp only [radialEntranceTime, radialIdxA]
      rw [if_neg h0]
    · exact Or.inr (Or.inr (Or.inr (Or.inr ⟨rfl, _, rfl, h6⟩)))
    · exact Or.inl rfl

end SVR

namespace SVR

end SVR

namespace SVR

theorem angularSide_spec (perp_uv perp_uw perp_vw : ℚ) (seg : RaySegment)
    (ray : Ray) (ct : ℚ × ℚ) :
    ((angularSide perp_uv perp_uw perp_vw seg ray ct).isIntersect = true →
      isEqual perp_uv 0 = false ∧
      (angularSide perp_uv perp_uw perp_vw seg ray ct).tSide =
        seg.intersectionTimeAt (perp_uw * (1 / perp_uv)) ray) ∧
    ((angularSide perp_uv perp_uw perp_vw seg ray ct).isIntersect = false →
      (angularSide perp_uv perp_uw perp_vw seg ray ct).tSide = ct.1 ∨
      (angularSide perp_uv perp_uw perp_vw seg ray ct).tSide = ct.2) := by
  simp only [angularSide]
  constructor
  · intro hi
    simp only [Bool.and_eq_true, Bool.not_eq_true'] at hi
    refine ⟨hi.1, ?_⟩
    simp only [hi, Bool.and_eq_true, Bool.not_eq_true']
    rw [if_pos]
    simp [hi.1, hi.2]
  · intro hi
    rw [if_neg (by rw [hi]; exact Bool.false_ne_true)]
    split_ifs <;> [exact Or.inr rfl; exact Or.inl rfl]

theorem angularDecide_spec (sq : ℚ → ℚ) (grid : SphericalVoxelGrid) (ray : Ray)
    (mn mx : AngularSide) (t maxT rd2 sc2 : ℚ) (PM : List LineSegment)
    (cv : ℤ) (h : HitParameters)
    (hh : angularDecide sq grid ray mn mx t maxT rd2 sc2 PM cv = h) :
    h = ⟨DOUBLE_MAX, 0⟩ ∨
    (t < h.tMax ∧ (h.tMax < maxT ∨ ∃ u, u < maxT ∧ isEqual u h.tMax = true) ∧
     (h.tMax = mn.tSide ∨ h.tMax = mx.tSide)) := by
  simp only [angularDecide] at hh
  split_ifs at hh with h1 h2 h3 h4 h5 hsg h6 h7
  · exact Or.inl hh.symm
  · -- max side hit
    simp only [Bool.and_eq_true, Bool.not_eq_true', decide_eq_true_eq] at h2
    subst hh
    exact Or.inr ⟨h2.2.1.1, Or.inl h2.2.2, Or.inr rfl⟩
  · -- min side hit
    simp only [Bool.and_eq_true, Bool.not_eq_true', decide_eq_true_eq] at h3
    subst hh
    exact Or.inr ⟨h3.2.1.1, Or.inl h3.2.2, Or.inl rfl⟩
  · -- ray through centre, positive step sign
    simp only [Bool.and_eq_true, Bool.not_eq_true', decide_eq_true_eq] at h5
    subst hh
    exact Or.inr ⟨lt_of_isEqual_close h5.2.1.1 h5.2.1.2 h5.1,
      Or.inr ⟨mn.tSide, h5.2.2, h5.1⟩, Or.inr rfl⟩
  · -- ray through centre, negative step sign
    simp only [Bool.and_eq_true, Bool.not_eq_true', decide_eq_true_eq] at h5
    subst hh
    exact Or.inr ⟨lt_of_isEqual_close h5.2.1.1 h5.2.1.2 h5.1,
      Or.inr ⟨mn.tSide, h5.2.2, h5.1⟩, Or.inr rfl⟩
  · -- min side, combined branch
    simp only [Bool.and_eq_true, Bool.not_eq_true', Bool.or_eq_true,
      decide_eq_true_eq] at h6
    subst hh
    exact Or.inr ⟨h6.1.1.1, Or.inl h6.1.2, Or.inl rfl⟩
  · -- max side, combined branch
    simp only [Bool.and_eq_true, Bool.not_eq_true', Bool.or_eq_true,
      decide_eq_true_eq] at h7
    subst hh
    exact Or.inr ⟨h7.1.1.1, Or.inl h7.1.2, Or.inr rfl⟩
  · exact Or.inl hh.symm
  · exact Or.inl hh.symm

end SVR

namespace SVR

theorem timeOfIntersectionAt_eq_or_zero (r : Ray) (s : ℚ) :
    r.timeOfIntersectionAt s = s ∨ r.timeOfIntersectionAt s = 0 := by
  unfold Ray.timeOfIntersectionAt Ray.invDirection Ray.xDirectionIsNonZero
    Ray.yDirectionIsNonZero
  simp only [decide_eq_true_eq]
  split_ifs with hx hy
  · exact Or.inl (by field_simp)
  · exact Or.inl (by field_simp)
  · by_cases hz : r.direction.z = 0
    · refine Or.inr ?_
      rw [hz]
      ring_nf
    · exact Or.inl (by field_simp)

/-- The ray-constant intersection time of the fixed ray line with the
fixed line through the `kk`-th polar boundary point in direction
`centerToPolarBound kk`, in the XY plane. -/
def polarCandTime (ray : Ray) (grid : SphericalVoxelGrid) (kk : ℕ) : ℚ :=
  ((grid.centerToPolarBound kk).x * ((grid.pMaxPolar kk).P2 - ray.origin.y) -
   (grid.centerToPolarBound kk).y * ((grid.pMaxPolar kk).P1 - ray.origin.x)) /
  ((grid.centerToPolarBound kk).x * ray.direction.y -
   (grid.centerToPolarBound kk).y * ray.direction.x)

/-- The XZ-plane analogue for the azimuthal boundaries. -/
def aziCandTime (ray : Ray) (grid : SphericalVoxelGrid) (kk : ℕ) : ℚ :=
  ((grid.centerToAzimuthalBound kk).x * ((grid.pMaxAzimuthal kk).P2 - ray.origin.z) -
   (grid.centerToAzimuthalBound kk).z * ((grid.pMaxAzimuthal kk).P1 - ray.origin.x)) /
  ((grid.centerToAzimuthalBound kk).x * ray.direction.z -
   (grid.centerToAzimuthalBound kk).z * ray.direction.x)

/-- In exact arithmetic the XY segment-segment intersection time is
independent of the current segment start: it is the fixed two-line
intersection time `c2/c1` (or the degenerate `0` of the `z` fallback). -/
theorem segTime_xy (ray : Ray) (maxT t ux uy px py : ℚ)
    (hne : ux * ((RaySegment.make maxT ray).updateAtTime t ray).vector.y -
           uy * ((RaySegment.make maxT ray).updateAtTime t ray).vector.x ≠ 0) :
    ((RaySegment.make maxT ray).updateAtTime t ray).intersectionTimeAt
        ((ux * (py - ((RaySegment.make maxT ray).updateAtTime t ray).P1.y) -
          uy * (px - ((RaySegment.make maxT ray).updateAtTime t ray).P1.x)) *
         (1 / (ux * ((RaySegment.make maxT ray).updateAtTime t ray).vector.y -
               uy * ((RaySegment.make maxT ray).updateAtTime t ray).vector.x)))
        ray =
      (ux * (py - ray.origin.y) - uy * (px - ray.origin.x)) /
        (ux * ray.direction.y - uy * ray.direction.x) ∨
    ((RaySegment.make maxT ray).updateAtTime t ray).intersectionTimeAt
        ((ux * (py - ((RaySegment.make maxT ray).updateAtTime t ray).P1.y) -
          uy * (px - ((RaySegment.make maxT ray).updateAtTime t ray).P1.x)) *
         (1 / (ux * ((RaySegment.make maxT ray).updateAtTime t ray).vector.y -
               uy * ((RaySegment.make maxT ray).updateAtTime t ray).vector.x)))
        ray = 0 := by
  rcases ray with ⟨⟨ox, oy, oz⟩, ⟨dx, dy, dz⟩⟩
  simp only [RaySegment.make, RaySegment.updateAtTime, RaySegment.vector,
    RaySegment.intersectionTimeAt, Ray.pointAtParameter, Vec3.add, Vec3.sub,
    Vec3.smul, Ray.invDirection, Ray.xDirectionIsNonZero,
    Ray.yDirectionIsNonZero, decide_eq_true_eq] at hne ⊢
  have hmt : maxT - t ≠ 0 := by
    intro h0
    apply hne
    have ht : maxT = t := by linarith
    subst ht
    ring
  have hc1 : ux * dy - uy * dx ≠ 0 := by
    intro h0
    apply hne
    linear_combination (maxT - t) * h0
  have hW : ux * (oy + maxT * dy - (oy + t * dy)) -
      uy * (ox + maxT * dx - (ox + t * dx)) =
      (maxT - t) * (ux * dy - uy * dx) := by ring
  split_ifs with hx hy
  · refine Or.inl ?_
    have hdx : dx ≠ 0 := ne_of_gt hx
    rw [hW, eq_div_iff hc1]
    field_simp
    ring
  · refine Or.inl ?_
    have hdy : dy ≠ 0 := ne_of_gt hy
    rw [hW, eq_div_iff hc1]
    field_simp
    ring
  · by_cases hdz : dz = 0
    · refine Or.inr ?_
      subst hdz
      ring_nf
    · refine Or.inl ?_
      rw [hW, eq_div_iff hc1]
      field_simp
      ring

/-! ### Support lemmas for the index-range and termination arguments -/

/-- `size_t` conversion is the identity on `[0, 2⁶⁴)`. -/
theorem sizeTOfInt_eq {a : ℤ} (h0 : 0 ≤ a) (h64 : a < 2 ^ 64) :
    (sizeTOfInt a : ℤ) = a := by
  unfold sizeTOfInt
  show ((a % 18446744073709551616).toNat : ℤ) = a
  rw [Int.emod_eq_of_lt h0 (by norm_num at h64 ⊢; exact h64),
    Int.toNat_of_nonneg h0]

theorem sizeTOfInt_natCast {n : ℕ} (h : (n : ℤ) < 2 ^ 64) :
    sizeTOfInt (n : ℤ) = n := by
  have := sizeTOfInt_eq (Int.natCast_nonneg n) h
  exact_mod_cast this

theorem angularVoxelMod_nonneg (a : ℤ) (n : ℕ) : 0 ≤ angularVoxelMod a n :=
  Int.natCast_nonneg _

theorem angularVoxelMod_lt (a : ℤ) {n : ℕ} (hn : 0 < n) :
    angularVoxelMod a n < (n : ℤ) := by
  unfold angularVoxelMod
  exact_mod_cast Nat.mod_lt _ hn

theorem radialEntranceScan_ge (grid : SphericalVoxelGrid) (SED : ℚ) :
    ∀ (fuel k : ℕ), k ≤ radialEntranceScan grid SED k fuel
  | 0, k => le_refl k
  | fuel + 1, k => by
    rw [radialEntranceScan]
    split_ifs with h
    · exact le_trans (Nat.le_succ k) (radialEntranceScan_ge grid SED fuel (k + 1))
    · exact le_refl k

theorem radialEntranceScan_le (grid : SphericalVoxelGrid) (SED : ℚ)
    (h0 : 0 ≤ SED)
    (htbl : grid.deltaRadiiSquared grid.numRadialSections = 0) :
    ∀ (fuel k : ℕ), k ≤ grid.numRadialSections →
      grid.numRadialSections - k ≤ fuel →
      radialEntranceScan grid SED k fuel ≤ grid.numRadialSections
  | 0, k, hk, _ => hk
  | fuel + 1, k, hk, hf => by
    rw [radialEntranceScan]
    split_ifs with h
    · rcases eq_or_lt_of_le hk with he | hlt
      · rw [he, htbl] at h
        exact absurd h (not_lt.mpr h0)
      · exact radialEntranceScan_le grid SED h0 htbl fuel (k + 1) hlt (by omega)
    · exact hk

theorem radialEntranceScan_prev (grid : SphericalVoxelGrid) (SED : ℚ) :
    ∀ (fuel k K : ℕ), radialEntranceScan grid SED k fuel = K → k < K →
      SED < grid.deltaRadiiSquared (K - 1)
  | 0, k, K, h, hlt => by
    rw [radialEntranceScan] at h
    omega
  | fuel + 1, k, K, h, hlt => by
    rw [radialEntranceScan] at h
    split_ifs at h with hc
    · rcases Nat.lt_or_ge (k + 1) K with h2 | h2
      · exact radialEntranceScan_prev grid SED fuel (k + 1) K h h2
      · have hge := radialEntranceScan_ge grid SED fuel (k + 1)
        rw [h] at hge
        have : K = k + 1 := le_antisymm h2 hge
        rw [this]
        simpa using hc
    · omega

theorem calcAngularGo_le (p1 p2 : ℚ) :
    ∀ (l : List LineSegment) (i j : ℕ),
      calcAngularGo p1 p2 l i = some j → j < i + l.length
  | [], i, j, h => by simp [calcAngularGo] at h
  | [A], i, j, h => by simp [calcAngularGo] at h
  | A :: B :: rest, i, j, h => by
    simp only [calcAngularGo] at h
    split_ifs at h with hc
    · cases h
      simp
    · have := calcAngularGo_le p1 p2 (B :: rest) (i + 1) j h
      simp only [List.length_cons] at this ⊢
      omega

theorem calculateAngularVoxelIDFromPoints_nonneg (l : List LineSegment)
    (p1 p2 : ℚ) : 0 ≤ calculateAngularVoxelIDFromPoints l p1 p2 := by
  unfold calculateAngularVoxelIDFromPoints
  cases h : calcAngularGo p1 p2 l 0 <;> positivity

theorem calculateAngularVoxelIDFromPoints_le (l : List LineSegment)
    (p1 p2 : ℚ) :
    calculateAngularVoxelIDFromPoints l p1 p2 ≤ (l.length : ℤ) + 1 := by
  unfold calculateAngularVoxelIDFromPoints
  cases h : calcAngularGo p1 p2 l 0 with
  | none => push_cast; omega
  | some j =>
    have := calcAngularGo_le p1 p2 l 0 j h
    push_cast
    omega

theorem initializeAngularVoxelID_nonneg (sq : ℚ → ℚ)
    (grid : SphericalVoxelGrid) (n : ℕ) (rs : Vec3) (PM : List LineSegment)
    (rs2 gc2 er : ℚ) :
    0 ≤ initializeAngularVoxelID sq grid n rs PM rs2 gc2 er := by
  unfold initializeAngularVoxelID
  dsimp only
  split_ifs
  · exact le_refl (0 : ℤ)
  · exact le_refl (0 : ℤ)
  · exact calculateAngularVoxelIDFromPoints_nonneg _ _ _

theorem initializeAngularVoxelID_le (sq : ℚ → ℚ)
    (grid : SphericalVoxelGrid) (n : ℕ) (rs : Vec3) (PM : List LineSegment)
    (rs2 gc2 er : ℚ) :
    initializeAngularVoxelID sq grid n rs PM rs2 gc2 er ≤ (PM.length : ℤ) + 1 := by
  unfold initializeAngularVoxelID
  dsimp only
  split_ifs
  · positivity
  · positivity
  · exact calculateAngularVoxelIDFromPoints_le _ _ _

/-- The XZ analogue of `segTime_xy` for the azimuthal boundaries. -/
theorem segTime_xz (ray : Ray) (maxT t ux uz px pz : ℚ)
    (hne : ux * ((RaySegment.make maxT ray).updateAtTime t ray).vector.z -
           uz * ((RaySegment.make maxT ray).updateAtTime t ray).vector.x ≠ 0) :
    ((RaySegment.make maxT ray).updateAtTime t ray).intersectionTimeAt
        ((ux * (pz - ((RaySegment.make maxT ray).updateAtTime t ray).P1.z) -
          uz * (px - ((RaySegment.make maxT ray).updateAtTime t ray).P1.x)) *
         (1 / (ux * ((RaySegment.make maxT ray).updateAtTime t ray).vector.z -
               uz * ((RaySegment.make maxT ray).updateAtTime t ray).vector.x)))
        ray =
      (ux * (pz - ray.origin.z) - uz * (px - ray.origin.x)) /
        (ux * ray.direction.z - uz * ray.direction.x) ∨
    ((RaySegment.make maxT ray).updateAtTime t ray).intersectionTimeAt
        ((ux * (pz - ((RaySegment.make maxT ray).updateAtTime t ray).P1.z) -
          uz * (px - ((RaySegment.make maxT ray).updateAtTime t ray).P1.x)) *
         (1 / (ux * ((RaySegment.make maxT ray).updateAtTime t ray).vector.z -
               uz * ((RaySegment.make maxT ray).updateAtTime t ray).vector.x)))
        ray = 0 := by
  rcases ray with ⟨⟨ox, oy, oz⟩, ⟨dx, dy, dz⟩⟩
  simp only [RaySegment.make, RaySegment.updateAtTime, RaySegment.vector,
    RaySegment.intersectionTimeAt, Ray.pointAtParameter, Vec3.add, Vec3.sub,
    Vec3.smul, Ray.invDirection, Ray.xDirectionIsNonZero,
    Ray.yDirectionIsNonZero, decide_eq_true_eq] at hne ⊢
  have hmt : maxT - t ≠ 0 := by
    intro h0
    apply hne
    have ht : maxT = t := by linarith
    subst ht
    ring
  have hc1 : ux * dz - uz * dx ≠ 0 := by
    intro h0
    apply hne
    linear_combination (maxT - t) * h0
  have hW : ux * (oz + maxT * dz - (oz + t * dz)) -
      uz * (ox + maxT * dx - (ox + t * dx)) =
      (maxT - t) * (ux * dz - uz * dx) := by ring
  split_ifs with hx hy
  · refine Or.inl ?_
    have hdx : dx ≠ 0 := ne_of_gt hx
    rw [hW, eq_div_iff hc1]
    field_simp
    ring
  · refine Or.inl ?_
    have hdy : dy ≠ 0 := ne_of_gt hy
    rw [hW, eq_div_iff hc1]
    field_simp
    ring
  · by_cases hdz : dz = 0
    · refine Or.inr ?_
      subst hdz
      ring_nf
    · refine Or.inl ?_
      rw [hW, eq_div_iff hc1]
      field_simp
      ring

/-- `radialEntranceTime` agrees at the two topmost indices `N_r − 1` and
`N_r` (both clamp to shell `N_r − 1`). -/
theorem radialEntranceTime_last (sq : ℚ → ℚ) (ray : Ray)
    (grid : SphericalVoxelGrid) (v rmv : ℚ)
    (hNr : 1 ≤ grid.numRadialSections)
    (h64 : (grid.numRadialSections : ℤ) < 2 ^ 64) :
    radialEntranceTime sq ray grid ((grid.numRadialSections : ℤ) - 1) v rmv =
      radialEntranceTime sq ray grid (grid.numRadialSections : ℤ) v rmv := by
  unfold radialEntranceTime radialIdxA
  have h1 : sizeTOfInt (grid.numRadialSections : ℤ) = grid.numRadialSections :=
    sizeTOfInt_natCast h64
  have hc : ((grid.numRadialSections - 1 : ℕ) : ℤ) =
      (grid.numRadialSections : ℤ) - 1 := by
    push_cast [hNr]
    ring
  have h2 : sizeTOfInt ((grid.numRadialSections : ℤ) - 1) =
      grid.numRadialSections - 1 := by
    rw [← hc]
    exact sizeTOfInt_natCast (by omega)
  rw [h1, h2, min_self, min_eq_right (Nat.sub_le _ _)]

/-- With a nonnegative square root and `v ≤ DOUBLE_MAX`, every
pre-transition entrance time is at most `DOUBLE_MAX`. -/
theorem radialEntranceTime_le_DM (sq : ℚ → ℚ) (ray : Ray)
    (grid : SphericalVoxelGrid) (k : ℤ) (v rmv : ℚ)
    (hsq1 : ∀ x, 0 ≤ sq x) (hv : v ≤ DOUBLE_MAX) :
    radialEntranceTime sq ray grid k v rmv ≤ DOUBLE_MAX := by
  unfold radialEntranceTime
  rcases timeOfIntersectionAt_eq_or_zero ray
      (v - sq (grid.deltaRadiiSquared (radialIdxA grid k rmv) - rmv)) with h | h <;>
    rw [h]
  · have := hsq1 (grid.deltaRadiiSquared (radialIdxA grid k rmv) - rmv)
    linarith
  · linarith [dm_large.2]

theorem initSED_nonneg (ray : Ray) (grid : SphericalVoxelGrid) :
    0 ≤ initSED ray grid := by
  unfold initSED Vec3.squaredLength
  nlinarith [mul_self_nonneg (initRsv ray grid).x,
    mul_self_nonneg (initRsv ray grid).y, mul_self_nonneg (initRsv ray grid).z]

/-- `rsvd − v²` plus `v²` is the squared entry distance. -/
theorem initRsvd_add_sq (ray : Ray) (grid : SphericalVoxelGrid) :
    initRsvdMinusVSquared ray grid + initV ray grid * initV ray grid =
      initSED ray grid := by
  unfold initRsvdMinusVSquared initSED Vec3.squaredLength Vec3.dot
  ring

/-- Inversion of a successful initialization: field equations and the
guards that were passed. -/
theorem initPhase_inv (sq : ℚ → ℚ) (ray : Ray) (grid : SphericalVoxelGrid)
    (max_t : ℚ) (d : InitData)
    (hd : initPhase sq ray grid max_t = some d) :
    d.v = initV ray grid ∧
    d.rsvd_minus_v_squared = initRsvdMinusVSquared ray grid ∧
    d.t_ray_exit = initTRayExit sq ray grid ∧
    d.t_ray_entrance = initTRayEntrance sq ray grid ∧
    d.rad0 = (initRadialEntranceVoxel ray grid : ℤ) +
      (if initOriginOutside ray grid then 1 else 0) ∧
    d.pol0 = initPolarVoxel sq ray grid ∧
    d.azi0 = initAzimuthalVoxel sq ray grid ∧
    initRsvdMinusVSquared ray grid < initEntryRadiusSquared ray grid ∧
    sizeTOfInt (initPolarVoxel sq ray grid) < grid.numPolarSections ∧
    sizeTOfInt (initAzimuthalVoxel sq ray grid) < grid.numAzimuthalSections := by
  unfold initPhase at hd
  split_ifs at hd with g1 g2 g3 g4
  cases hd
  push_neg at g1 g3 g4
  exact ⟨rfl, rfl, rfl, rfl, rfl, rfl, rfl, g1, g3, g4⟩

/-- The claimed index ranges for one output voxel. -/
def VoxRanges (grid : SphericalVoxelGrid) (vx : SphericalVoxel) : Prop :=
  1 ≤ vx.radial ∧ vx.radial ≤ (grid.numRadialSections : ℤ) ∧
  0 ≤ vx.polar ∧ vx.polar < (grid.numPolarSections : ℤ) ∧
  0 ≤ vx.azimuthal ∧ vx.azimuthal < (grid.numAzimuthalSections : ℤ)

/-- The loop invariant for the index ranges: the running indices are in
range, the emitted voxels are in range, and — while the radial flag is
still unset at the innermost shell — the innermost entrance time has
already been passed (which blocks a further inward step). -/
def Inv6 (sq : ℚ → ℚ) (ray : Ray) (grid : SphericalVoxelGrid) (d : InitData)
    (st : LoopState) : Prop :=
  1 ≤ st.rad ∧ st.rad ≤ (grid.numRadialSections : ℤ) ∧
  0 ≤ st.pol ∧ st.pol < (grid.numPolarSections : ℤ) ∧
  0 ≤ st.azi ∧ st.azi < (grid.numAzimuthalSections : ℤ) ∧
  (st.trans = false ∧ st.rad = (grid.numRadialSections : ℤ) →
    radialEntranceTime sq ray grid (grid.numRadialSections : ℤ)
      d.v d.rsvd_minus_v_squared ≤ st.t) ∧
  ∀ vx ∈ st.voxels, VoxRanges grid vx

theorem initializeVoxelBoundarySegments_len_fst (grid : SphericalVoxelGrid)
    (b : Bool) (er : ℚ) :
    ((initializeVoxelBoundarySegments grid b er).1).length =
      if b then grid.pMaxPolarList.length else grid.polarTrigValues.length := by
  cases b <;> simp [initializeVoxelBoundarySegments]

theorem initializeVoxelBoundarySegments_len_snd (grid : SphericalVoxelGrid)
    (b : Bool) (er : ℚ) :
    ((initializeVoxelBoundarySegments grid b er).2).length =
      if b then grid.pMaxAzimuthalList.length
      else grid.azimuthalTrigValues.length := by
  cases b <;> simp [initializeVoxelBoundarySegments]

/-- An angular start index passing its range guard is in `[0, N)`. -/
theorem initAngular_range {n : ℕ} {a : ℤ} (ha0 : 0 ≤ a)
    (hle : a ≤ (2 : ℤ) ^ 64 - 1) (hg : sizeTOfInt a < n) :
    0 ≤ a ∧ a < (n : ℤ) := by
  refine ⟨ha0, ?_⟩
  have he : (sizeTOfInt a : ℤ) = a := sizeTOfInt_eq ha0 (by omega)
  rw [← he]
  exact_mod_cast hg

/-- The entrance-scan index of a successful initialization, with the
entrance shell strictly containing the origin when it is not the first. -/
theorem initRadialEntranceVoxel_eq (ray : Ray) (grid : SphericalVoxelGrid) :
    initRadialEntranceVoxel ray grid =
      radialEntranceScan grid (initSED ray grid) 0
        (grid.numRadialSections + 2) := rfl

/-- The `J` component at initialization. -/
theorem initial_J (sq : ℚ → ℚ) (ray : Ray) (grid : SphericalVoxelGrid)
    (max_t : ℚ) (d : InitData)
    (hsq1 : ∀ x, 0 ≤ sq x)
    (hsq2 : ∀ x y : ℚ, 0 ≤ y → y * y < x → y < sq x)
    (hNr : 1 ≤ grid.numRadialSections)
    (h64 : (grid.numRadialSections : ℤ) < 2 ^ 64)
    (hd : initPhase sq ray grid max_t = some d)
    (hN : d.rad0 = (grid.numRadialSections : ℤ)) :
    radialEntranceTime sq ray grid (grid.numRadialSections : ℤ)
      d.v d.rsvd_minus_v_squared ≤
      d.t_ray_entrance * (if initOriginOutside ray grid then 1 else 0) := by
  obtain ⟨hv, hrmv, _, htre, hrad0, _, _, hmiss, _, _⟩ :=
    initPhase_inv sq ray grid max_t d hd
  rw [hv, hrmv, htre]
  by_cases hout : initRadialEntranceVoxel ray grid = 0
  · -- origin outside: then `N_r = 1` and the two times coincide
    have hob : initOriginOutside ray grid = true := by
      unfold initOriginOutside
      simp [hout]
    rw [hob, if_pos rfl, mul_one]
    have hN1 : grid.numRadialSections = 1 := by
      rw [hrad0, hob, hout] at hN
      simp at hN
      omega
    have hvidx : initVectorIndex ray grid = 0 := by
      unfold initVectorIndex
      rw [hob]
      simp [hout]
    have hmiss0 : initRsvdMinusVSquared ray grid <
        grid.deltaRadiiSquared 0 := by
      unfold initEntryRadiusSquared at hmiss
      rwa [hvidx] at hmiss
    have hidx : radialIdxA grid (grid.numRadialSections : ℤ)
        (initRsvdMinusVSquared ray grid) = 0 := by
      unfold radialIdxA
      dsimp only
      rw [hN1]
      simp only [Nat.sub_self, Nat.min_zero]
      rw [if_neg (not_lt.mpr (le_of_lt hmiss0))]
    apply le_of_eq
    unfold radialEntranceTime initTRayEntrance initEntryRadiusSquared
    rw [hidx, hvidx]
  · -- origin inside: the innermost entrance lies strictly in the past of 0
    have hob : initOriginOutside ray grid = false := by
      unfold initOriginOutside
      simp [hout]
    rw [hob, if_neg (by simp), mul_zero]
    have hkN : initRadialEntranceVoxel ray grid = grid.numRadialSections := by
      rw [hrad0, hob] at hN
      simp at hN
      exact_mod_cast hN
    have hSEDlt : initSED ray grid <
        grid.deltaRadiiSquared (grid.numRadialSections - 1) := by
      have := radialEntranceScan_prev grid (initSED ray grid)
        (grid.numRadialSections + 2) 0 (initRadialEntranceVoxel ray grid)
        (initRadialEntranceVoxel_eq ray grid).symm (Nat.pos_of_ne_zero hout)
      rwa [hkN] at this
    have hrm_le : initRsvdMinusVSquared ray grid ≤ initSED ray grid := by
      have h1 := initRsvd_add_sq ray grid
      nlinarith [mul_self_nonneg (initV ray grid)]
    have hidx : radialIdxA grid (grid.numRadialSections : ℤ)
        (initRsvdMinusVSquared ray grid) = grid.numRadialSections - 1 := by
      unfold radialIdxA
      dsimp only
      rw [sizeTOfInt_natCast h64, min_eq_right (Nat.sub_le _ _),
        if_neg (not_lt.mpr (le_of_lt (lt_of_le_of_lt hrm_le hSEDlt)))]
      exact Nat.sub_zero _
    unfold radialEntranceTime
    rw [hidx]
    set X := grid.deltaRadiiSquared (grid.numRadialSections - 1) -
      initRsvdMinusVSquared ray grid with hX
    have hvvX : initV ray grid * initV ray grid < X := by
      have h1 := initRsvd_add_sq ray grid
      rw [hX]
      nlinarith
    rcases timeOfIntersectionAt_eq_or_zero ray (initV ray grid - sq X) with
      h | h
    · rw [h]
      rcases le_or_lt 0 (initV ray grid) with hv0 | hv0
      · have := hsq2 X (initV ray grid) hv0 hvvX
        linarith
      · have := hsq1 X
        linarith
    · rw [h]

/-- The initial loop state satisfies the invariant. -/
theorem initial_Inv6 (sq : ℚ → ℚ) (ray : Ray) (grid : SphericalVoxelGrid)
    (max_t : ℚ) (d : InitData)
    (hsq1 : ∀ x, 0 ≤ sq x)
    (hsq2 : ∀ x y : ℚ, 0 ≤ y → y * y < x → y < sq x)
    (hNr : 1 ≤ grid.numRadialSections)
    (h64 : (grid.numRadialSections : ℤ) < 2 ^ 64)
    (htbl : grid.deltaRadiiSquared grid.numRadialSections = 0)
    (hltP : (grid.pMaxPolarList.length : ℤ) + 2 < 2 ^ 64)
    (hltPT : (grid.polarTrigValues.length : ℤ) + 2 < 2 ^ 64)
    (hltA : (grid.pMaxAzimuthalList.length : ℤ) + 2 < 2 ^ 64)
    (hltAT : (grid.azimuthalTrigValues.length : ℤ) + 2 < 2 ^ 64)
    (hd : initPhase sq ray grid max_t = some d) :
    Inv6 sq ray grid d (initialLoopState d ray grid) := by
  obtain ⟨hv, hrmv, _, htre, hrad0, hpol0, hazi0, hmiss, hgp, hga⟩ :=
    initPhase_inv sq ray grid max_t d hd
  have hSED0 : 0 ≤ initSED ray grid := initSED_nonneg ray grid
  have hkle : initRadialEntranceVoxel ray grid ≤ grid.numRadialSections :=
    radialEntranceScan_le grid (initSED ray grid) hSED0 htbl _ 0
      (Nat.zero_le _) (by omega)
  -- polar index bounds
  have hp0 : 0 ≤ initPolarVoxel sq ray grid :=
    initializeAngularVoxelID_nonneg _ _ _ _ _ _ _ _
  have hpbd : initPolarVoxel sq ray grid ≤ (2 : ℤ) ^ 64 - 1 := by
    have hle := initializeAngularVoxelID_le sq grid grid.numPolarSections
      (initRaySphere sq ray grid)
      (initializeVoxelBoundarySegments grid (initOriginOutside ray grid)
        (initEntryRadius ray grid)).1
      (initRaySphere sq ray grid).y grid.sphereCenter.y (initEntryRadius ray grid)
    rw [initializeVoxelBoundarySegments_len_fst] at hle
    have hlen : (((if initOriginOutside ray grid then grid.pMaxPolarList.length
        else grid.polarTrigValues.length) : ℕ) : ℤ) + 2 < 2 ^ 64 := by
      cases initOriginOutside ray grid
      · rw [if_neg Bool.false_ne_true]; omega
      · rw [if_pos rfl]; omega
    have : initPolarVoxel sq ray grid ≤
        (((if initOriginOutside ray grid then grid.pMaxPolarList.length
        else grid.polarTrigValues.length) : ℕ) : ℤ) + 1 := hle
    omega
  have hpol : 0 ≤ initPolarVoxel sq ray grid ∧
      initPolarVoxel sq ray grid < (grid.numPolarSections : ℤ) :=
    initAngular_range hp0 hpbd hgp
  -- azimuthal index bounds
  have ha0 : 0 ≤ initAzimuthalVoxel sq ray grid :=
    initializeAngularVoxelID_nonneg _ _ _ _ _ _ _ _
  have habd : initAzimuthalVoxel sq ray grid ≤ (2 : ℤ) ^ 64 - 1 := by
    have hle := initializeAngularVoxelID_le sq grid grid.numAzimuthalSections
      (initRaySphere sq ray grid)
      (initializeVoxelBoundarySegments grid (initOriginOutside ray grid)
        (initEntryRadius ray grid)).2
      (initRaySphere sq ray grid).z grid.sphereCenter.z (initEntryRadius ray grid)
    rw [initializeVoxelBoundarySegments_len_snd] at hle
    have hlen : (((if initOriginOutside ray grid then grid.pMaxAzimuthalList.length
        else grid.azimuthalTrigValues.length) : ℕ) : ℤ) + 2 < 2 ^ 64 := by
      cases initOriginOutside ray grid
      · rw [if_neg Bool.false_ne_true]; omega
      · rw [if_pos rfl]; omega
    have : initAzimuthalVoxel sq ray grid ≤
        (((if initOriginOutside ray grid then grid.pMaxAzimuthalList.length
        else grid.azimuthalTrigValues.length) : ℕ) : ℤ) + 1 := hle
    omega
  have hazi : 0 ≤ initAzimuthalVoxel sq ray grid ∧
      initAzimuthalVoxel sq ray grid < (grid.numAzimuthalSections : ℤ) :=
    initAngular_range ha0 habd hga
  -- radial index bounds
  have hrad : 1 ≤ d.rad0 ∧ d.rad0 ≤ (grid.numRadialSections : ℤ) := by
    rw [hrad0]
    by_cases hout : initRadialEntranceVoxel ray grid = 0
    · have hob : initOriginOutside ray grid = true := by
        unfold initOriginOutside; simp [hout]
      rw [hob, hout]
      simp
      exact_mod_cast hNr
    · have hob : initOriginOutside ray grid = false := by
        unfold initOriginOutside; simp [hout]
      rw [hob]
      simp
      constructor
      · have : 1 ≤ initRadialEntranceVoxel ray grid := Nat.pos_of_ne_zero hout
        exact_mod_cast this
      · exact_mod_cast hkle
  -- assemble
  have hvr : VoxRanges grid
      { radial := d.rad0, polar := d.pol0, azimuthal := d.azi0,
        enter_t := 0, exit_t := 0 } := by
    refine ⟨hrad.1, hrad.2, ?_, ?_, ?_, ?_⟩
    · show 0 ≤ d.pol0
      rw [hpol0]; exact hpol.1
    · show d.pol0 < _
      rw [hpol0]; exact hpol.2
    · show 0 ≤ d.azi0
      rw [hazi0]; exact hazi.1
    · show d.azi0 < _
      rw [hazi0]; exact hazi.2
  refine ⟨hrad.1, hrad.2, ?_, ?_, ?_, ?_, ?_, ?_⟩
  · show 0 ≤ d.pol0
    rw [hpol0]; exact hpol.1
  · show d.pol0 < _
    rw [hpol0]; exact hpol.2
  · show 0 ≤ d.azi0
    rw [hazi0]; exact hazi.1
  · show d.azi0 < _
    rw [hazi0]; exact hazi.2
  · rintro ⟨-, hN⟩
    exact initial_J sq ray grid max_t d hsq1 hsq2 hNr h64 hd hN
  · intro vx hvx
    simp only [initialLoopState, List.mem_singleton] at hvx
    subst hvx
    exact hvr

theorem isEqual_self (x : ℚ) : isEqual x x = true := by
  rw [isEqual_true_iff]
  simp only [sub_self, abs_zero, max_self]
  nlinarith [abs_eps_pos, rel_eps_pos, abs_nonneg x]

/-- Under bounded inputs every radial hit time is at most `DOUBLE_MAX`. -/
theorem radialHit_tMax_le (sq : ℚ → ℚ) (ray : Ray) (grid : SphericalVoxelGrid)
    (trans : Bool) (k : ℤ) (v rmv t maxT : ℚ)
    (hsq1 : ∀ x, 0 ≤ sq x) (hv : v ≤ DOUBLE_MAX) (hmx : maxT ≤ DOUBLE_MAX) :
    (radialHit sq ray grid trans k v rmv t maxT).1.tMax ≤ DOUBLE_MAX := by
  rcases radialHit_spec sq ray grid trans k v rmv t maxT with
    h | ⟨-, tb, h, hb⟩ | ⟨-, te, h, -, he⟩ | ⟨-, te, h, -, hb, he⟩ | ⟨-, tx, h, hb⟩
  · rw [h]
  · rw [h]; dsimp only; linarith
  · rw [h]; dsimp only
    rw [he]
    exact radialEntranceTime_le_DM sq ray grid k v rmv hsq1 hv
  · rw [h]; dsimp only; linarith
  · rw [h]; dsimp only; linarith

/-- Which hit the minimum-intersection classifier selects cannot be a
`DOUBLE_MAX` sentinel, given the tolerance gap between real hit times
(below `(3/4)·DOUBLE_MAX`) and the sentinel. -/
theorem minInt_chosen (r p a : HitParameters)
    (hr : r.tMax ≤ DOUBLE_MAX)
    (hp : p.tMax = DOUBLE_MAX ∨ p.tMax < DOUBLE_MAX * 3 / 4)
    (ha : a.tMax = DOUBLE_MAX ∨ a.tMax < DOUBLE_MAX * 3 / 4)
    (hnotall : ¬(r.tMax = DOUBLE_MAX ∧ p.tMax = DOUBLE_MAX ∧
      a.tMax = DOUBLE_MAX)) :
    ((minimumIntersection r p a = .Radial ∨
      minimumIntersection r p a = .RadialPolar ∨
      minimumIntersection r p a = .RadialAzimuthal ∨
      minimumIntersection r p a = .RadialPolarAzimuthal) →
        r.tMax ≠ DOUBLE_MAX) ∧
    ((minimumIntersection r p a = .Polar ∨
      minimumIntersection r p a = .PolarAzimuthal) → p.tMax ≠ DOUBLE_MAX) ∧
    (minimumIntersection r p a = .Azimuthal → a.tMax ≠ DOUBLE_MAX) := by
  have hDM0 : (0 : ℚ) < DOUBLE_MAX := lt_trans (by norm_num) dm_large.2
  have hDM34 : DOUBLE_MAX * 3 / 4 < DOUBLE_MAX := by linarith
  have hple : p.tMax ≤ DOUBLE_MAX := by
    rcases hp with h | h
    · exact le_of_eq h
    · linarith
  have hale : a.tMax ≤ DOUBLE_MAX := by
    rcases ha with h | h
    · exact le_of_eq h
    · linarith
  unfold minimumIntersection
  dsimp only
  split_ifs with c1 c2 c3 c4 c5 c6
  · -- Radial
    refine ⟨fun _ => ?_, fun hm => by simp at hm, fun hm => by simp at hm⟩
    simp only [Bool.and_eq_true, Bool.not_eq_true', decide_eq_true_eq] at c1
    intro hreq
    rw [hreq] at c1
    linarith [c1.1.1.1]
  · -- Polar
    refine ⟨fun hm => by simp at hm, fun _ => ?_, fun hm => by simp at hm⟩
    simp only [Bool.and_eq_true, Bool.not_eq_true', decide_eq_true_eq,
      decide_eq_false_iff_not] at c2
    intro hpeq
    rw [hpeq] at c2
    linarith [c2.1.2]
  · -- Azimuthal
    refine ⟨fun hm => by simp at hm, fun hm => by simp at hm, fun _ => ?_⟩
    simp only [Bool.and_eq_true, Bool.not_eq_true', decide_eq_true_eq,
      decide_eq_false_iff_not] at c3
    intro haeq
    have hreq : r.tMax = DOUBLE_MAX := by
      have := c3.1.2
      rw [haeq] at this
      linarith [not_lt.mp this]
    have := c3.2
    rw [hreq, haeq] at this
    rw [isEqual_self] at this
    cases this
  · -- RadialPolarAzimuthal
    refine ⟨fun _ => ?_, fun hm => by simp at hm, fun hm => by simp at hm⟩
    simp only [Bool.and_eq_true] at c4
    intro hreq
    have hpeq : p.tMax = DOUBLE_MAX := by
      rcases hp with h | h
      · exact h
      · have := c4.1
        rw [hreq] at this
        rw [(isEqual_DM_false h).2.1] at this
        cases this
    have haeq : a.tMax = DOUBLE_MAX := by
      rcases ha with h | h
      · exact h
      · have := c4.2
        rw [hreq] at this
        rw [(isEqual_DM_false h).2.1] at this
        cases this
    exact hnotall ⟨hreq, hpeq, haeq⟩
  · -- PolarAzimuthal
    refine ⟨fun hm => by simp at hm, fun _ => ?_, fun hm => by simp at hm⟩
    intro hpeq
    have haeq : a.tMax = DOUBLE_MAX := by
      rcases ha with h | h
      · exact h
      · rw [hpeq] at c5
        rw [(isEqual_DM_false h).2.1] at c5
        cases c5
    have hrne : r.tMax ≠ DOUBLE_MAX := fun hreq =>
      hnotall ⟨hreq, hpeq, haeq⟩
    have hrlt : r.tMax < DOUBLE_MAX := lt_of_le_of_ne hr hrne
    have hre : isEqual r.tMax p.tMax = false := by
      cases he : isEqual r.tMax p.tMax
      · rfl
      · exfalso
        apply c4
        simp only [Bool.and_eq_true]
        refine ⟨he, ?_⟩
        rw [haeq, ← hpeq]
        exact he
    apply c1
    simp only [Bool.and_eq_true, Bool.not_eq_true', decide_eq_true_eq]
    rw [hpeq, haeq]
    refine ⟨⟨⟨hrlt, ?_⟩, hrlt⟩, ?_⟩
    · rw [← hpeq]; exact hre
    · rw [← hpeq]; exact hre
  · -- RadialPolar
    refine ⟨fun _ => ?_, fun hm => by simp at hm, fun hm => by simp at hm⟩
    intro hreq
    have hpeq : p.tMax = DOUBLE_MAX := by
      rcases hp with h | h
      · exact h
      · rw [hreq] at c6
        rw [(isEqual_DM_false h).2.1] at c6
        cases c6
    rcases ha with haeq | halt
    · exact hnotall ⟨hreq, hpeq, haeq⟩
    · apply c3
      simp only [Bool.and_eq_true, Bool.not_eq_true', decide_eq_true_eq,
        decide_eq_false_iff_not]
      rw [hpeq, hreq]
      refine ⟨⟨⟨fun h => ?_, ?_⟩, fun h => ?_⟩, ?_⟩
      · linarith
      · exact (isEqual_DM_false halt).2.1
      · linarith
      · exact (isEqual_DM_false halt).2.1
  · -- RadialAzimuthal
    refine ⟨fun _ => ?_, fun hm => by simp at hm, fun hm => by simp at hm⟩
    intro hreq
    have hplt : p.tMax < DOUBLE_MAX * 3 / 4 := by
      rcases hp with h | h
      · exfalso
        apply c6
        rw [hreq, h]
        exact isEqual_self _
      · exact h
    rcases ha with haeq | halt
    · apply c2
      simp only [Bool.and_eq_true, Bool.not_eq_true', decide_eq_true_eq,
        decide_eq_false_iff_not]
      rw [hreq, haeq]
      refine ⟨⟨⟨fun h => ?_, (isEqual_DM_false hplt).2.1⟩, by linarith⟩,
        (isEqual_DM_false hplt).1⟩
      linarith
    · rcases lt_or_le p.tMax a.tMax with hpa | hpa
      · apply c2
        simp only [Bool.and_eq_true, Bool.not_eq_true', decide_eq_true_eq,
          decide_eq_false_iff_not]
        rw [hreq]
        refine ⟨⟨⟨fun h => ?_, (isEqual_DM_false hplt).2.1⟩, hpa⟩, ?_⟩
        · linarith
        · cases he : isEqual p.tMax a.tMax
          · rfl
          · exfalso
            apply c5
            exact he
      · apply c3
        simp only [Bool.and_eq_true, Bool.not_eq_true', decide_eq_true_eq,
          decide_eq_false_iff_not]
        rw [hreq]
        refine ⟨⟨⟨fun h => ?_, ?_⟩, fun h => ?_⟩, (isEqual_DM_false halt).2.1⟩
        · linarith
        · cases he : isEqual p.tMax a.tMax
          · rfl
          · exact absurd he (by intro hh; exact c5 hh)
        · linarith

/-- The time produced by one XY angular side is one of: the fixed
two-line intersection time, `0`, or a collinear fallback. -/
theorem sideTime_xy (ray : Ray) (maxT t ux uy px py pvw : ℚ) (ct : ℚ × ℚ) :
    (angularSide
        (ux * ((RaySegment.make maxT ray).updateAtTime t ray).vector.y -
         uy * ((RaySegment.make maxT ray).updateAtTime t ray).vector.x)
        (ux * (py - ((RaySegment.make maxT ray).updateAtTime t ray).P1.y) -
         uy * (px - ((RaySegment.make maxT ray).updateAtTime t ray).P1.x))
        pvw ((RaySegment.make maxT ray).updateAtTime t ray) ray ct).tSide =
      (ux * (py - ray.origin.y) - uy * (px - ray.origin.x)) /
        (ux * ray.direction.y - uy * ray.direction.x) ∨
    (angularSide
        (ux * ((RaySegment.make maxT ray).updateAtTime t ray).vector.y -
         uy * ((RaySegment.make maxT ray).updateAtTime t ray).vector.x)
        (ux * (py - ((RaySegment.make maxT ray).updateAtTime t ray).P1.y) -
         uy * (px - ((RaySegment.make maxT ray).updateAtTime t ray).P1.x))
        pvw ((RaySegment.make maxT ray).updateAtTime t ray) ray ct).tSide = 0 ∨
    (angularSide
        (ux * ((RaySegment.make maxT ray).updateAtTime t ray).vector.y -
         uy * ((RaySegment.make maxT ray).updateAtTime t ray).vector.x)
        (ux * (py - ((RaySegment.make maxT ray).updateAtTime t ray).P1.y) -
         uy * (px - ((RaySegment.make maxT ray).updateAtTime t ray).P1.x))
        pvw ((RaySegment.make maxT ray).updateAtTime t ray) ray ct).tSide = ct.1 ∨
    (angularSide
        (ux * ((RaySegment.make maxT ray).updateAtTime t ray).vector.y -
         uy * ((RaySegment.make maxT ray).updateAtTime t ray).vector.x)
        (ux * (py - ((RaySegment.make maxT ray).updateAtTime t ray).P1.y) -
         uy * (px - ((RaySegment.make maxT ray).updateAtTime t ray).P1.x))
        pvw ((RaySegment.make maxT ray).updateAtTime t ray) ray ct).tSide = ct.2 := by
  cases hI : (angularSide
      (ux * ((RaySegment.make maxT ray).updateAtTime t ray).vector.y -
       uy * ((RaySegment.make maxT ray).updateAtTime t ray).vector.x)
      (ux * (py - ((RaySegment.make maxT ray).updateAtTime t ray).P1.y) -
       uy * (px - ((RaySegment.make maxT ray).updateAtTime t ray).P1.x))
      pvw ((RaySegment.make maxT ray).updateAtTime t ray) ray ct).isIntersect
  · rcases (angularSide_spec _ _ _ _ _ _).2 hI with h | h
    · exact Or.inr (Or.inr (Or.inl h))
    · exact Or.inr (Or.inr (Or.inr h))
  · obtain ⟨hpuv, hts⟩ := (angularSide_spec _ _ _ _ _ _).1 hI
    have hne : ux * ((RaySegment.make maxT ray).updateAtTime t ray).vector.y -
        uy * ((RaySegment.make maxT ray).updateAtTime t ray).vector.x ≠ 0 :=
      ne_zero_of_isEqual_zero_false hpuv
    rcases segTime_xy ray maxT t ux uy px py hne with h | h
    · exact Or.inl (hts.trans h)
    · exact Or.inr (Or.inl (hts.trans h))

/-- The XZ analogue of `sideTime_xy`. -/
theorem sideTime_xz (ray : Ray) (maxT t ux uz px pz pvw : ℚ) (ct : ℚ × ℚ) :
    (angularSide
        (ux * ((RaySegment.make maxT ray).updateAtTime t ray).vector.z -
         uz * ((RaySegment.make maxT ray).updateAtTime t ray).vector.x)
        (ux * (pz - ((RaySegment.make maxT ray).updateAtTime t ray).P1.z) -
         uz * (px - ((RaySegment.make maxT ray).updateAtTime t ray).P1.x))
        pvw ((RaySegment.make maxT ray).updateAtTime t ray) ray ct).tSide =
      (ux * (pz - ray.origin.z) - uz * (px - ray.origin.x)) /
        (ux * ray.direction.z - uz * ray.direction.x) ∨
    (angularSide
        (ux * ((RaySegment.make maxT ray).updateAtTime t ray).vector.z -
         uz * ((RaySegment.make maxT ray).updateAtTime t ray).vector.x)
        (ux * (pz - ((RaySegment.make maxT ray).updateAtTime t ray).P1.z) -
         uz * (px - ((RaySegment.make maxT ray).updateAtTime t ray).P1.x))
        pvw ((RaySegment.make maxT ray).updateAtTime t ray) ray ct).tSide = 0 ∨
    (angularSide
        (ux * ((RaySegment.make maxT ray).updateAtTime t ray).vector.z -
         uz * ((RaySegment.make maxT ray).updateAtTime t ray).vector.x)
        (ux * (pz - ((RaySegment.make maxT ray).updateAtTime t ray).P1.z) -
         uz * (px - ((RaySegment.make maxT ray).updateAtTime t ray).P1.x))
        pvw ((RaySegment.make maxT ray).updateAtTime t ray) ray ct).tSide = ct.1 ∨
    (angularSide
        (ux * ((RaySegment.make maxT ray).updateAtTime t ray).vector.z -
         uz * ((RaySegment.make maxT ray).updateAtTime t ray).vector.x)
        (ux * (pz - ((RaySegment.make maxT ray).updateAtTime t ray).P1.z) -
         uz * (px - ((RaySegment.make maxT ray).updateAtTime t ray).P1.x))
        pvw ((RaySegment.make maxT ray).updateAtTime t ray) ray ct).tSide = ct.2 := by
  cases hI : (angularSide
      (ux * ((RaySegment.make maxT ray).updateAtTime t ray).vector.z -
       uz * ((RaySegment.make maxT ray).updateAtTime t ray).vector.x)
      (ux * (pz - ((RaySegment.make maxT ray).updateAtTime t ray).P1.z) -
       uz * (px - ((RaySegment.make maxT ray).updateAtTime t ray).P1.x))
      pvw ((RaySegment.make maxT ray).updateAtTime t ray) ray ct).isIntersect
  · rcases (angularSide_spec _ _ _ _ _ _).2 hI with h | h
    · exact Or.inr (Or.inr (Or.inl h))
    · exact Or.inr (Or.inr (Or.inr h))
  · obtain ⟨hpuv, hts⟩ := (angularSide_spec _ _ _ _ _ _).1 hI
    have hne : ux * ((RaySegment.make maxT ray).updateAtTime t ray).vector.z -
        uz * ((RaySegment.make maxT ray).updateAtTime t ray).vector.x ≠ 0 :=
      ne_zero_of_isEqual_zero_false hpuv
    rcases segTime_xz ray maxT t ux uz px pz hne with h | h
    · exact Or.inl (hts.trans h)
    · exact Or.inr (Or.inl (hts.trans h))

/-- Everything the loop analysis needs about `polarHit` on the segment the
driver passes: sentinel, or a strictly future time below the sentinel band
drawn from the fixed candidate times. -/
theorem polarHit_spec6 (sq : ℚ → ℚ) (ray : Ray) (grid : SphericalVoxelGrid)
    (ct : ℚ × ℚ) (cv : ℤ) (t maxT : ℚ)
    (hmax2 : maxT ≤ DOUBLE_MAX / 2) :
    polarHit sq ray grid ((RaySegment.make maxT ray).updateAtTime t ray)
      ct cv t maxT = ⟨DOUBLE_MAX, 0⟩ ∨
    (t < (polarHit sq ray grid ((RaySegment.make maxT ray).updateAtTime t ray)
        ct cv t maxT).tMax ∧
     (polarHit sq ray grid ((RaySegment.make maxT ray).updateAtTime t ray)
        ct cv t maxT).tMax < DOUBLE_MAX * 3 / 4 ∧
     ((polarHit sq ray grid ((RaySegment.make maxT ray).updateAtTime t ray)
        ct cv t maxT).tMax = polarCandTime ray grid (sizeTOfInt cv) ∨
      (polarHit sq ray grid ((RaySegment.make maxT ray).updateAtTime t ray)
        ct cv t maxT).tMax = polarCandTime ray grid (sizeTOfInt (cv + 1)) ∨
      (polarHit sq ray grid ((RaySegment.make maxT ray).updateAtTime t ray)
        ct cv t maxT).tMax = 0 ∨
      (polarHit sq ray grid ((RaySegment.make maxT ray).updateAtTime t ray)
        ct cv t maxT).tMax = ct.1 ∨
      (polarHit sq ray grid ((RaySegment.make maxT ray).updateAtTime t ray)
        ct cv t maxT).tMax = ct.2)) := by
  have hDM0 : (0 : ℚ) < DOUBLE_MAX := lt_trans (by norm_num) dm_large.2
  have hP : polarHit sq ray grid
      ((RaySegment.make maxT ray).updateAtTime t ray) ct cv t maxT =
      angularDecide sq grid ray
        (angularSide
          ((grid.centerToPolarBound (sizeTOfInt cv)).x *
             ((RaySegment.make maxT ray).updateAtTime t ray).vector.y -
           (grid.centerToPolarBound (sizeTOfInt cv)).y *
             ((RaySegment.make maxT ray).updateAtTime t ray).vector.x)
          ((grid.centerToPolarBound (sizeTOfInt cv)).x *
             ((grid.pMaxPolar (sizeTOfInt cv)).P2 -
              ((RaySegment.make maxT ray).updateAtTime t ray).P1.y) -
           (grid.centerToPolarBound (sizeTOfInt cv)).y *
             ((grid.pMaxPolar (sizeTOfInt cv)).P1 -
              ((RaySegment.make maxT ray).updateAtTime t ray).P1.x))
          (((RaySegment.make maxT ray).updateAtTime t ray).vector.x *
             ((grid.pMaxPolar (sizeTOfInt cv)).P2 -
              ((RaySegment.make maxT ray).updateAtTime t ray).P1.y) -
           ((RaySegment.make maxT ray).updateAtTime t ray).vector.y *
             ((grid.pMaxPolar (sizeTOfInt cv)).P1 -
              ((RaySegment.make maxT ray).updateAtTime t ray).P1.x))
          ((RaySegment.make maxT ray).updateAtTime t ray) ray ct)
        (angularSide
          ((grid.centerToPolarBound (sizeTOfInt (cv + 1))).x *
             ((RaySegment.make maxT ray).updateAtTime t ray).vector.y -
           (grid.centerToPolarBound (sizeTOfInt (cv + 1))).y *
             ((RaySegment.make maxT ray).updateAtTime t ray).vector.x)
          ((grid.centerToPolarBound (sizeTOfInt (cv + 1))).x *
             ((grid.pMaxPolar (sizeTOfInt (cv + 1))).P2 -
              ((RaySegment.make maxT ray).updateAtTime t ray).P1.y) -
           (grid.centerToPolarBound (sizeTOfInt (cv + 1))).y *
             ((grid.pMaxPolar (sizeTOfInt (cv + 1))).P1 -
              ((RaySegment.make maxT ray).updateAtTime t ray).P1.x))
          (((RaySegment.make maxT ray).updateAtTime t ray).vector.x *
             ((grid.pMaxPolar (sizeTOfInt (cv + 1))).P2 -
              ((RaySegment.make maxT ray).updateAtTime t ray).P1.y) -
           ((RaySegment.make maxT ray).updateAtTime t ray).vector.y *
             ((grid.pMaxPolar (sizeTOfInt (cv + 1))).P1 -
              ((RaySegment.make maxT ray).updateAtTime t ray).P1.x))
          ((RaySegment.make maxT ray).updateAtTime t ray) ray ct)
        t maxT ray.direction.y grid.sphereCenter.y grid.pMaxPolarList cv := rfl
  rcases angularDecide_spec sq grid ray _ _ t maxT ray.direction.y
      grid.sphereCenter.y grid.pMaxPolarList cv _ hP.symm with h | ⟨h1, h2, h3⟩
  · exact Or.inl h
  · refine Or.inr ⟨h1, ?_, ?_⟩
    · rcases h2 with h2 | ⟨u, hu1, hu2⟩
      · linarith
      · exact isEqual_alias_bound hu2 (lt_of_lt_of_le hu1 hmax2)
    · rcases h3 with h3 | h3 <;> rw [h3]
      · rcases sideTime_xy ray maxT t
            (grid.centerToPolarBound (sizeTOfInt cv)).x
            (grid.centerToPolarBound (sizeTOfInt cv)).y
            (grid.pMaxPolar (sizeTOfInt cv)).P1
            (grid.pMaxPolar (sizeTOfInt cv)).P2 _ ct with
          h | h | h | h
        · exact Or.inl (h.trans rfl)
        · exact Or.inr (Or.inr (Or.inl h))
        · exact Or.inr (Or.inr (Or.inr (Or.inl h)))
        · exact Or.inr (Or.inr (Or.inr (Or.inr h)))
      · rcases sideTime_xy ray maxT t
            (grid.centerToPolarBound (sizeTOfInt (cv + 1))).x
            (grid.centerToPolarBound (sizeTOfInt (cv + 1))).y
            (grid.pMaxPolar (sizeTOfInt (cv + 1))).P1
            (grid.pMaxPolar (sizeTOfInt (cv + 1))).P2 _ ct with
          h | h | h | h
        · exact Or.inr (Or.inl (h.trans rfl))
        · exact Or.inr (Or.inr (Or.inl h))
        · exact Or.inr (Or.inr (Or.inr (Or.inl h)))
        · exact Or.inr (Or.inr (Or.inr (Or.inr h)))

/-- The azimuthal (XZ) analogue of `polarHit_spec6`. -/
theorem azimuthalHit_spec6 (sq : ℚ → ℚ) (ray : Ray) (grid : SphericalVoxelGrid)
    (ct : ℚ × ℚ) (cv : ℤ) (t maxT : ℚ)
    (hmax2 : maxT ≤ DOUBLE_MAX / 2) :
    azimuthalHit sq ray grid ((RaySegment.make maxT ray).updateAtTime t ray)
      ct cv t maxT = ⟨DOUBLE_MAX, 0⟩ ∨
    (t < (azimuthalHit sq ray grid ((RaySegment.make maxT ray).updateAtTime t ray)
        ct cv t maxT).tMax ∧
     (azimuthalHit sq ray grid ((RaySegment.make maxT ray).updateAtTime t ray)
        ct cv t maxT).tMax < DOUBLE_MAX * 3 / 4 ∧
     ((azimuthalHit sq ray grid ((RaySegment.make maxT ray).updateAtTime t ray)
        ct cv t maxT).tMax = aziCandTime ray grid (sizeTOfInt cv) ∨
      (azimuthalHit sq ray grid ((RaySegment.make maxT ray).updateAtTime t ray)
        ct cv t maxT).tMax = aziCandTime ray grid (sizeTOfInt (cv + 1)) ∨
      (azimuthalHit sq ray grid ((RaySegment.make maxT ray).updateAtTime t ray)
        ct cv t maxT).tMax = 0 ∨
      (azimuthalHit sq ray grid ((RaySegment.make maxT ray).updateAtTime t ray)
        ct cv t maxT).tMax = ct.1 ∨
      (azimuthalHit sq ray grid ((RaySegment.make maxT ray).updateAtTime t ray)
        ct cv t maxT).tMax = ct.2)) := by
  have hDM0 : (0 : ℚ) < DOUBLE_MAX := lt_trans (by norm_num) dm_large.2
  have hP : azimuthalHit sq ray grid
      ((RaySegment.make maxT ray).updateAtTime t ray) ct cv t maxT =
      angularDecide sq grid ray
        (angularSide
          ((grid.centerToAzimuthalBound (sizeTOfInt cv)).x *
             ((RaySegment.make maxT ray).updateAtTime t ray).vector.z -
           (grid.centerToAzimuthalBound (sizeTOfInt cv)).z *
             ((RaySegment.make maxT ray).updateAtTime t ray).vector.x)
          ((grid.centerToAzimuthalBound (sizeTOfInt cv)).x *
             ((grid.pMaxAzimuthal (sizeTOfInt cv)).P2 -
              ((RaySegment.make maxT ray).updateAtTime t ray).P1.z) -
           (grid.centerToAzimuthalBound (sizeTOfInt cv)).z *
             ((grid.pMaxAzimuthal (sizeTOfInt cv)).P1 -
              ((RaySegment.make maxT ray).updateAtTime t ray).P1.x))
          (((RaySegment.make maxT ray).updateAtTime t ray).vector.x *
             ((grid.pMaxAzimuthal (sizeTOfInt cv)).P2 -
              ((RaySegment.make maxT ray).updateAtTime t ray).P1.z) -
           ((RaySegment.make maxT ray).updateAtTime t ray).vector.z *
             ((grid.pMaxAzimuthal (sizeTOfInt cv)).P1 -
              ((RaySegment.make maxT ray).updateAtTime t ray).P1.x))
          ((RaySegment.make maxT ray).updateAtTime t ray) ray ct)
        (angularSide
          ((grid.centerToAzimuthalBound (sizeTOfInt (cv + 1))).x *
             ((RaySegment.make maxT ray).updateAtTime t ray).vector.z -
           (grid.centerToAzimuthalBound (sizeTOfInt (cv + 1))).z *
             ((RaySegment.make maxT ray).updateAtTime t ray).vector.x)
          ((grid.centerToAzimuthalBound (sizeTOfInt (cv + 1))).x *
             ((grid.pMaxAzimuthal (sizeTOfInt (cv + 1))).P2 -
              ((RaySegment.make maxT ray).updateAtTime t ray).P1.z) -
           (grid.centerToAzimuthalBound (sizeTOfInt (cv + 1))).z *
             ((grid.pMaxAzimuthal (sizeTOfInt (cv + 1))).P1 -
              ((RaySegment.make maxT ray).updateAtTime t ray).P1.x))
          (((RaySegment.make maxT ray).updateAtTime t ray).vector.x *
             ((grid.pMaxAzimuthal (sizeTOfInt (cv + 1))).P2 -
              ((RaySegment.make maxT ray).updateAtTime t ray).P1.z) -
           ((RaySegment.make maxT ray).updateAtTime t ray).vector.z *
             ((grid.pMaxAzimuthal (sizeTOfInt (cv + 1))).P1 -
              ((RaySegment.make maxT ray).updateAtTime t ray).P1.x))
          ((RaySegment.make maxT ray).updateAtTime t ray) ray ct)
        t maxT ray.direction.z grid.sphereCenter.z grid.pMaxAzimuthalList cv := rfl
  rcases angularDecide_spec sq grid ray _ _ t maxT ray.direction.z
      grid.sphereCenter.z grid.pMaxAzimuthalList cv _ hP.symm with h | ⟨h1, h2, h3⟩
  · exact Or.inl h
  · refine Or.inr ⟨h1, ?_, ?_⟩
    · rcases h2 with h2 | ⟨u, hu1, hu2⟩
      · linarith
      · exact isEqual_alias_bound hu2 (lt_of_lt_of_le hu1 hmax2)
    · rcases h3 with h3 | h3 <;> rw [h3]
      · rcases sideTime_xz ray maxT t
            (grid.centerToAzimuthalBound (sizeTOfInt cv)).x
            (grid.centerToAzimuthalBound (sizeTOfInt cv)).z
            (grid.pMaxAzimuthal (sizeTOfInt cv)).P1
            (grid.pMaxAzimuthal (sizeTOfInt cv)).P2 _ ct with
          h | h | h | h
        · exact Or.inl (h.trans rfl)
        · exact Or.inr (Or.inr (Or.inl h))
        · exact Or.inr (Or.inr (Or.inr (Or.inl h)))
        · exact Or.inr (Or.inr (Or.inr (Or.inr h)))
      · rcases sideTime_xz ray maxT t
            (grid.centerToAzimuthalBound (sizeTOfInt (cv + 1))).x
            (grid.centerToAzimuthalBound (sizeTOfInt (cv + 1))).z
            (grid.pMaxAzimuthal (sizeTOfInt (cv + 1))).P1
            (grid.pMaxAzimuthal (sizeTOfInt (cv + 1))).P2 _ ct with
          h | h | h | h
        · exact Or.inr (Or.inl (h.trans rfl))
        · exact Or.inr (Or.inr (Or.inl h))
        · exact Or.inr (Or.inr (Or.inr (Or.inl h)))
        · exact Or.inr (Or.inr (Or.inr (Or.inr h)))

/-- `radialHit` restated on the components of the returned pair. -/
theorem radialHit_pair_spec (sq : ℚ → ℚ) (ray : Ray) (grid : SphericalVoxelGrid)
    (trans : Bool) (k : ℤ) (v rmv t maxT : ℚ) :
    ((radialHit sq ray grid trans k v rmv t maxT).1.tMax = DOUBLE_MAX ∧
     (radialHit sq ray grid trans k v rmv t maxT).2 = trans) ∨
    (trans = true ∧ (radialHit sq ray grid trans k v rmv t maxT).1.tStep = -1 ∧
     (radialHit sq ray grid trans k v rmv t maxT).2 = true ∧
     (radialHit sq ray grid trans k v rmv t maxT).1.tMax < maxT) ∨
    (trans = false ∧ (radialHit sq ray grid trans k v rmv t maxT).1.tStep = 0 ∧
     (radialHit sq ray grid trans k v rmv t maxT).2 = true ∧
     t < (radialHit sq ray grid trans k v rmv t maxT).1.tMax ∧
     (radialHit sq ray grid trans k v rmv t maxT).1.tMax =
       radialEntranceTime sq ray grid k v rmv) ∨
    (trans = false ∧ (radialHit sq ray grid trans k v rmv t maxT).1.tStep = 1 ∧
     (radialHit sq ray grid trans k v rmv t maxT).2 = false ∧
     t < (radialHit sq ray grid trans k v rmv t maxT).1.tMax ∧
     (radialHit sq ray grid trans k v rmv t maxT).1.tMax < maxT ∧
     (radialHit sq ray grid trans k v rmv t maxT).1.tMax =
       radialEntranceTime sq ray grid k v rmv) ∨
    (trans = false ∧ (radialHit sq ray grid trans k v rmv t maxT).1.tStep = -1 ∧
     (radialHit sq ray grid trans k v rmv t maxT).2 = true ∧
     (radialHit sq ray grid trans k v rmv t maxT).1.tMax < maxT) := by
  rcases radialHit_spec sq ray grid trans k v rmv t maxT with
    h | ⟨ht, tb, h, hb⟩ | ⟨ht, te, h, hlt, he⟩ | ⟨ht, te, h, hlt, hb, he⟩ |
    ⟨ht, tx, h, hb⟩
  · exact Or.inl ⟨by rw [h], by rw [h]⟩
  · exact Or.inr (Or.inl ⟨ht, by rw [h], by rw [h], by rw [h]; exact hb⟩)
  · exact Or.inr (Or.inr (Or.inl ⟨ht, by rw [h], by rw [h],
      by rw [h]; exact hlt, by rw [h]; exact he⟩))
  · exact Or.inr (Or.inr (Or.inr (Or.inl ⟨ht, by rw [h], by rw [h],
      by rw [h]; exact hlt, by rw [h]; exact hb, by rw [h]; exact he⟩)))
  · exact Or.inr (Or.inr (Or.inr (Or.inr ⟨ht, by rw [h], by rw [h],
      by rw [h]; exact hb⟩)))

/-- The time-independent candidate pool for the angular hit times of one
traversal: `0`, the two collinear fallback times, and the fixed two-line
intersection times of every polar and azimuthal boundary. -/
def angularCands (ray : Ray) (grid : SphericalVoxelGrid) (d : InitData) :
    List ℚ :=
  0 :: d.collinear_times.1 :: d.collinear_times.2 ::
    ((List.range grid.centerToPolarBoundList.length).map (polarCandTime ray grid) ++
     (List.range grid.centerToAzimuthalBoundList.length).map (aziCandTime ray grid))

/-- How many entries of `l` lie strictly above `t`. -/
def candAbove (l : List ℚ) (t : ℚ) : ℕ :=
  (l.filter (fun s => decide (t < s))).length

/-- The termination measure of the main loop: the transition flag
lexicographically above the radial progress, above the number of candidate
times still ahead of `t`. -/
def measure6 (ray : Ray) (grid : SphericalVoxelGrid) (d : InitData)
    (st : LoopState) : ℕ :=
  (if st.trans then 0
   else (grid.numRadialSections + 1) * ((angularCands ray grid d).length + 1)) +
  (if st.trans then st.rad.toNat else grid.numRadialSections - st.rad.toNat) *
    ((angularCands ray grid d).length + 1) +
  candAbove (angularCands ray grid d) st.t

/-- A fuel bound sufficient for the main loop (claim C4). -/
def walkFuel (sq : ℚ → ℚ) (ray : Ray) (grid : SphericalVoxelGrid)
    (max_t : ℚ) : ℕ :=
  match initPhase sq ray grid max_t with
  | none => 1
  | some d => measure6 ray grid d (initialLoopState d ray grid) + 1

theorem candAbove_le_length (l : List ℚ) (t : ℚ) : candAbove l t ≤ l.length :=
  List.length_filter_le _ _

theorem candAbove_mono (t u : ℚ) (h : t ≤ u) (l : List ℚ) :
    candAbove l u ≤ candAbove l t := by
  induction l with
  | nil => exact le_refl 0
  | cons s l ih =>
    unfold candAbove at ih ⊢
    simp only [List.filter_cons]
    by_cases h1 : u < s
    · rw [if_pos (decide_eq_true h1), if_pos (decide_eq_true (lt_of_le_of_lt h h1))]
      simp only [List.length_cons]
      omega
    · rw [if_neg (fun hc => h1 (of_decide_eq_true hc))]
      split_ifs with h2
      · simp only [List.length_cons]
        omega
      · exact ih

theorem candAbove_lt (t u : ℚ) (hlt : t < u) :
    ∀ l : List ℚ, u ∈ l → candAbove l u < candAbove l t := by
  intro l
  induction l with
  | nil => intro hmem; exact absurd hmem (List.not_mem_nil _)
  | cons s l ih =>
    intro hmem
    have hmono := candAbove_mono t u (le_of_lt hlt) l
    unfold candAbove at ih hmono ⊢
    simp only [List.filter_cons]
    rcases List.mem_cons.mp hmem with he | hm
    · rw [← he]
      rw [if_neg (fun hc => lt_irrefl u (of_decide_eq_true hc)),
          if_pos (decide_eq_true hlt)]
      simp only [List.length_cons]
      omega
    · have hstrict := ih hm
      by_cases h1 : u < s
      · rw [if_pos (decide_eq_true h1), if_pos (decide_eq_true (lt_trans hlt h1))]
        simp only [List.length_cons]
        omega
      · rw [if_neg (fun hc => h1 (of_decide_eq_true hc))]
        split_ifs with h2
        · simp only [List.length_cons]
          omega
        · exact hstrict

theorem lex_helper (L A B ca cb : ℕ) (hAB : B < A) (hcb : cb ≤ L) :
    B * (L + 1) + cb < A * (L + 1) + ca :=
  calc B * (L + 1) + cb < B * (L + 1) + (L + 1) := by omega
  _ = (B + 1) * (L + 1) := by ring
  _ ≤ A * (L + 1) := Nat.mul_le_mul_right _ hAB
  _ ≤ A * (L + 1) + ca := Nat.le_add_right _ _

theorem measure6_true (ray : Ray) (grid : SphericalVoxelGrid) (d : InitData)
    (st : LoopState) (h : st.trans = true) :
    measure6 ray grid d st =
      st.rad.toNat * ((angularCands ray grid d).length + 1) +
      candAbove (angularCands ray grid d) st.t := by
  unfold measure6
  rw [h, if_pos rfl, if_pos rfl, zero_add]

theorem measure6_false (ray : Ray) (grid : SphericalVoxelGrid) (d : InitData)
    (st : LoopState) (h : st.trans = false) :
    measure6 ray grid d st =
      (grid.numRadialSections + 1) * ((angularCands ray grid d).length + 1) +
      (grid.numRadialSections - st.rad.toNat) *
        ((angularCands ray grid d).length + 1) +
      candAbove (angularCands ray grid d) st.t := by
  unfold measure6
  rw [h, if_neg Bool.false_ne_true, if_neg Bool.false_ne_true]

theorem measure6_flip (ray : Ray) (grid : SphericalVoxelGrid) (d : InitData)
    (st st' : LoopState) (h : st.trans = false) (h' : st'.trans = true)
    (hr : st'.rad.toNat ≤ grid.numRadialSections) :
    measure6 ray grid d st' < measure6 ray grid d st := by
  rw [measure6_true ray grid d st' h', measure6_false ray grid d st h]
  have h1 : candAbove (angularCands ray grid d) st'.t ≤
      (angularCands ray grid d).length := candAbove_le_length _ _
  have h2 := lex_helper (angularCands ray grid d).length
    (grid.numRadialSections + 1) st'.rad.toNat 0
    (candAbove (angularCands ray grid d) st'.t) (Nat.lt_succ_of_le hr) h1
  omega

theorem measure6_radial (ray : Ray) (grid : SphericalVoxelGrid) (d : InitData)
    (st st' : LoopState) (h' : st'.trans = st.trans)
    (hT : st.trans = true → st'.rad.toNat < st.rad.toNat)
    (hF : st.trans = false → grid.numRadialSections - st'.rad.toNat <
      grid.numRadialSections - st.rad.toNat) :
    measure6 ray grid d st' < measure6 ray grid d st := by
  cases htr : st.trans
  · rw [measure6_false ray grid d st' (h'.trans htr), measure6_false ray grid d st htr]
    have h2 := lex_helper (angularCands ray grid d).length
      (grid.numRadialSections - st.rad.toNat)
      (grid.numRadialSections - st'.rad.toNat)
      (candAbove (angularCands ray grid d) st.t)
      (candAbove (angularCands ray grid d) st'.t) (hF htr)
      (candAbove_le_length _ _)
    omega
  · rw [measure6_true ray grid d st' (h'.trans htr), measure6_true ray grid d st htr]
    exact lex_helper (angularCands ray grid d).length st.rad.toNat st'.rad.toNat
      (candAbove (angularCands ray grid d) st.t)
      (candAbove (angularCands ray grid d) st'.t) (hT htr)
      (candAbove_le_length _ _)

theorem measure6_time (ray : Ray) (grid : SphericalVoxelGrid) (d : InitData)
    (st st' : LoopState) (h' : st'.trans = st.trans) (hr : st'.rad = st.rad)
    (hmem : st'.t ∈ angularCands ray grid d) (hlt : st.t < st'.t) :
    measure6 ray grid d st' < measure6 ray grid d st := by
  have hca := candAbove_lt st.t st'.t hlt _ hmem
  cases htr : st.trans
  · rw [measure6_false ray grid d st' (h'.trans htr), measure6_false ray grid d st htr,
      hr]
    omega
  · rw [measure6_true ray grid d st' (h'.trans htr), measure6_true ray grid d st htr,
      hr]
    omega

theorem polarCandTime_mem (ray : Ray) (grid : SphericalVoxelGrid) (d : InitData)
    (kk : ℕ) : polarCandTime ray grid kk ∈ angularCands ray grid d := by
  by_cases hk : kk < grid.centerToPolarBoundList.length
  · unfold angularCands
    exact List.mem_cons_of_mem _ (List.mem_cons_of_mem _ (List.mem_cons_of_mem _
      (List.mem_append_left _
        (List.mem_map_of_mem _ (List.mem_range.mpr hk)))))
  · have h0 : polarCandTime ray grid kk = 0 := by
      unfold polarCandTime SphericalVoxelGrid.centerToPolarBound
      rw [List.getD_eq_default _ _ (le_of_not_lt hk)]
      simp
    rw [h0]
    exact List.mem_cons_self _ _

theorem aziCandTime_mem (ray : Ray) (grid : SphericalVoxelGrid) (d : InitData)
    (kk : ℕ) : aziCandTime ray grid kk ∈ angularCands ray grid d := by
  by_cases hk : kk < grid.centerToAzimuthalBoundList.length
  · unfold angularCands
    exact List.mem_cons_of_mem _ (List.mem_cons_of_mem _ (List.mem_cons_of_mem _
      (List.mem_append_right _
        (List.mem_map_of_mem _ (List.mem_range.mpr hk)))))
  · have h0 : aziCandTime ray grid kk = 0 := by
      unfold aziCandTime SphericalVoxelGrid.centerToAzimuthalBound
      rw [List.getD_eq_default _ _ (le_of_not_lt hk)]
      simp
    rw [h0]
    exact List.mem_cons_self _ _

/-- `polarHit` on the driver segment: sentinel, or a strictly future time
below the sentinel band taken from the fixed candidate pool. -/
theorem polarHit_cands (sq : ℚ → ℚ) (ray : Ray) (grid : SphericalVoxelGrid)
    (d : InitData) (cv : ℤ) (t : ℚ) (hmax2 : d.max_t_eff ≤ DOUBLE_MAX / 2) :
    polarHit sq ray grid ((RaySegment.make d.max_t_eff ray).updateAtTime t ray)
      d.collinear_times cv t d.max_t_eff = ⟨DOUBLE_MAX, 0⟩ ∨
    (t < (polarHit sq ray grid
        ((RaySegment.make d.max_t_eff ray).updateAtTime t ray)
        d.collinear_times cv t d.max_t_eff).tMax ∧
     (polarHit sq ray grid ((RaySegment.make d.max_t_eff ray).updateAtTime t ray)
        d.collinear_times cv t d.max_t_eff).tMax < DOUBLE_MAX * 3 / 4 ∧
     (polarHit sq ray grid ((RaySegment.make d.max_t_eff ray).updateAtTime t ray)
        d.collinear_times cv t d.max_t_eff).tMax ∈ angularCands ray grid d) := by
  rcases polarHit_spec6 sq ray grid d.collinear_times cv t d.max_t_eff hmax2 with
    h | ⟨h1, h2, h3⟩
  · exact Or.inl h
  · refine Or.inr ⟨h1, h2, ?_⟩
    rcases h3 with h | h | h | h | h <;> rw [h]
    · exact polarCandTime_mem ray grid d _
    · exact polarCandTime_mem ray grid d _
    · exact List.mem_cons_self _ _
    · exact List.mem_cons_of_mem _ (List.mem_cons_self _ _)
    · exact List.mem_cons_of_mem _ (List.mem_cons_of_mem _ (List.mem_cons_self _ _))

/-- The azimuthal analogue of `polarHit_cands`. -/
theorem aziHit_cands (sq : ℚ → ℚ) (ray : Ray) (grid : SphericalVoxelGrid)
    (d : InitData) (cv : ℤ) (t : ℚ) (hmax2 : d.max_t_eff ≤ DOUBLE_MAX / 2) :
    azimuthalHit sq ray grid ((RaySegment.make d.max_t_eff ray).updateAtTime t ray)
      d.collinear_times cv t d.max_t_eff = ⟨DOUBLE_MAX, 0⟩ ∨
    (t < (azimuthalHit sq ray grid
        ((RaySegment.make d.max_t_eff ray).updateAtTime t ray)
        d.collinear_times cv t d.max_t_eff).tMax ∧
     (azimuthalHit sq ray grid ((RaySegment.make d.max_t_eff ray).updateAtTime t ray)
        d.collinear_times cv t d.max_t_eff).tMax < DOUBLE_MAX * 3 / 4 ∧
     (azimuthalHit sq ray grid ((RaySegment.make d.max_t_eff ray).updateAtTime t ray)
        d.collinear_times cv t d.max_t_eff).tMax ∈ angularCands ray grid d) := by
  rcases azimuthalHit_spec6 sq ray grid d.collinear_times cv t d.max_t_eff hmax2 with
    h | ⟨h1, h2, h3⟩
  · exact Or.inl h
  · refine Or.inr ⟨h1, h2, ?_⟩
    rcases h3 with h | h | h | h | h <;> rw [h]
    · exact aziCandTime_mem ray grid d _
    · exact aziCandTime_mem ray grid d _
    · exact List.mem_cons_self _ _
    · exact List.mem_cons_of_mem _ (List.mem_cons_self _ _)
    · exact List.mem_cons_of_mem _ (List.mem_cons_of_mem _ (List.mem_cons_self _ _))

theorem setBackExitT_ranges (grid : SphericalVoxelGrid) (e : ℚ) :
    ∀ l : List SphericalVoxel, (∀ vx ∈ l, VoxRanges grid vx) →
      ∀ vx ∈ setBackExitT l e, VoxRanges grid vx
  | [], _ => by intro vx hvx; exact absurd hvx (List.not_mem_nil _)
  | [a], h => by
    intro vx hvx
    rcases List.mem_singleton.mp hvx with rfl
    exact h a (List.mem_singleton_self a)
  | a :: b :: rest, h => by
    intro vx hvx
    rcases List.mem_cons.mp hvx with rfl | hm
    · exact h vx (List.mem_cons_self _ _)
    · exact setBackExitT_ranges grid e (b :: rest)
        (fun vy hvy => h vy (List.mem_cons_of_mem _ hvy)) vx hm

theorem ranges_append (grid : SphericalVoxelGrid) (l : List SphericalVoxel)
    (hl : ∀ vx ∈ l, VoxRanges grid vx) (nv : SphericalVoxel)
    (hnv : VoxRanges grid nv) : ∀ vx ∈ l ++ [nv], VoxRanges grid vx := by
  intro vx hvx
  rcases List.mem_append.mp hvx with h | h
  · exact hl vx h
  · rw [List.mem_singleton.mp h]
    exact hnv

/-- The effective `max_t` of a successful initialization is bounded when
the unitized budget is. -/
theorem initPhase_maxt_le (sq : ℚ → ℚ) (ray : Ray) (grid : SphericalVoxelGrid)
    (max_t : ℚ) (d : InitData) (hd : initPhase sq ray grid max_t = some d)
    (hb1 : max_t * grid.sphereMaxDiameter + initTRayEntrance sq ray grid ≤
      DOUBLE_MAX / 2)
    (hb2 : max_t * grid.sphereMaxDiameter ≤ DOUBLE_MAX / 2) :
    d.max_t_eff ≤ DOUBLE_MAX / 2 := by
  unfold initPhase at hd
  split_ifs at hd with g1 g2 g3 g4
  cases hd
  show (if initOriginOutside ray grid then
      min (initTRayExit sq ray grid)
        (max_t * grid.sphereMaxDiameter +
          initTRayEntrance sq ray grid * (if initOriginOutside ray grid then 1 else 0))
    else (max_t * grid.sphereMaxDiameter +
      initTRayEntrance sq ray grid * (if initOriginOutside ray grid then 1 else 0))) ≤
    DOUBLE_MAX / 2
  cases hout : initOriginOutside ray grid
  · rw [if_neg Bool.false_ne_true, if_neg Bool.false_ne_true, mul_zero, add_zero]
    exact hb2
  · rw [if_pos rfl, if_pos rfl, mul_one]
    exact le_trans (min_le_right _ _) hb1

/-- How one radial step moves the radial index, given the exhaustive
description of `radialHit` and the inward-blocking invariant. -/
theorem radial_advance (Nr : ℕ) (k : ℤ) (tr : Bool) (t maxT eT eTN : ℚ)
    (R : HitParameters) (B : Bool)
    (hrad : (R.tMax = DOUBLE_MAX ∧ B = tr) ∨
      (tr = true ∧ R.tStep = -1 ∧ B = true ∧ R.tMax < maxT) ∨
      (tr = false ∧ R.tStep = 0 ∧ B = true ∧ t < R.tMax ∧ R.tMax = eT) ∨
      (tr = false ∧ R.tStep = 1 ∧ B = false ∧ t < R.tMax ∧ R.tMax < maxT ∧
        R.tMax = eT) ∨
      (tr = false ∧ R.tStep = -1 ∧ B = true ∧ R.tMax < maxT))
    (heq : k = (Nr : ℤ) - 1 ∨ k = (Nr : ℤ) → eT = eTN)
    (hJ : tr = false ∧ k = (Nr : ℤ) → eTN ≤ t)
    (h1 : 1 ≤ k) (h2 : k ≤ (Nr : ℤ))
    (hne0 : k + R.tStep ≠ 0) (hDM : R.tMax ≠ DOUBLE_MAX) :
    (1 ≤ k + R.tStep ∧ k + R.tStep ≤ (Nr : ℤ)) ∧
    (B = false ∧ k + R.tStep = (Nr : ℤ) → eTN ≤ R.tMax) ∧
    ((tr = false ∧ B = true) ∨
     (B = tr ∧ (tr = true → (k + R.tStep).toNat < k.toNat) ∧
       (tr = false → Nr - (k + R.tStep).toNat < Nr - k.toNat))) := by
  rcases hrad with ⟨hdm, _⟩ | ⟨htr, hstep, hB, _⟩ | ⟨htr, hstep, hB, hlt, hET⟩ |
    ⟨htr, hstep, hB, hlt, hmx, hET⟩ | ⟨htr, hstep, hB, _⟩
  · exact absurd hdm hDM
  · rw [hstep] at hne0 ⊢
    refine ⟨⟨by omega, by omega⟩, ?_, Or.inr ⟨hB.trans htr.symm, fun _ => by omega,
      fun hf => ?_⟩⟩
    · intro hc
      rw [hB] at hc
      exact Bool.noConfusion hc.1
    · rw [hf] at htr
      exact absurd htr Bool.false_ne_true
  · rw [hstep]
    refine ⟨⟨by omega, by omega⟩, ?_, Or.inl ⟨htr, hB⟩⟩
    intro hc
    rw [hB] at hc
    exact Bool.noConfusion hc.1
  · have hkN : k ≠ (Nr : ℤ) := by
      intro hk
      have hjt := hJ ⟨htr, hk⟩
      have hEN : eT = eTN := heq (Or.inr hk)
      rw [hET, hEN] at hlt
      linarith
    rw [hstep]
    refine ⟨⟨by omega, by omega⟩, ?_, Or.inr ⟨hB.trans htr.symm, fun ht => ?_,
      fun _ => by omega⟩⟩
    · intro hc
      have hEN : eT = eTN := heq (Or.inl (by omega))
      rw [hET, hEN]
    · rw [ht] at htr
      exact Bool.noConfusion htr
  · rw [hstep] at hne0 ⊢
    refine ⟨⟨by omega, by omega⟩, ?_, Or.inl ⟨htr, hB⟩⟩
    intro hc
    rw [hB] at hc
    exact Bool.noConfusion hc.1

/-- One loop iteration either returns (with all emitted indices in range)
or continues with the invariant preserved and the termination measure
strictly decreased. -/
theorem loopStep_master (sq : ℚ → ℚ) (ray : Ray) (grid : SphericalVoxelGrid)
    (d : InitData) (st : LoopState)
    (hsq1 : ∀ x, 0 ≤ sq x)
    (hNr : 1 ≤ grid.numRadialSections)
    (hNt : 1 ≤ grid.numPolarSections)
    (hNp : 1 ≤ grid.numAzimuthalSections)
    (h64 : (grid.numRadialSections : ℤ) < 2 ^ 64)
    (hvd : d.v ≤ DOUBLE_MAX)
    (hmx2 : d.max_t_eff ≤ DOUBLE_MAX / 2)
    (hinv : Inv6 sq ray grid d st) :
    (∃ r, loopStep sq ray grid d st = Sum.inl r ∧ ∀ vx ∈ r, VoxRanges grid vx) ∨
    (∃ st', loopStep sq ray grid d st = Sum.inr st' ∧ Inv6 sq ray grid d st' ∧
      measure6 ray grid d st' < measure6 ray grid d st) := by
  obtain ⟨hr1, hr2, hp1, hp2, ha1, ha2, hJ, hvox⟩ := hinv
  have hDM0 : (0 : ℚ) < DOUBLE_MAX := lt_trans (by norm_num) dm_large.2
  have hrad := radialHit_pair_spec sq ray grid st.trans st.rad d.v
    d.rsvd_minus_v_squared st.t d.max_t_eff
  have hpol := polarHit_cands sq ray grid d st.pol st.t hmx2
  have hazi := aziHit_cands sq ray grid d st.azi st.t hmx2
  have hrDM := radialHit_tMax_le sq ray grid st.trans st.rad d.v
    d.rsvd_minus_v_squared st.t d.max_t_eff hsq1 hvd (by linarith)
  simp only [loopStep]
  set R := (radialHit sq ray grid st.trans st.rad d.v d.rsvd_minus_v_squared
    st.t d.max_t_eff).1 with hRdef
  set B := (radialHit sq ray grid st.trans st.rad d.v d.rsvd_minus_v_squared
    st.t d.max_t_eff).2 with hBdef
  set P := polarHit sq ray grid
    ((RaySegment.make d.max_t_eff ray).updateAtTime st.t ray) d.collinear_times
    st.pol st.t d.max_t_eff with hPdef
  set A := azimuthalHit sq ray grid
    ((RaySegment.make d.max_t_eff ray).updateAtTime st.t ray) d.collinear_times
    st.azi st.t d.max_t_eff with hAdef
  have hBd : B = st.trans ∨ (st.trans = false ∧ B = true) := by
    rcases hrad with ⟨_, h⟩ | ⟨ht, _, hb, _⟩ | ⟨ht, _, hb, _⟩ | ⟨ht, _, hb, _⟩ |
      ⟨ht, _, hb, _⟩
    · exact Or.inl h
    · exact Or.inl (hb.trans ht.symm)
    · exact Or.inr ⟨ht, hb⟩
    · exact Or.inl (hb.trans ht.symm)
    · exact Or.inr ⟨ht, hb⟩
  have heTeq : st.rad = (grid.numRadialSections : ℤ) - 1 ∨
      st.rad = (grid.numRadialSections : ℤ) →
      radialEntranceTime sq ray grid st.rad d.v d.rsvd_minus_v_squared =
      radialEntranceTime sq ray grid (grid.numRadialSections : ℤ) d.v
        d.rsvd_minus_v_squared := by
    intro h
    rcases h with h | h
    · rw [h]
      exact radialEntranceTime_last sq ray grid d.v d.rsvd_minus_v_squared hNr h64
    · rw [h]
  split
  · exact Or.inl ⟨_, rfl, setBackExitT_ranges grid _ st.voxels hvox⟩
  · rename_i hexit
    have hne0 : st.rad + R.tStep ≠ 0 := fun hc => hexit (Or.inl hc)
    have hnotall : ¬(R.tMax = DOUBLE_MAX ∧ P.tMax = DOUBLE_MAX ∧
        A.tMax = DOUBLE_MAX) := fun hc => hexit (Or.inr hc)
    have hple : P.tMax = DOUBLE_MAX ∨ P.tMax < DOUBLE_MAX * 3 / 4 := by
      rcases hpol with h | ⟨_, h2, _⟩
      · exact Or.inl (by rw [h])
      · exact Or.inr h2
    have hale : A.tMax = DOUBLE_MAX ∨ A.tMax < DOUBLE_MAX * 3 / 4 := by
      rcases hazi with h | ⟨_, h2, _⟩
      · exact Or.inl (by rw [h])
      · exact Or.inr h2
    have hmic := minInt_chosen R P A hrDM hple hale hnotall
    split
    · exact Or.inl ⟨_, rfl, setBackExitT_ranges grid _ st.voxels hvox⟩
    · rename_i t' rad' pol' azi' heq
      split at heq <;> rename_i hm
      · -- Radial
        simp only [Option.some.injEq, Prod.mk.injEq] at heq
        obtain ⟨he1, he2, he3, he4⟩ := heq
        subst he1; subst he2; subst he3; subst he4
        have hRDM : R.tMax ≠ DOUBLE_MAX := hmic.1 (Or.inl hm)
        obtain ⟨⟨hb1, hb2⟩, hj2, hmeas⟩ := radial_advance grid.numRadialSections
          st.rad st.trans st.t d.max_t_eff
          (radialEntranceTime sq ray grid st.rad d.v d.rsvd_minus_v_squared)
          (radialEntranceTime sq ray grid (grid.numRadialSections : ℤ) d.v
            d.rsvd_minus_v_squared) R B hrad heTeq hJ hr1 hr2 hne0 hRDM
        have hms : ∀ V, measure6 ray grid d
            { t := R.tMax, rad := st.rad + R.tStep, pol := st.pol, azi := st.azi,
              trans := B, voxels := V } < measure6 ray grid d st := by
          intro V
          rcases hmeas with ⟨htrf, hbt⟩ | ⟨hbe, hT, hF⟩
          · exact measure6_flip ray grid d st _ htrf hbt
              (by show (st.rad + R.tStep).toNat ≤ grid.numRadialSections; omega)
          · exact measure6_radial ray grid d st _ hbe hT hF
        split
        · exact Or.inr ⟨_, rfl, ⟨hb1, hb2, hp1, hp2, ha1, ha2, hj2, hvox⟩, hms _⟩
        · exact Or.inr ⟨_, rfl, ⟨hb1, hb2, hp1, hp2, ha1, ha2, hj2,
            ranges_append grid _ (setBackExitT_ranges grid _ st.voxels hvox) _
              ⟨hb1, hb2, hp1, hp2, ha1, ha2⟩⟩, hms _⟩
      · -- Polar
        split at heq
        · exact Option.noConfusion heq
        · rename_i hg
          simp only [Option.some.injEq, Prod.mk.injEq] at heq
          obtain ⟨he1, he2, he3, he4⟩ := heq
          subst he1; subst he2; subst he3; subst he4
          have hPDM : P.tMax ≠ DOUBLE_MAX := hmic.2.1 (Or.inl hm)
          rcases hpol with hsent | ⟨hlt, hbd, hmem⟩
          · exact absurd (by rw [hsent]) hPDM
          have hj2 : B = false ∧ st.rad = (grid.numRadialSections : ℤ) →
              radialEntranceTime sq ray grid (grid.numRadialSections : ℤ) d.v
                d.rsvd_minus_v_squared ≤ P.tMax := by
            rintro ⟨hbf, hkn⟩
            rcases hBd with hbeq | ⟨_, hbt⟩
            · exact le_trans (hJ ⟨hbeq.symm.trans hbf, hkn⟩) (le_of_lt hlt)
            · rw [hbt] at hbf; exact Bool.noConfusion hbf
          have hms : ∀ V, measure6 ray grid d
              { t := P.tMax, rad := st.rad,
                pol := angularVoxelMod (st.pol + P.tStep) grid.numPolarSections,
                azi := st.azi, trans := B, voxels := V } <
              measure6 ray grid d st := by
            intro V
            rcases hBd with hbeq | ⟨htrf, hbt⟩
            · exact measure6_time ray grid d st _ hbeq rfl hmem hlt
            · exact measure6_flip ray grid d st _ htrf hbt
                (by show st.rad.toNat ≤ grid.numRadialSections; omega)
          split
          · exact Or.inr ⟨_, rfl, ⟨hr1, hr2, angularVoxelMod_nonneg _ _,
              angularVoxelMod_lt _ hNt, ha1, ha2, hj2, hvox⟩, hms _⟩
          · exact Or.inr ⟨_, rfl, ⟨hr1, hr2, angularVoxelMod_nonneg _ _,
              angularVoxelMod_lt _ hNt, ha1, ha2, hj2,
              ranges_append grid _ (setBackExitT_ranges grid _ st.voxels hvox) _
                ⟨hr1, hr2, angularVoxelMod_nonneg _ _, angularVoxelMod_lt _ hNt,
                 ha1, ha2⟩⟩, hms _⟩
      · -- Azimuthal
        split at heq
        · exact Option.noConfusion heq
        · rename_i hg
          simp only [Option.some.injEq, Prod.mk.injEq] at heq
          obtain ⟨he1, he2, he3, he4⟩ := heq
          subst he1; subst he2; subst he3; subst he4
          have hADM : A.tMax ≠ DOUBLE_MAX := hmic.2.2 hm
          rcases hazi with hsent | ⟨hlt, hbd, hmem⟩
          · exact absurd (by rw [hsent]) hADM
          have hj2 : B = false ∧ st.rad = (grid.numRadialSections : ℤ) →
              radialEntranceTime sq ray grid (grid.numRadialSections : ℤ) d.v
                d.rsvd_minus_v_squared ≤ A.tMax := by
            rintro ⟨hbf, hkn⟩
            rcases hBd with hbeq | ⟨_, hbt⟩
            · exact le_trans (hJ ⟨hbeq.symm.trans hbf, hkn⟩) (le_of_lt hlt)
            · rw [hbt] at hbf; exact Bool.noConfusion hbf
          have hms : ∀ V, measure6 ray grid d
              { t := A.tMax, rad := st.rad, pol := st.pol,
                azi := angularVoxelMod (st.azi + A.tStep) grid.numAzimuthalSections,
                trans := B, voxels := V } < measure6 ray grid d st := by
            intro V
            rcases hBd with hbeq | ⟨htrf, hbt⟩
            · exact measure6_time ray grid d st _ hbeq rfl hmem hlt
            · exact measure6_flip ray grid d st _ htrf hbt
                (by show st.rad.toNat ≤ grid.numRadialSections; omega)
          split
          · exact Or.inr ⟨_, rfl, ⟨hr1, hr2, hp1, hp2, angularVoxelMod_nonneg _ _,
              angularVoxelMod_lt _ hNp, hj2, hvox⟩, hms _⟩
          · exact Or.inr ⟨_, rfl, ⟨hr1, hr2, hp1, hp2, angularVoxelMod_nonneg _ _,
              angularVoxelMod_lt _ hNp, hj2,
              ranges_append grid _ (setBackExitT_ranges grid _ st.voxels hvox) _
                ⟨hr1, hr2, hp1, hp2, angularVoxelMod_nonneg _ _,
                 angularVoxelMod_lt _ hNp⟩⟩, hms _⟩
      · -- RadialPolar
        split at heq
        · exact Option.noConfusion heq
        · rename_i hg
          simp only [Option.some.injEq, Prod.mk.injEq] at heq
          obtain ⟨he1, he2, he3, he4⟩ := heq
          subst he1; subst he2; subst he3; subst he4
          have hRDM : R.tMax ≠ DOUBLE_MAX := hmic.1 (Or.inr (Or.inl hm))
          obtain ⟨⟨hb1, hb2⟩, hj2, hmeas⟩ := radial_advance grid.numRadialSections
            st.rad st.trans st.t d.max_t_eff
            (radialEntranceTime sq ray grid st.rad d.v d.rsvd_minus_v_squared)
            (radialEntranceTime sq ray grid (grid.numRadialSections : ℤ) d.v
              d.rsvd_minus_v_squared) R B hrad heTeq hJ hr1 hr2 hne0 hRDM
          have hms : ∀ V, measure6 ray grid d
              { t := R.tMax, rad := st.rad + R.tStep,
                pol := angularVoxelMod (st.pol + P.tStep) grid.numPolarSections,
                azi := st.azi, trans := B, voxels := V } <
              measure6 ray grid d st := by
            intro V
            rcases hmeas with ⟨htrf, hbt⟩ | ⟨hbe, hT, hF⟩
            · exact measure6_flip ray grid d st _ htrf hbt
                (by show (st.rad + R.tStep).toNat ≤ grid.numRadialSections; omega)
            · exact measure6_radial ray grid d st _ hbe hT hF
          split
          · exact Or.inr ⟨_, rfl, ⟨hb1, hb2, angularVoxelMod_nonneg _ _,
              angularVoxelMod_lt _ hNt, ha1, ha2, hj2, hvox⟩, hms _⟩
          · exact Or.inr ⟨_, rfl, ⟨hb1, hb2, angularVoxelMod_nonneg _ _,
              angularVoxelMod_lt _ hNt, ha1, ha2, hj2,
              ranges_append grid _ (setBackExitT_ranges grid _ st.voxels hvox) _
                ⟨hb1, hb2, angularVoxelMod_nonneg _ _, angularVoxelMod_lt _ hNt,
                 ha1, ha2⟩⟩, hms _⟩
      · -- RadialAzimuthal
        split at heq
        · exact Option.noConfusion heq
        · rename_i hg
          simp only [Option.some.injEq, Prod.mk.injEq] at heq
          obtain ⟨he1, he2, he3, he4⟩ := heq
          subst he1; subst he2; subst he3; subst he4
          have hRDM : R.tMax ≠ DOUBLE_MAX := hmic.1 (Or.inr (Or.inr (Or.inl hm)))
          obtain ⟨⟨hb1, hb2⟩, hj2, hmeas⟩ := radial_advance grid.numRadialSections
            st.rad st.trans st.t d.max_t_eff
            (radialEntranceTime sq ray grid st.rad d.v d.rsvd_minus_v_squared)
            (radialEntranceTime sq ray grid (grid.numRadialSections : ℤ) d.v
              d.rsvd_minus_v_squared) R B hrad heTeq hJ hr1 hr2 hne0 hRDM
          have hms : ∀ V, measure6 ray grid d
              { t := R.tMax, rad := st.rad + R.tStep, pol := st.pol,
                azi := angularVoxelMod (st.azi + A.tStep) grid.numAzimuthalSections,
                trans := B, voxels := V } < measure6 ray grid d st := by
            intro V
            rcases hmeas with ⟨htrf, hbt⟩ | ⟨hbe, hT, hF⟩
            · exact measure6_flip ray grid d st _ htrf hbt
                (by show (st.rad + R.tStep).toNat ≤ grid.numRadialSections; omega)
            · exact measure6_radial ray grid d st _ hbe hT hF
          split
          · exact Or.inr ⟨_, rfl, ⟨hb1, hb2, hp1, hp2, angularVoxelMod_nonneg _ _,
              angularVoxelMod_lt _ hNp, hj2, hvox⟩, hms _⟩
          · exact Or.inr ⟨_, rfl, ⟨hb1, hb2, hp1, hp2, angularVoxelMod_nonneg _ _,
              angularVoxelMod_lt _ hNp, hj2,
              ranges_append grid _ (setBackExitT_ranges grid _ st.voxels hvox) _
                ⟨hb1, hb2, hp1, hp2, angularVoxelMod_nonneg _ _,
                 angularVoxelMod_lt _ hNp⟩⟩, hms _⟩
      · -- PolarAzimuthal
        split at heq
        · exact Option.noConfusion heq
        · rename_i hg
          simp only [Option.some.injEq, Prod.mk.injEq] at heq
          obtain ⟨he1, he2, he3, he4⟩ := heq
          subst he1; subst he2; subst he3; subst he4
          have hPDM : P.tMax ≠ DOUBLE_MAX := hmic.2.1 (Or.inr hm)
          rcases hpol with hsent | ⟨hlt, hbd, hmem⟩
          · exact absurd (by rw [hsent]) hPDM
          have hj2 : B = false ∧ st.rad = (grid.numRadialSections : ℤ) →
              radialEntranceTime sq ray grid (grid.numRadialSections : ℤ) d.v
                d.rsvd_minus_v_squared ≤ P.tMax := by
            rintro ⟨hbf, hkn⟩
            rcases hBd with hbeq | ⟨_, hbt⟩
            · exact le_trans (hJ ⟨hbeq.symm.trans hbf, hkn⟩) (le_of_lt hlt)
            · rw [hbt] at hbf; exact Bool.noConfusion hbf
          have hms : ∀ V, measure6 ray grid d
              { t := P.tMax, rad := st.rad,
                pol := angularVoxelMod (st.pol + P.tStep) grid.numPolarSections,
                azi := angularVoxelMod (st.azi + A.tStep) grid.numAzimuthalSections,
                trans := B, voxels := V } < measure6 ray grid d st := by
            intro V
            rcases hBd with hbeq | ⟨htrf, hbt⟩
            · exact measure6_time ray grid d st _ hbeq rfl hmem hlt
            · exact measure6_flip ray grid d st _ htrf hbt
                (by show st.rad.toNat ≤ grid.numRadialSections; omega)
          split
          · exact Or.inr ⟨_, rfl, ⟨hr1, hr2, angularVoxelMod_nonneg _ _,
              angularVoxelMod_lt _ hNt, angularVoxelMod_nonneg _ _,
              angularVoxelMod_lt _ hNp, hj2, hvox⟩, hms _⟩
          · exact Or.inr ⟨_, rfl, ⟨hr1, hr2, angularVoxelMod_nonneg _ _,
              angularVoxelMod_lt _ hNt, angularVoxelMod_nonneg _ _,
              angularVoxelMod_lt _ hNp, hj2,
              ranges_append grid _ (setBackExitT_ranges grid _ st.voxels hvox) _
                ⟨hr1, hr2, angularVoxelMod_nonneg _ _, angularVoxelMod_lt _ hNt,
                 angularVoxelMod_nonneg _ _, angularVoxelMod_lt _ hNp⟩⟩, hms _⟩
      · -- RadialPolarAzimuthal
        split at heq
        · exact Option.noConfusion heq
        · rename_i hg
          simp only [Option.some.injEq, Prod.mk.injEq] at heq
          obtain ⟨he1, he2, he3, he4⟩ := heq
          subst he1; subst he2; subst he3; subst he4
          have hRDM : R.tMax ≠ DOUBLE_MAX :=
            hmic.1 (Or.inr (Or.inr (Or.inr hm)))
          obtain ⟨⟨hb1, hb2⟩, hj2, hmeas⟩ := radial_advance grid.numRadialSections
            st.rad st.trans st.t d.max_t_eff
            (radialEntranceTime sq ray grid st.rad d.v d.rsvd_minus_v_squared)
            (radialEntranceTime sq ray grid (grid.numRadialSections : ℤ) d.v
              d.rsvd_minus_v_squared) R B hrad heTeq hJ hr1 hr2 hne0 hRDM
          have hms : ∀ V, measure6 ray grid d
              { t := R.tMax, rad := st.rad + R.tStep,
                pol := angularVoxelMod (st.pol + P.tStep) grid.numPolarSections,
                azi := angularVoxelMod (st.azi + A.tStep) grid.numAzimuthalSections,
                trans := B, voxels := V } < measure6 ray grid d st := by
            intro V
            rcases hmeas with ⟨htrf, hbt⟩ | ⟨hbe, hT, hF⟩
            · exact measure6_flip ray grid d st _ htrf hbt
                (by show (st.rad + R.tStep).toNat ≤ grid.numRadialSections; omega)
            · exact measure6_radial ray grid d st _ hbe hT hF
          split
          · exact Or.inr ⟨_, rfl, ⟨hb1, hb2, angularVoxelMod_nonneg _ _,
              angularVoxelMod_lt _ hNt, angularVoxelMod_nonneg _ _,
              angularVoxelMod_lt _ hNp, hj2, hvox⟩, hms _⟩
          · exact Or.inr ⟨_, rfl, ⟨hb1, hb2, angularVoxelMod_nonneg _ _,
              angularVoxelMod_lt _ hNt, angularVoxelMod_nonneg _ _,
              angularVoxelMod_lt _ hNp, hj2,
              ranges_append grid _ (setBackExitT_ranges grid _ st.voxels hvox) _
                ⟨hb1, hb2, angularVoxelMod_nonneg _ _, angularVoxelMod_lt _ hNt,
                 angularVoxelMod_nonneg _ _, angularVoxelMod_lt _ hNp⟩⟩, hms _⟩

theorem sqA_nonneg : ∀ x : ℚ, 0 ≤ sqA x := by
  intro x
  unfold sqA
  have h := le_max_left (0 : ℚ) x
  linarith

theorem sqA_sq_lt : ∀ x y : ℚ, 0 ≤ y → y * y < x → y < sqA x := by
  intro x y hy hxy
  unfold sqA
  nlinarith [mul_self_nonneg (1 - y), le_max_right (0 : ℚ) x, le_max_left (0 : ℚ) x]

/-- Every voxel of a completed traversal is in range, given the invariant
at entry to the loop. -/
theorem loopGo_ranges (sq : ℚ → ℚ) (ray : Ray) (grid : SphericalVoxelGrid)
    (d : InitData)
    (hsq1 : ∀ x, 0 ≤ sq x) (hNr : 1 ≤ grid.numRadialSections)
    (hNt : 1 ≤ grid.numPolarSections) (hNp : 1 ≤ grid.numAzimuthalSections)
    (h64 : (grid.numRadialSections : ℤ) < 2 ^ 64)
    (hvd : d.v ≤ DOUBLE_MAX) (hmx2 : d.max_t_eff ≤ DOUBLE_MAX / 2) :
    ∀ (fuel : ℕ) (st : LoopState) (res : List SphericalVoxel),
      Inv6 sq ray grid d st → loopGo sq ray grid d fuel st = some res →
      ∀ vx ∈ res, VoxRanges grid vx
  | 0, st, res, _, h => by
    rw [loopGo] at h
    exact Option.noConfusion h
  | fuel + 1, st, res, hinv, h => by
    rw [loopGo] at h
    rcases loopStep_master sq ray grid d st hsq1 hNr hNt hNp h64 hvd hmx2 hinv with
      ⟨r, hr, hranges⟩ | ⟨st2, hst2, hinv2, _⟩
    · rw [hr] at h
      have h2 : some r = some res := h
      rw [Option.some.injEq] at h2
      rw [← h2]
      exact hranges
    · rw [hst2] at h
      exact loopGo_ranges sq ray grid d hsq1 hNr hNt hNp h64 hvd hmx2 fuel st2 res
        hinv2 h

/-- Fuel `measure6 + 1` always suffices for the main loop. -/
theorem loopGo_total (sq : ℚ → ℚ) (ray : Ray) (grid : SphericalVoxelGrid)
    (d : InitData)
    (hsq1 : ∀ x, 0 ≤ sq x) (hNr : 1 ≤ grid.numRadialSections)
    (hNt : 1 ≤ grid.numPolarSections) (hNp : 1 ≤ grid.numAzimuthalSections)
    (h64 : (grid.numRadialSections : ℤ) < 2 ^ 64)
    (hvd : d.v ≤ DOUBLE_MAX) (hmx2 : d.max_t_eff ≤ DOUBLE_MAX / 2) :
    ∀ (n : ℕ) (st : LoopState), Inv6 sq ray grid d st →
      measure6 ray grid d st ≤ n →
      ∃ res, loopGo sq ray grid d (n + 1) st = some res
  | 0, st, hinv, hmle => by
    rcases loopStep_master sq ray grid d st hsq1 hNr hNt hNp h64 hvd hmx2 hinv with
      ⟨r, hr, _⟩ | ⟨st2, hst2, _, hlt⟩
    · exact ⟨r, by rw [loopGo, hr]⟩
    · exact absurd (lt_of_lt_of_le hlt hmle) (Nat.not_lt_zero _)
  | n + 1, st, hinv, hmle => by
    rcases loopStep_master sq ray grid d st hsq1 hNr hNt hNp h64 hvd hmx2 hinv with
      ⟨r, hr, _⟩ | ⟨st2, hst2, hinv2, hlt⟩
    · exact ⟨r, by rw [loopGo, hr]⟩
    · obtain ⟨res, hres⟩ := loopGo_total sq ray grid d hsq1 hNr hNt hNp h64 hvd hmx2
        n st2 hinv2 (by omega)
      refine ⟨res, ?_⟩
      rw [loopGo, hst2]
      exact hres

/-- C6.  Every voxel emitted by `walkSphericalVolume` has indices in
range — `radial ∈ [1, N_r]`, `polar ∈ [0, N_θ−1]`,
`azimuthal ∈ [0, N_φ−1]`, including after the wrap-around angular steps
`(current + tStep) mod N` — for every ray, every `max_t`, and every grid
with at least one section per dimension whose radii table meets the grid
contract, whose table lengths fit `size_t`, and whose numeric inputs are
finite doubles (`v` and the unitized time budget below the `DBL_MAX`
band, `sq` a square root satisfying its two defining inequalities). -/
theorem c6_indices_in_range (sq : ℚ → ℚ) (ray : Ray) (grid : SphericalVoxelGrid)
    (max_t : ℚ) (fuel : ℕ) (res : List SphericalVoxel)
    (hsq1 : ∀ x, 0 ≤ sq x)
    (hsq2 : ∀ x y : ℚ, 0 ≤ y → y * y < x → y < sq x)
    (hNr : 1 ≤ grid.numRadialSections)
    (hNt : 1 ≤ grid.numPolarSections)
    (hNp : 1 ≤ grid.numAzimuthalSections)
    (h64 : (grid.numRadialSections : ℤ) < 2 ^ 64)
    (htbl : grid.deltaRadiiSquared grid.numRadialSections = 0)
    (hltP : (grid.pMaxPolarList.length : ℤ) + 2 < 2 ^ 64)
    (hltPT : (grid.polarTrigValues.length : ℤ) + 2 < 2 ^ 64)
    (hltA : (grid.pMaxAzimuthalList.length : ℤ) + 2 < 2 ^ 64)
    (hltAT : (grid.azimuthalTrigValues.length : ℤ) + 2 < 2 ^ 64)
    (hv : initV ray grid ≤ DOUBLE_MAX)
    (hb1 : max_t * grid.sphereMaxDiameter + initTRayEntrance sq ray grid ≤
      DOUBLE_MAX / 2)
    (hb2 : max_t * grid.sphereMaxDiameter ≤ DOUBLE_MAX / 2)
    (hw : walkSphericalVolume sq ray grid max_t fuel = some res) :
    ∀ vx ∈ res, 1 ≤ vx.radial ∧ vx.radial ≤ (grid.numRadialSections : ℤ) ∧
      0 ≤ vx.polar ∧ vx.polar < (grid.numPolarSections : ℤ) ∧
      0 ≤ vx.azimuthal ∧ vx.azimuthal < (grid.numAzimuthalSections : ℤ) := by
  unfold walkSphericalVolume at hw
  split_ifs at hw with h0
  · have h2 : some ([] : List SphericalVoxel) = some res := hw
    rw [Option.some.injEq] at h2
    rw [← h2]
    intro vx hvx
    exact absurd hvx (List.not_mem_nil _)
  · rcases hI : initPhase sq ray grid max_t with _ | dd
    · rw [hI] at hw
      have h2 : some ([] : List SphericalVoxel) = some res := hw
      rw [Option.some.injEq] at h2
      rw [← h2]
      intro vx hvx
      exact absurd hvx (List.not_mem_nil _)
    · rw [hI] at hw
      have h2 : loopGo sq ray grid dd fuel (initialLoopState dd ray grid) =
          some res := hw
      have hd0 := initial_Inv6 sq ray grid max_t dd hsq1 hsq2 hNr h64 htbl hltP
        hltPT hltA hltAT hI
      have hvd : dd.v ≤ DOUBLE_MAX := by
        rw [(initPhase_inv sq ray grid max_t dd hI).1]
        exact hv
      have hmx2 : dd.max_t_eff ≤ DOUBLE_MAX / 2 :=
        initPhase_maxt_le sq ray grid max_t dd hI hb1 hb2
      exact loopGo_ranges sq ray grid dd hsq1 hNr hNt hNp h64 hvd hmx2 fuel _ res
        hd0 h2

/-- C4.  The main traversal loop of `walkSphericalVolume` terminates after
finitely many iterations for every ray, grid (as in C6) and `max_t`: the
computable fuel bound `walkFuel` — transition flag above radial progress
above the candidate hit times still ahead of `t` — is never exhausted, so
the fuel-indexed embedding of the C++ `while (true)` loop returns. -/
theorem c4_loop_terminates (sq : ℚ → ℚ) (ray : Ray) (grid : SphericalVoxelGrid)
    (max_t : ℚ)
    (hsq1 : ∀ x, 0 ≤ sq x)
    (hsq2 : ∀ x y : ℚ, 0 ≤ y → y * y < x → y < sq x)
    (hNr : 1 ≤ grid.numRadialSections)
    (hNt : 1 ≤ grid.numPolarSections)
    (hNp : 1 ≤ grid.numAzimuthalSections)
    (h64 : (grid.numRadialSections : ℤ) < 2 ^ 64)
    (htbl : grid.deltaRadiiSquared grid.numRadialSections = 0)
    (hltP : (grid.pMaxPolarList.length : ℤ) + 2 < 2 ^ 64)
    (hltPT : (grid.polarTrigValues.length : ℤ) + 2 < 2 ^ 64)
    (hltA : (grid.pMaxAzimuthalList.length : ℤ) + 2 < 2 ^ 64)
    (hltAT : (grid.azimuthalTrigValues.length : ℤ) + 2 < 2 ^ 64)
    (hv : initV ray grid ≤ DOUBLE_MAX)
    (hb1 : max_t * grid.sphereMaxDiameter + initTRayEntrance sq ray grid ≤
      DOUBLE_MAX / 2)
    (hb2 : max_t * grid.sphereMaxDiameter ≤ DOUBLE_MAX / 2) :
    walkSphericalVolume sq ray grid max_t (walkFuel sq ray grid max_t) ≠ none := by
  by_cases h0 : max_t ≤ 0
  · unfold walkSphericalVolume
    rw [if_pos h0]
    intro hc
    exact Option.noConfusion hc
  · rcases hI : initPhase sq ray grid max_t with _ | dd
    · unfold walkSphericalVolume
      rw [if_neg h0, hI]
      intro hc
      exact Option.noConfusion (show some ([] : List SphericalVoxel) = none from hc)
    · have hd0 := initial_Inv6 sq ray grid max_t dd hsq1 hsq2 hNr h64 htbl hltP
        hltPT hltA hltAT hI
      have hvd : dd.v ≤ DOUBLE_MAX := by
        rw [(initPhase_inv sq ray grid max_t dd hI).1]
        exact hv
      have hmx2 : dd.max_t_eff ≤ DOUBLE_MAX / 2 :=
        initPhase_maxt_le sq ray grid max_t dd hI hb1 hb2
      obtain ⟨res, hres⟩ := loopGo_total sq ray grid dd hsq1 hNr hNt hNp h64 hvd
        hmx2 (measure6 ray grid dd (initialLoopState dd ray grid)) _ hd0
        (le_refl _)
      have hF : walkFuel sq ray grid max_t =
          measure6 ray grid dd (initialLoopState dd ray grid) + 1 := by
        unfold walkFuel
        rw [hI]
      unfold walkSphericalVolume
      rw [if_neg h0, hI, hF]
      intro hc
      have hc2 : loopGo sq ray grid dd
          (measure6 ray grid dd (initialLoopState dd ray grid) + 1)
          (initialLoopState dd ray grid) = none := hc
      rw [hres] at hc2
      exact Option.noConfusion hc2

theorem c6_indices_in_range_witness :
    1 ≤ (⟨1, 0, 0, 0, 4⟩ : SphericalVoxel).radial ∧
    (⟨1, 0, 0, 0, 4⟩ : SphericalVoxel).radial ≤ (grid1.numRadialSections : ℤ) ∧
    0 ≤ (⟨1, 0, 0, 0, 4⟩ : SphericalVoxel).polar ∧
    (⟨1, 0, 0, 0, 4⟩ : SphericalVoxel).polar < (grid1.numPolarSections : ℤ) ∧
    0 ≤ (⟨1, 0, 0, 0, 4⟩ : SphericalVoxel).azimuthal ∧
    (⟨1, 0, 0, 0, 4⟩ : SphericalVoxel).azimuthal <
      (grid1.numAzimuthalSections : ℤ) :=
  c6_indices_in_range sqA ray1 grid1 1 1 [⟨1, 0, 0, 0, 4⟩] sqA_nonneg sqA_sq_lt
    (Nat.le_refl 1) (Nat.le_refl 1) (Nat.le_refl 1)
    (by norm_num [show grid1.numRadialSections = 1 from rfl])
    rfl
    (by norm_num [show grid1.pMaxPolarList.length = 2 from rfl])
    (by norm_num [show grid1.polarTrigValues.length = 2 from rfl])
    (by norm_num [show grid1.pMaxAzimuthalList.length = 2 from rfl])
    (by norm_num [show grid1.azimuthalTrigValues.length = 2 from rfl])
    (by rw [show initV ray1 grid1 = 2 from by with_unfolding_all rfl, DOUBLE_MAX]
        norm_num)
    (by rw [show grid1.sphereMaxDiameter = 2 from rfl,
          show initTRayEntrance sqA ray1 grid1 = 0 from by with_unfolding_all rfl,
          DOUBLE_MAX]
        norm_num)
    (by rw [show grid1.sphereMaxDiameter = 2 from rfl, DOUBLE_MAX]
        norm_num)
    walkA_eval ⟨1, 0, 0, 0, 4⟩ (List.mem_singleton_self _)

theorem c4_loop_terminates_witness :
    walkSphericalVolume sqA ray1 grid1 1 (walkFuel sqA ray1 grid1 1) ≠ none :=
  c4_loop_terminates sqA ray1 grid1 1 sqA_nonneg sqA_sq_lt
    (Nat.le_refl 1) (Nat.le_refl 1) (Nat.le_refl 1)
    (by norm_num [show grid1.numRadialSections = 1 from rfl])
    rfl
    (by norm_num [show grid1.pMaxPolarList.length = 2 from rfl])
    (by norm_num [show grid1.polarTrigValues.length = 2 from rfl])
    (by norm_num [show grid1.pMaxAzimuthalList.length = 2 from rfl])
    (by norm_num [show grid1.azimuthalTrigValues.length = 2 from rfl])
    (by rw [show initV ray1 grid1 = 2 from by with_unfolding_all rfl, DOUBLE_MAX]
        norm_num)
    (by rw [show grid1.sphereMaxDiameter = 2 from rfl,
          show initTRayEntrance sqA ray1 grid1 = 0 from by with_unfolding_all rfl,
          DOUBLE_MAX]
        norm_num)
    (by rw [show grid1.sphereMaxDiameter = 2 from rfl, DOUBLE_MAX]
        norm_num)

end SVR
